import Mathlib

/-!
Verification development for the DataPilot-AI asynchronous job processing
engine.  The definitions below are shallow embeddings of the Python source
under `src/`:

* `src/src/lib/retry.py`            — `retry_with_backoff`, `retry_http_call`
* `src/src/lib/llm_client.py`       — circuit breaker, `generate_insights`
* `src/src/lib/llm_client_fewshot.py` — `generate_insights_fewshot`
* `src/src/lib/insight_validator.py` — `validate_and_normalize`
* `src/src/lib/fallback_generator.py` — `generate_fallback_insights`
* `src/src/jobs/process_job.py`     — job lifecycle, `_check_timeout`
* `src/src/worker.py`               — `signal_handler`
* `src/api/job-status/[jobId].py`   — status-poll timeout reconciliation

Machine reals (Python floats) are modelled as rationals; wall-clock
timestamps are rationals.  Python exceptions are modelled with `Except`.
-/

namespace DataPilot

/-! ## Retry executors (`src/src/lib/retry.py`)

The wrapped callable is modelled as an oracle from the attempt number
(1-based, as in `for attempt in range(1, attempts + 1)`) to either a result
value or a raised exception.  `random.uniform(0.9, 1.1)` is modelled by a
jitter oracle; the callers of the theorems constrain it to `[0.9, 1.1]`.
Each executor additionally returns the trace of `time.sleep` calls as pairs
`(k, d)`: a delay of `d` seconds slept before attempt `k`.
-/

/-- Classification data of a Python exception as inspected by
`retry_http_call` (lines 142-160 of `retry.py`): an exception carrying a
`status_code` attribute (directly or through `.response`), a
network/timeout error without a status code (`ConnectionError`,
`TimeoutError`, `IOError`), or any other exception.  The `msg` of `other`
models `str(e)`. -/
inductive CallExc where
  | http (code : Int) (isNetwork : Bool)
  | network
  | other (msg : String)
  deriving DecidableEq, Repr

/-- Result of running a retry executor: success value on some attempt,
an exception re-raised on some attempt, or the defensive
`RuntimeError("Unexpected retry loop exit")` reached only when
`attempts = 0`. -/
inductive RunResult (α : Type) where
  | ok (v : α) (attempt : Nat)
  | raised (e : CallExc) (attempt : Nat)
  | loopExit
  deriving DecidableEq, Repr

/-- Backoff delay computed after a failure of attempt `attempt`
(retry.py lines 72/75 and 167/168):
`delay = min(max_delay, initial_delay * factor ** (attempt - 1))`
then `delay *= random.uniform(0.9, 1.1)`. -/
def backoffDelay (initialDelay factor maxDelay : ℚ) (attempt : Nat) (jitter : ℚ) : ℚ :=
  min maxDelay (initialDelay * factor ^ (attempt - 1)) * jitter

/-- Retry predicate of `retry_http_call` (retry.py lines 140-160).
`if status_code:` is Python truthiness, so a status of `0` falls through to
the network-error test, as does an exception with no status attribute. -/
def httpShouldRetry (e : CallExc) (attempt : Nat) : Bool :=
  match e with
  | .http code isNetwork =>
    if code ≠ 0 then
      if 500 ≤ code ∨ code = 429 then true
      else if (code = 401 ∨ code = 403) ∧ attempt = 1 then true
      else false
    else isNetwork
  | .network => true
  | .other _ => false

/-- Loop body of `retry_http_call` (retry.py lines 128-175).  `fuel` is the
number of remaining iterations of `for attempt in range(1, attempts + 1)`;
the function is entered with `attempt = 1` and `fuel = attempts`. -/
def retryHttpAux {α : Type} (call : Nat → Except CallExc α) (jitter : Nat → ℚ)
    (attempts : Nat) (initialDelay factor maxDelay : ℚ) :
    Nat → Nat → RunResult α × List (Nat × ℚ)
  | _, 0 => (.loopExit, [])
  | attempt, fuel + 1 =>
    match call attempt with
    | .ok v => (.ok v attempt, [])
    | .error e =>
      if ¬ httpShouldRetry e attempt ∨ attempt = attempts then
        (.raised e attempt, [])
      else
        let d := backoffDelay initialDelay factor maxDelay attempt (jitter attempt)
        let rest := retryHttpAux call jitter attempts initialDelay factor maxDelay (attempt + 1) fuel
        (rest.1, (attempt + 1, d) :: rest.2)

/-- `retry_http_call(fn, attempts, initial_delay, factor, max_delay)`
(retry.py lines 95-179), with the trace of sleeps. -/
def retryHttpCall {α : Type} (call : Nat → Except CallExc α) (jitter : Nat → ℚ)
    (attempts : Nat) (initialDelay factor maxDelay : ℚ) :
    RunResult α × List (Nat × ℚ) :=
  retryHttpAux call jitter attempts initialDelay factor maxDelay 1 attempts

/-- Exception classification seen by `retry_with_backoff`: membership in the
`retry_exceptions` tuple decides retryability (retry.py lines 64 and 84). -/
inductive RwbExc where
  | retryable
  | fatal
  deriving DecidableEq, Repr

/-- Result type for `retry_with_backoff`. -/
inductive RwbResult (α : Type) where
  | ok (v : α) (attempt : Nat)
  | raised (e : RwbExc) (attempt : Nat)
  | loopExit
  deriving DecidableEq, Repr

/-- Loop body of `retry_with_backoff` (retry.py lines 52-92); fuel as in
`retryHttpAux`. -/
def retryWithBackoffAux {α : Type} (call : Nat → Except RwbExc α) (jitter : Nat → ℚ)
    (attempts : Nat) (initialDelay factor maxDelay : ℚ) :
    Nat → Nat → RwbResult α × List (Nat × ℚ)
  | _, 0 => (.loopExit, [])
  | attempt, fuel + 1 =>
    match call attempt with
    | .ok v => (.ok v attempt, [])
    | .error .fatal => (.raised .fatal attempt, [])
    | .error .retryable =>
      if attempt = attempts then (.raised .retryable attempt, [])
      else
        let d := backoffDelay initialDelay factor maxDelay attempt (jitter attempt)
        let rest := retryWithBackoffAux call jitter attempts initialDelay factor maxDelay
          (attempt + 1) fuel
        (rest.1, (attempt + 1, d) :: rest.2)

/-- `retry_with_backoff(fn, attempts, initial_delay, factor, max_delay,
retry_exceptions)` (retry.py lines 21-92), with the trace of sleeps. -/
def retryWithBackoff {α : Type} (call : Nat → Except RwbExc α) (jitter : Nat → ℚ)
    (attempts : Nat) (initialDelay factor maxDelay : ℚ) :
    RwbResult α × List (Nat × ℚ) :=
  retryWithBackoffAux call jitter attempts initialDelay factor maxDelay 1 attempts

/-! ## Circuit breaker (`src/src/lib/llm_client.py` lines 28-99)

The identical code also appears in `llm_client_fewshot.py` lines 41-99.
The module-level `_circuit_breaker_state` dict is modelled as an explicit
state value.  `opened_at` is an `Option ℚ` (`None` initially); the Python
guard `if _circuit_breaker_state['opened_at'] and ...` tests float
truthiness, so an `opened_at` of exactly `0` is treated like `None`. -/

structure CBConfig where
  threshold : Nat
  window : ℚ
  cooldown : ℚ
  deriving DecidableEq, Repr

structure CBState where
  failures : List ℚ
  isOpen : Bool
  openedAt : Option ℚ
  deriving DecidableEq, Repr

/-- Initial state (llm_client.py lines 34-38). -/
def CBState.initial : CBState := { failures := [], isOpen := false, openedAt := none }

/-- `_check_circuit_breaker()` (llm_client.py lines 51-88).  Returns the
boolean result (`True` = circuit open, use fallback) and the updated
state. -/
def checkCircuitBreaker (cfg : CBConfig) (now : ℚ) (s : CBState) : Bool × CBState :=
  if s.isOpen then
    match s.openedAt with
    | some t =>
      if t ≠ 0 ∧ cfg.cooldown ≤ now - t then
        (false, { failures := [], isOpen := false, openedAt := none })
      else (true, s)
    | none => (true, s)
  else
    let windowStart := now - cfg.window
    let failures := s.failures.filter (fun ts => windowStart ≤ ts)
    if cfg.threshold ≤ failures.length then
      (true, { failures := failures, isOpen := true, openedAt := some now })
    else
      (false, { s with failures := failures })

/-- `_record_llm_failure()` (llm_client.py lines 90-93). -/
def recordLlmFailure (now : ℚ) (s : CBState) : CBState :=
  { s with failures := s.failures ++ [now] }

/-- `_record_llm_success()` (llm_client.py lines 95-99). -/
def recordLlmSuccess (s : CBState) : CBState :=
  if s.failures.isEmpty then s else { s with failures := [] }

/-! ## Job records and timeout checks

`JobRecord` models the JSON document stored under `job:{jobId}`
(the fields touched by the timeout/cancel/shutdown paths).  Timestamps are
rationals standing for the parsed ISO datetimes. -/

inductive JobStatus where
  | submitted
  | processing
  | completed
  | failed
  | cancelled
  deriving DecidableEq, Repr

structure JobRecord where
  status : JobStatus
  timeoutAt : Option ℚ
  error : Option String
  errorMessage : Option String
  deriving DecidableEq, Repr

/-- `_check_timeout(redis_client, key, start_time, job_id)` in
`process_job.py` lines 279-308, as a function of the freshly read record
and the current time.  When `now > timeoutAt` it performs
`_fail_job_with_error_json(..., "timeout")` — regardless of the record's
current `status` field — and returns `True`. -/
def checkTimeoutWorker (rec : JobRecord) (now : ℚ) : Bool × JobRecord :=
  match rec.timeoutAt with
  | none => (false, rec)
  | some t =>
    if t < now then
      (true, { rec with
        status := .failed
        error := some "timeout"
        errorMessage := some "Job exceeded maximum processing time" })
    else (false, rec)

/-- Timeout reconciliation inside the status poll
(`src/api/job-status/[jobId].py` lines 52-70): only a record whose status
is `processing` and whose `timeoutAt` has passed is rewritten to
`failed`/`timeout`. -/
def pollTimeoutCheck (rec : JobRecord) (now : ℚ) : JobRecord :=
  if rec.status = .processing then
    match rec.timeoutAt with
    | some t =>
      if t < now then
        { rec with
          status := .failed
          error := some "timeout"
          errorMessage := some "Job exceeded maximum processing time" }
      else rec
    | none => rec
  else rec

/-- `signal_handler` (worker.py lines 57-90): writes `failed` with code
`worker_shutdown` only when the freshly read record has status
`processing`; otherwise it writes nothing (`none`). -/
def signalHandlerWrite (rec : JobRecord) : Option JobRecord :=
  if rec.status = .processing then
    some { rec with
      status := .failed
      error := some "worker_shutdown"
      errorMessage := some "Worker shutdown during processing" }
  else none

/-! ## The consumer's per-job control flow (`process_job.py` lines 19-269)

`process_job` is embedded as a function from an environment describing the
outcome of every store read and fallible collaborator call to the sequence
of status writes it performs on the job record, together with a flag
recording whether any of its cancellation checks (`_is_job_cancelled`)
observed status `cancelled`.  Parse failures are caught internally
(lines 125-129) and only influence whether the DataFrame is empty. -/

inductive WriteEvent where
  | processing
  | completed
  | failedTimeout
  | failedProcessingError
  deriving DecidableEq, Repr

structure JobEnv where
  /-- `_is_job_cancelled` result at the checkpoint before processing (line 44). -/
  cancelledBefore : Bool
  /-- `_is_job_cancelled` result after parsing (line 132). -/
  cancelledAfterParse : Bool
  /-- `_is_job_cancelled` result before analysis (line 157). -/
  cancelledBeforeAnalysis : Bool
  /-- `_is_job_cancelled` result inside the exception handler (line 256). -/
  cancelledInHandler : Bool
  /-- whether `_check_timeout` fires at the post-parse checkpoint (line 137). -/
  timedOutAfterParse : Bool
  /-- `storage.ensure_local_path` succeeds (line 58). -/
  downloadOk : Bool
  /-- the parsed DataFrame is `None` or empty (line 143). -/
  dfEmpty : Bool
  /-- `_save_non_tabular_result` blob write succeeds (line 147). -/
  nonTabularSaveOk : Bool
  /-- the EDA calls succeed (lines 164-168). -/
  analysisOk : Bool
  /-- `llm_client.generate_insights` returns without raising (line 175). -/
  llmOk : Bool
  /-- `transform_to_ui` succeeds (line 191). -/
  transformOk : Bool
  /-- `storage.save_file_to_blob` for the result succeeds (line 220). -/
  saveOk : Bool
  deriving DecidableEq, Repr

/-- The `except Exception` handler of `process_job` (lines 251-269): it
re-checks cancellation and only when that check is negative does it write
`failed` with code `processing_error`. -/
def processJobHandler (env : JobEnv) : List WriteEvent × Bool :=
  if env.cancelledInHandler then ([], true) else ([.failedProcessingError], false)

/-- `process_job` (process_job.py lines 19-269) as a write trace.  The
second component records whether any executed `_is_job_cancelled` check
returned `True`. -/
def processJob (env : JobEnv) : List WriteEvent × Bool :=
  if env.cancelledBefore then ([], true)
  else
    let afterProcessing : List WriteEvent × Bool :=
      if ¬ env.downloadOk then processJobHandler env
      else if env.cancelledAfterParse then ([], true)
      else if env.timedOutAfterParse then ([.failedTimeout], false)
      else if env.dfEmpty then
        if ¬ env.nonTabularSaveOk then processJobHandler env
        else ([.completed], false)
      else if env.cancelledBeforeAnalysis then ([], true)
      else if ¬ env.analysisOk then processJobHandler env
      else if ¬ env.llmOk then processJobHandler env
      else if ¬ env.transformOk then processJobHandler env
      else if ¬ env.saveOk then processJobHandler env
      else ([.completed], false)
    (.processing :: afterProcessing.1, afterProcessing.2)

/-! ## A model of Python JSON-like values

The validator, the fallback generator and the orchestration manipulate
values produced by `json.loads` plus the booleans/numbers the code itself
creates.  `PyVal` models them; dictionaries are association lists with
string keys (insertion-ordered, as Python dicts are).  Raised exceptions
are modelled with `Except PyErr`. -/

inductive PyVal where
  | none
  | bool (b : Bool)
  | int (n : Int)
  | float (q : ℚ)
  | str (s : String)
  | list (xs : List PyVal)
  | dict (kvs : List (String × PyVal))

inductive PyErr where
  | attributeError (msg : String)
  | typeError (msg : String)
  | valueError (msg : String)
  | zeroDivisionError
  deriving DecidableEq, Repr

/-- Python truthiness. -/
def PyVal.truthy : PyVal → Bool
  | .none => false
  | .bool b => b
  | .int n => decide (n ≠ 0)
  | .float q => decide (q ≠ 0)
  | .str s => decide (s ≠ "")
  | .list xs => !xs.isEmpty
  | .dict kvs => !kvs.isEmpty

/-- `len(v)` when defined. -/
def PyVal.len? : PyVal → Option Nat
  | .str s => some s.length
  | .list xs => some xs.length
  | .dict kvs => some kvs.length
  | _ => Option.none

/-- First binding of a key in a dict (Python dict keys are unique, so the
first binding is the binding). -/
def dictLookup (kvs : List (String × PyVal)) (k : String) : Option PyVal :=
  List.lookup k kvs

def dictGetD (kvs : List (String × PyVal)) (k : String) (dflt : PyVal) : PyVal :=
  (dictLookup kvs k).getD dflt

/-- `k in d` for a dict. -/
def dictHas (kvs : List (String × PyVal)) (k : String) : Bool :=
  (dictLookup kvs k).isSome

/-- `v.get(k, dflt)` — `.get` exists only on dicts, anything else raises
`AttributeError`. -/
def pyGetD (v : PyVal) (k : String) (dflt : PyVal) : Except PyErr PyVal :=
  match v with
  | .dict kvs => .ok (dictGetD kvs k dflt)
  | _ => .error (.attributeError "get")

/-- `v.keys()`. -/
def pyKeys : PyVal → Except PyErr (List String)
  | .dict kvs => .ok (kvs.map Prod.fst)
  | _ => .error (.attributeError "keys")

/-- `v.items()`. -/
def pyItems : PyVal → Except PyErr (List (String × PyVal))
  | .dict kvs => .ok kvs
  | _ => .error (.attributeError "items")

/-- `len(v)`, raising `TypeError` on unsized values. -/
def pyLen : PyVal → Except PyErr Nat := fun v =>
  match v.len? with
  | some n => .ok n
  | Option.none => .error (.typeError "object has no len")

/-- Python iteration: lists yield elements, dicts their keys, strings
their characters; other values raise `TypeError`. -/
def pyIter : PyVal → Except PyErr (List PyVal)
  | .list xs => .ok xs
  | .dict kvs => .ok (kvs.map (fun kv => PyVal.str kv.1))
  | .str s => .ok (s.data.map (fun c => PyVal.str (String.mk [c])))
  | _ => .error (.typeError "not iterable")

/-- `isinstance(v, (int, float))` — Python `bool` is a subclass of `int`. -/
def PyVal.isNum : PyVal → Bool
  | .bool _ | .int _ | .float _ => true
  | _ => false

def PyVal.isDict : PyVal → Bool
  | .dict _ => true
  | _ => false

def PyVal.isList : PyVal → Bool
  | .list _ => true
  | _ => false

def PyVal.isStr : PyVal → Bool
  | .str _ => true
  | _ => false

/-- The expression `float(value) if isinstance(value, (int, float)) else
value` from `_validate_evidence`. -/
def floatIfNumeric (v : PyVal) : PyVal :=
  match v with
  | .bool b => .float (if b then 1 else 0)
  | .int n => .float n
  | .float q => .float q
  | v => v

/-- ASCII whitespace as stripped by `str.strip()` / accepted by `int()`. -/
def isSpaceChar (c : Char) : Bool :=
  c = ' ' || c = '\t' || c = '\n' || c = '\r'

/-- `s.strip()`. -/
def strTrim (s : String) : String :=
  String.mk (((s.data.dropWhile isSpaceChar).reverse.dropWhile isSpaceChar).reverse)

/-- `s.lower()`. -/
def strLower (s : String) : String :=
  String.mk (s.data.map Char.toLower)

/-- Decimal digit-run parser used by the model of `int(str)`. -/
def digitsParse : List Char → Option Nat
  | [] => Option.none
  | cs =>
    if cs.all Char.isDigit
    then some (cs.foldl (fun a c => a * 10 + (c.toNat - 48)) 0)
    else Option.none

/-- `int(s)` for a whitespace-stripped string. -/
def strToInt? (s : String) : Option Int :=
  match s.data with
  | '-' :: rest => (digitsParse rest).map (fun n => -(n : Int))
  | '+' :: rest => (digitsParse rest).map (fun n => (n : Int))
  | cs => (digitsParse cs).map (fun n => (n : Int))

/-- `int(v)` when it succeeds (ValueError/TypeError otherwise): booleans
and ints pass through, floats truncate toward zero, strings parse as
decimal integers after stripping whitespace. -/
def pyToInt? : PyVal → Option Int
  | .bool b => some (if b then 1 else 0)
  | .int n => some n
  | .float q => some (q.num.tdiv q.den)
  | .str s => strToInt? (strTrim s)
  | _ => Option.none

/-- Decimal digit characters of a positive natural (most significant
first); the first argument is structural fuel (`n` itself suffices since
`n / 10 < n` for positive `n`). -/
def natDigitsAux : Nat → Nat → List Char
  | _, 0 => []
  | 0, _ + 1 => []
  | fuel + 1, n + 1 => natDigitsAux fuel ((n + 1) / 10) ++ [Char.ofNat (48 + (n + 1) % 10)]

def natDigits (n : Nat) : List Char := natDigitsAux n n

def natStr (n : Nat) : String :=
  if n = 0 then "0" else String.mk (natDigits n)

def intStr (n : Int) : String :=
  if n < 0 then "-" ++ natStr n.natAbs else natStr n.natAbs

/-- Rendering of a rational (a Python float in this model).  Python's
float-repr digits are not reproduced; this rendering is only used inside
human-readable message strings. -/
def ratStr (q : ℚ) : String :=
  if q.den = 1 then intStr q.num ++ ".0" else intStr q.num ++ "/" ++ natStr q.den

def sepComma (xs : List String) : String := String.intercalate ", " xs

mutual
/-- `str(v)` (string quoting inside containers is omitted; numeric
rendering as above). -/
def pyStr : PyVal → String
  | .none => "None"
  | .bool b => if b then "True" else "False"
  | .int n => intStr n
  | .float q => ratStr q
  | .str s => s
  | .list xs => "[" ++ sepComma (pyStrList xs) ++ "]"
  | .dict kvs => "\x7b" ++ sepComma (pyStrDict kvs) ++ "\x7d"

def pyStrList : List PyVal → List String
  | [] => []
  | x :: xs => pyStr x :: pyStrList xs

def pyStrDict : List (String × PyVal) → List String
  | [] => []
  | kv :: kvs => (kv.1 ++ ": " ++ pyStr kv.2) :: pyStrDict kvs
end

/-- Effectful map over a list in the `Except` monad, mirroring a Python
`for` loop that may raise: stops at the first exception. -/
def exceptMapM {α β : Type} (f : α → Except PyErr β) : List α → Except PyErr (List β)
  | [] => pure []
  | x :: xs => do
    let y ← f x
    let ys ← exceptMapM f xs
    pure (y :: ys)

/-- `needle in hay` on character lists. -/
def charsContains (needle : List Char) : List Char → Bool
  | [] => needle.isEmpty
  | c :: t => needle.isPrefixOf (c :: t) || charsContains needle t

/-- `needle in hay` for strings. -/
def strContains (hay needle : String) : Bool :=
  charsContains needle.data hay.data

/-- `s.startswith(pre)`. -/
def strStartsWith (s pre : String) : Bool :=
  pre.data.isPrefixOf s.data

def pyNum? : PyVal → Option ℚ
  | .bool b => some (if b then 1 else 0)
  | .int n => some (n : ℚ)
  | .float q => some q
  | _ => Option.none

mutual
/-- Python `==`: numbers (including booleans) compare by value across
types, strings structurally, lists elementwise, dicts entrywise (key-order
sensitively here, which agrees with Python for the unique-key,
insertion-ordered dicts this code manipulates); any other combination is
`False`.  Python `==` never raises. -/
def pyEq : PyVal → PyVal → Bool
  | .none, .none => true
  | .str a, .str b => a == b
  | .list xs, .list ys => pyEqList xs ys
  | .dict xs, .dict ys => pyEqDict xs ys
  | a, b =>
    match pyNum? a, pyNum? b with
    | some x, some y => x == y
    | _, _ => false

def pyEqList : List PyVal → List PyVal → Bool
  | [], [] => true
  | x :: xs, y :: ys => pyEq x y && pyEqList xs ys
  | _, _ => false

def pyEqDict : List (String × PyVal) → List (String × PyVal) → Bool
  | [], [] => true
  | (k1, v1) :: xs, (k2, v2) :: ys => k1 == k2 && pyEq v1 v2 && pyEqDict xs ys
  | _, _ => false
end

/-! ## Insight validator (`src/src/lib/insight_validator.py`)

Message strings follow the source except that quote characters around
interpolated values are omitted.  The canonical vocabularies are Python
`set` literals whose iteration order is unspecified; they are fixed here in
the order written in the source (lines 18-26), which only matters for the
fuzzy-containment pass of `_normalize_value`. -/

def CANONICAL_SEVERITY : List String := ["high", "medium", "low"]

def CANONICAL_WHO : List String :=
  ["data_engineer", "analyst", "business_user", "data_scientist"]

def CANONICAL_PRIORITY : List String := ["urgent", "high", "medium", "low"]

def CANONICAL_CATEGORY : List String :=
  ["outlier", "missing_data", "correlation", "trend", "distribution",
   "quality", "seasonality", "duplicate"]

def CANONICAL_VISUAL_ACTIONS : List String :=
  ["highlight_outliers", "add_trendline", "filter_nulls", "show_correlation"]

/-- `_normalize_value(value, canonical_set, default)` (insight_validator.py
lines 30-48): falsy values give the default; exact match after
lower/strip; then the first canonical value related by substring
containment in either direction; then the default. -/
def normalizeValue (value : PyVal) (canonicalSet : List String) (default : String) : String :=
  if !value.truthy then default
  else
    let valueLower := strTrim (strLower (pyStr value))
    if canonicalSet.contains valueLower then valueLower
    else
      match canonicalSet.find? (fun c => strContains valueLower c || strContains c valueLower) with
      | some c => c
      | Option.none => default

/-- Python hashability at the value shapes of this universe: `None`,
booleans, numbers and strings are hashable; lists and dicts raise
`TypeError: unhashable type` when hashed (set insertion or set
membership). -/
def pyHashable : PyVal → Bool
  | .list _ => false
  | .dict _ => false
  | _ => true

/-- `chart_specs = compact_eda.get('chartSpecs', [])` followed by
`chart_ids = {chart.get('id') for chart in chart_specs}` — these two lines
appear verbatim in both `_validate_evidence` (lines 119-120) and
`_normalize_visual_action` (lines 229-230).  The set comprehension hashes
each `chart.get('id')` as it is inserted, so an unhashable id (a list or
dict) raises `TypeError` at that point. -/
def edaChartIds (compactEda : PyVal) : Except PyErr (List PyVal) := do
  let chartSpecs ← pyGetD compactEda "chartSpecs" (.list [])
  let charts ← pyIter chartSpecs
  exceptMapM (fun ch => do
    let v ← pyGetD ch "id" .none
    if pyHashable v then pure v
    else Except.error (.typeError "unhashable type")) charts

/-- `_validate_evidence(evidence, compact_eda)` (insight_validator.py lines
51-128).  The caller always passes a dict, so the argument is the dict's
bindings.  The `try/except` around
`float(value) if isinstance(value, (int, float)) else value` can never
fire (the conversion is only applied to values that are already numbers),
so the "is not numeric" issue of line 95 is dead code and non-numeric
aggregate values pass through unchanged.  `chart_id not in chart_ids`
(line 122) hashes `chart_id`, raising `TypeError` when it is a list or a
dict. -/
def validateEvidence (evidence : List (String × PyVal)) (compactEda : PyVal) :
    Except PyErr (PyVal × List String) := do
  let rawAggregatesV := dictGetD evidence "aggregates" (.dict [])
  let (aggIssues0, rawAggregates) :=
    match rawAggregatesV with
    | .dict kvs => (([] : List String), kvs)
    | _ => (["aggregates must be a dictionary"], [])
  let kpis ← pyGetD compactEda "kpis" (.dict [])
  let kpiNames ← pyKeys kpis
  let numericStatsV ← pyGetD kpis "numericStats" (.dict [])
  let numericCols ← pyKeys numericStatsV
  let aggKeyIssues := rawAggregates.filterMap (fun kv =>
    if !(kpiNames.contains kv.1) && !(numericCols.any (fun col => strContains kv.1 col))
    then some ("aggregate key " ++ kv.1 ++ " not found in KPIs or numeric columns")
    else Option.none)
  let normAggregates := rawAggregates.map (fun kv => (kv.1, floatIfNumeric kv.2))
  let rawIndicesV := dictGetD evidence "row_indices" (.list [])
  let (idxIssues0, rawIndices) :=
    match rawIndicesV with
    | .list xs => (([] : List String), xs)
    | _ => (["row_indices must be a list"], [])
  let cleanedPreview ← pyGetD compactEda "cleanedPreview" (.list [])
  let previewLen ← pyLen cleanedPreview
  let maxIndex : Int := (previewLen : Int) - 1
  let idxResults := rawIndices.map (fun idx =>
    match pyToInt? idx with
    | some i =>
      if 0 ≤ i ∧ i ≤ maxIndex then (([] : List String), [PyVal.int i])
      else (["row_index " ++ intStr i ++ " out of range [0, " ++ intStr maxIndex ++ "]"],
        ([] : List PyVal))
    | Option.none => (["row_index " ++ pyStr idx ++ " is not an integer"], []))
  let rowIssues := (idxResults.map Prod.fst).flatten
  let keptIndices := (idxResults.map Prod.snd).flatten
  let chartIdV := dictGetD evidence "chart_id" .none
  let (chartIssues, chartVal) ←
    match chartIdV with
    | .none => pure (([] : List String), PyVal.none)
    | cid => do
      let ids ← edaChartIds compactEda
      if !pyHashable cid then Except.error (.typeError "unhashable type")
      else if ids.any (fun x => pyEq x cid) then pure (([] : List String), cid)
      else pure (["chart_id " ++ pyStr cid ++ " not found in chartSpecs"], PyVal.none)
  pure (PyVal.dict [
      ("aggregates", .dict normAggregates),
      ("row_indices", .list keptIndices),
      ("chart_id", chartVal)],
    aggIssues0 ++ aggKeyIssues ++ idxIssues0 ++ rowIssues ++ chartIssues)

/-- `_normalize_insight(insight, idx, compact_eda)` (insight_validator.py
lines 131-207).  `insight.get('id', ...).startswith('i')` raises
`AttributeError` when the provided id is not a string; `len(text)` raises
`TypeError` on a truthy unsized text value. -/
def normalizeInsight (insight : List (String × PyVal)) (idx : Nat) (compactEda : PyVal) :
    Except PyErr (PyVal × List String) := do
  let rawId := dictGetD insight "id" (.str ("i" ++ natStr (idx + 1)))
  let insightId ←
    match rawId with
    | .str s => pure (if strStartsWith s "i" then s else "i" ++ natStr (idx + 1))
    | _ => Except.error (.attributeError "startswith")
  let rawText := dictGetD insight "text" (.str "")
  let (textIssues, text) ←
    if !rawText.truthy then
      pure (["insight " ++ insightId ++ ": text is too short or missing"],
        PyVal.str "Insight description missing")
    else do
      let n ← pyLen rawText
      if n < 10 then
        pure (["insight " ++ insightId ++ ": text is too short or missing"],
          PyVal.str "Insight description missing")
      else pure (([] : List String), rawText)
  let severity := normalizeValue (dictGetD insight "severity" (.str "medium"))
    CANONICAL_SEVERITY "medium"
  let category := normalizeValue (dictGetD insight "category" (.str "quality"))
    CANONICAL_CATEGORY "quality"
  let rawEvidenceV := dictGetD insight "evidence" (.dict [])
  let (evIssues0, rawEvidence) :=
    match rawEvidenceV with
    | .dict kvs => (([] : List String), kvs)
    | _ => (["insight " ++ insightId ++ ": evidence must be a dictionary"], [])
  let evRes ← validateEvidence rawEvidence compactEda
  let prefixedEvIssues := evRes.2.map (fun i => "insight " ++ insightId ++ ": " ++ i)
  let rawRecommendationV := dictGetD insight "recommendation" (.dict [])
  let rawRecommendation :=
    match rawRecommendationV with
    | .dict kvs => kvs
    | _ => []
  let who := normalizeValue (dictGetD rawRecommendation "who" (.str "analyst"))
    CANONICAL_WHO "analyst"
  let what := dictGetD rawRecommendation "what" (.str "Review and investigate")
  let priority := normalizeValue (dictGetD rawRecommendation "priority" (.str "medium"))
    CANONICAL_PRIORITY "medium"
  pure (PyVal.dict [
      ("id", .str insightId),
      ("text", text),
      ("severity", .str severity),
      ("category", .str category),
      ("evidence", evRes.1),
      ("recommendation", .dict [
        ("who", .str who),
        ("what", what),
        ("priority", .str priority)])],
    textIssues ++ evIssues0 ++ prefixedEvIssues)

/-- `_normalize_visual_action(action, compact_eda)` (insight_validator.py
lines 210-254).  `chart_id not in chart_ids` (line 232) hashes
`chart_id`, raising `TypeError` when it is a list or a dict. -/
def normalizeVisualAction (action : List (String × PyVal)) (compactEda : PyVal) :
    Except PyErr (Option PyVal × List String) := do
  let chartId := dictGetD action "chart_id" .none
  if !chartId.truthy then
    pure (Option.none, ["visual action missing chart_id"])
  else do
    let ids ← edaChartIds compactEda
    if !pyHashable chartId then Except.error (.typeError "unhashable type")
    else if !(ids.any (fun x => pyEq x chartId)) then
      pure (Option.none,
        ["visual action chart_id " ++ pyStr chartId ++ " not found in chartSpecs"])
    else
      let actionType := normalizeValue (dictGetD action "action" (.str ""))
        CANONICAL_VISUAL_ACTIONS "highlight_outliers"
      let params :=
        match dictGetD action "params" (.dict []) with
        | .dict kvs => PyVal.dict kvs
        | _ => PyVal.dict []
      pure (some (PyVal.dict [
          ("chart_id", chartId),
          ("action", .str actionType),
          ("params", params)]), [])

/-- The body of the insights loop of `validate_and_normalize`
(insight_validator.py lines 294-306), as a function of the
`(index, value)` pair produced by `enumerate(raw_insights)`. -/
def insightStep (compactEda : PyVal) (p : Nat × PyVal) :
    Except PyErr (Option PyVal × List String) :=
  match p.2 with
  | .dict ikvs => do
    let r ← normalizeInsight ikvs p.1 compactEda
    pure (some r.1, r.2)
  | _ => pure ((Option.none : Option PyVal),
      ["Insight at index " ++ natStr p.1 ++ " is not a dictionary"])

/-- The body of the visual-actions loop of `validate_and_normalize`
(insight_validator.py lines 323-330). -/
def actionStep (compactEda : PyVal) (a : PyVal) :
    Except PyErr (Option PyVal × List String) :=
  match a with
  | .dict akvs => normalizeVisualAction akvs compactEda
  | _ => pure ((Option.none : Option PyVal), ([] : List String))

/-- `validate_and_normalize(raw_output, compact_eda)` (insight_validator.py
lines 257-363).  Returns the pair `(normalized_output_or_none, issues)`,
or the Python exception the source would raise. -/
def validateAndNormalize (rawOutput compactEda : PyVal) :
    Except PyErr (Option PyVal × List String) := do
  match rawOutput with
  | .dict kvs0 => do
    let effective : PyVal :=
      if dictHas kvs0 "insights" && !(dictHas kvs0 "analystInsights")
      then dictGetD kvs0 "insights" .none
      else .dict kvs0
    let rawInsightsV ← pyGetD effective "analystInsights" (.list [])
    let (insIssues0, rawInsights) :=
      match rawInsightsV with
      | .list xs => (([] : List String), xs)
      | .dict kvs => ([], [PyVal.dict kvs])
      | _ => (["analystInsights must be a list"], [])
    let insightResults ← exceptMapM (insightStep compactEda) rawInsights.enum
    let normalizedInsights := insightResults.filterMap Prod.fst
    let insightIssues := (insightResults.map Prod.snd).flatten
    let rawSummaryV ← pyGetD effective "businessSummary" (.list [])
    let (sumIssues0, rawSummary) :=
      match rawSummaryV with
      | .list xs => (([] : List String), xs)
      | _ => (["businessSummary must be a list"], [])
    let businessSummary := (rawSummary.filter PyVal.truthy).map pyStr
    let rawActionsV ← pyGetD effective "visualActions" (.list [])
    let (actIssues0, rawActions) :=
      match rawActionsV with
      | .list xs => (([] : List String), xs)
      | _ => (["visualActions must be a list"], [])
    let actionResults ← exceptMapM (actionStep compactEda) rawActions
    let visualActions := actionResults.filterMap Prod.fst
    let actionIssues := (actionResults.map Prod.snd).flatten
    let rawMetadataV ← pyGetD effective "metadata" (.dict [])
    let rawMetadata :=
      match rawMetadataV with
      | .dict kvs => kvs
      | _ => []
    let confidence := normalizeValue (dictGetD rawMetadata "confidence" (.str "medium"))
      ["high", "medium", "low"] "medium"
    let metadata := PyVal.dict [
      ("total_insights", .int normalizedInsights.length),
      ("confidence", .str confidence),
      ("data_quality_score", dictGetD rawMetadata "data_quality_score" (.int 0)),
      ("analysis_timestamp", dictGetD rawMetadata "analysis_timestamp" (.str ""))]
    let allIssues := insIssues0 ++ insightIssues ++ sumIssues0 ++ actIssues0 ++ actionIssues
    if normalizedInsights.isEmpty && businessSummary.isEmpty then
      pure (Option.none, allIssues ++ ["CRITICAL: No insights or summary generated"])
    else
      pure (some (PyVal.dict [
          ("analystInsights", .list normalizedInsights),
          ("businessSummary", .list (businessSummary.map PyVal.str)),
          ("visualActions", .list visualActions),
          ("metadata", metadata),
          ("issues", .list (allIssues.map PyVal.str))]),
        allIssues)
  | _ => pure (Option.none, ["Output is not a dictionary"])

/-! ## Well-typedness conditions under which the validator cannot raise

These describe the amended claim C7: `validate_and_normalize` is total on
inputs whose handful of unchecked positions carry values of the types the
code assumes. -/

/-- The context's `chartSpecs` must be a list of dicts for
`chart.get('id')` to be safe, and each chart's `id` must be hashable for
the set comprehension `{chart.get('id') for chart in chart_specs}` to be
safe. -/
def chartSpecsOk : PyVal → Bool
  | .list xs => xs.all (fun v => match v with
      | .dict kvs => pyHashable (dictGetD kvs "id" .none)
      | _ => false)
  | _ => false

/-- Context facts: a dict whose `kpis` (and its `numericStats`) are dicts,
whose `cleanedPreview` is sized and whose `chartSpecs` is a list of
dicts — the positions `_validate_evidence` and `_normalize_visual_action`
access without an isinstance guard. -/
def ctxOk (ctx : PyVal) : Bool :=
  match ctx with
  | .dict kvs =>
    (dictGetD kvs "kpis" (.dict [])).isDict
    && (match dictGetD kvs "kpis" (.dict []) with
        | .dict kk => (dictGetD kk "numericStats" (.dict [])).isDict
        | _ => false)
    && (dictGetD kvs "cleanedPreview" (.list [])).len?.isSome
    && chartSpecsOk (dictGetD kvs "chartSpecs" (.list []))
  | _ => false

/-- A truthy `text` value must be sized (`len(text)` is evaluated on it). -/
def textOk (v : PyVal) : Bool := !v.truthy || v.len?.isSome

/-- An insight dict whose `id` (when present) is a string, whose `text`
is falsy or sized, and whose evidence `chart_id` (when the evidence is a
dict) is hashable, so that `chart_id not in chart_ids` cannot raise. -/
def insightOk (insight : List (String × PyVal)) : Bool :=
  (match dictLookup insight "id" with
   | some v => v.isStr
   | Option.none => true)
  && textOk (dictGetD insight "text" (.str ""))
  && (match dictGetD insight "evidence" (.dict []) with
      | .dict ekvs => pyHashable (dictGetD ekvs "chart_id" .none)
      | _ => true)

def insightsListOk (xs : List PyVal) : Bool :=
  xs.all (fun v => match v with | .dict ikvs => insightOk ikvs | _ => true)

/-- A visual action dict whose `chart_id` is falsy (early return before
the set build) or hashable (so the membership test cannot raise). -/
def actionOk : PyVal → Bool
  | .dict akvs => !(dictGetD akvs "chart_id" .none).truthy
      || pyHashable (dictGetD akvs "chart_id" .none)
  | _ => true

/-- Raw LLM output: if it is a dict, the nested `insights` replacement (if
taken) must itself be a dict, every dict insight must satisfy
`insightOk`, and every dict visual action must satisfy `actionOk`. -/
def rawOutputOk (raw : PyVal) : Bool :=
  match raw with
  | .dict kvs0 =>
    match (if dictHas kvs0 "insights" && !(dictHas kvs0 "analystInsights")
           then dictGetD kvs0 "insights" .none
           else .dict kvs0) with
    | .dict ekvs =>
      (match dictGetD ekvs "analystInsights" (.list []) with
       | .list xs => insightsListOk xs
       | .dict ikvs => insightOk ikvs
       | _ => true)
      && (match dictGetD ekvs "visualActions" (.list []) with
          | .list xs => xs.all actionOk
          | _ => true)
    | _ => false
  | _ => true

/-! ## Python arithmetic and formatting, as used by the fallback generator

Arithmetic follows Python semantics on the value shapes the generator can
meet: numbers (with `bool` as `int`) and strings.  `str * int` is sequence
repetition; comparisons between strings and numbers raise `TypeError`;
container comparisons and container repetition beyond `str`/`list` are
not reached by this code and also raise `TypeError` here.  Float
formatting (`:.1f`, `:,.0f`) renders the rational with round-half-up
instead of binary-float round-half-even digits; the rendered digits only
appear inside template text. -/

/-- Integer value of a bool/int (Python `bool` is an `int`). -/
def pyIntVal? : PyVal → Option Int
  | .bool b => some (if b then 1 else 0)
  | .int n => some n
  | _ => Option.none

def strRepeat (s : String) (n : Int) : String :=
  String.mk (List.flatten (List.replicate n.toNat s.data))

/-- Python `*`. -/
def pyMul (a b : PyVal) : Except PyErr PyVal :=
  match pyIntVal? a, pyIntVal? b with
  | some x, some y => .ok (.int (x * y))
  | _, _ =>
    match pyNum? a, pyNum? b with
    | some x, some y => .ok (.float (x * y))
    | _, _ =>
      match a, b with
      | .str s, v =>
        match pyIntVal? v with
        | some n => .ok (.str (strRepeat s n))
        | _ => .error (.typeError "cannot multiply")
      | v, .str s =>
        match pyIntVal? v with
        | some n => .ok (.str (strRepeat s n))
        | _ => .error (.typeError "cannot multiply")
      | .list xs, v =>
        match pyIntVal? v with
        | some n => .ok (.list (List.flatten (List.replicate n.toNat xs)))
        | _ => .error (.typeError "cannot multiply")
      | v, .list xs =>
        match pyIntVal? v with
        | some n => .ok (.list (List.flatten (List.replicate n.toNat xs)))
        | _ => .error (.typeError "cannot multiply")
      | _, _ => .error (.typeError "cannot multiply")

/-- Python true division `/` (always a float on numbers). -/
def pyDiv (a b : PyVal) : Except PyErr PyVal :=
  match pyNum? a, pyNum? b with
  | some x, some y => if y = 0 then .error .zeroDivisionError else .ok (.float (x / y))
  | _, _ => .error (.typeError "unsupported operand types for div")

/-- Lexicographic comparison of character lists by code point. -/
def charsLt : List Char → List Char → Bool
  | [], [] => false
  | [], _ :: _ => true
  | _ :: _, [] => false
  | a :: as, b :: bs =>
    if a.val < b.val then true
    else if a.val = b.val then charsLt as bs
    else false

/-- Python `<`. -/
def pyLtB (a b : PyVal) : Except PyErr Bool :=
  match pyNum? a, pyNum? b with
  | some x, some y => .ok (decide (x < y))
  | _, _ =>
    match a, b with
    | .str s1, .str s2 => .ok (charsLt s1.data s2.data)
    | _, _ => .error (.typeError "not supported between instances")

/-- Python `>`. -/
def pyGtB (a b : PyVal) : Except PyErr Bool := pyLtB b a

/-- Python `abs` (numbers only in this code). -/
def pyAbs : PyVal → Except PyErr PyVal
  | .bool b => .ok (.int (if b then 1 else 0))
  | .int n => .ok (.int n.natAbs)
  | .float q => .ok (.float |q|)
  | _ => .error (.typeError "bad operand type for abs")

/-- Python `min(a, b)` on numbers (returns the smaller original value,
the first on ties). -/
def pyMinNum (a b : PyVal) : Except PyErr PyVal := do
  let lt ← pyLtB b a
  if lt then pure b else pure a

/-- Python `max(a, b)` on numbers (returns the second only when strictly
greater). -/
def pyMaxNum (a b : PyVal) : Except PyErr PyVal := do
  let gt ← pyGtB b a
  if gt then pure b else pure a

/-- Python `round(v, n)` on numbers. -/
def pyRoundTo (digits : Nat) : PyVal → Except PyErr PyVal
  | .bool b => .ok (.int (if b then 1 else 0))
  | .int n => .ok (.int n)
  | .float q => .ok (.float (((round (q * 10 ^ digits) : ℤ) : ℚ) / (10 ^ digits : ℚ)))
  | _ => .error (.typeError "must be real number")

def padZeroLeft (s : String) (n : Nat) : String :=
  String.mk (List.replicate (n - s.length) '0' ++ s.data)

/-- Fixed-point rendering with `digits` fractional digits (`:.Nf`). -/
def fmtFixed (digits : Nat) (q : ℚ) : String :=
  let scaled : Int := round (q * 10 ^ digits)
  let sign := if scaled < 0 then "-" else ""
  let mag := scaled.natAbs
  let ip := mag / 10 ^ digits
  let fp := mag % 10 ^ digits
  if digits = 0 then sign ++ natStr ip
  else sign ++ natStr ip ++ "." ++ padZeroLeft (natStr fp) digits

/-- Thousands grouping of a digit list; the first argument is structural
fuel (the list length suffices). -/
def groupDigitsAux : Nat → List Char → List Char
  | 0, ds => ds
  | fuel + 1, ds =>
    if ds.length ≤ 3 then ds
    else groupDigitsAux fuel (ds.take (ds.length - 3)) ++ (',' :: ds.drop (ds.length - 3))

/-- Thousands grouping of a digit string. -/
def groupDigits (s : String) : String :=
  String.mk (groupDigitsAux s.data.length s.data)

/-- `f"{v:,.0f}"` on a number. -/
def fmtComma0 (v : PyVal) : Except PyErr String :=
  match pyNum? v with
  | some q =>
    let scaled : Int := round q
    .ok ((if scaled < 0 then "-" else "") ++ groupDigits (natStr scaled.natAbs))
  | Option.none => .error (.valueError "Unknown format code f")

/-- `f"{v:,}"` — grouping applies to numbers only; other types raise
`ValueError`.  On a float the digit text follows the same approximate
rendering as `ratStr`, with grouping applied to the leading digit run. -/
def fmtCommaAny (v : PyVal) : Except PyErr String :=
  match v with
  | .bool b => .ok (if b then "1" else "0")
  | .int n => .ok ((if n < 0 then "-" else "") ++ groupDigits (natStr n.natAbs))
  | .float q =>
    if q.den = 1 then
      .ok ((if q.num < 0 then "-" else "") ++ groupDigits (natStr q.num.natAbs) ++ ".0")
    else
      .ok ((if q.num < 0 then "-" else "")
        ++ groupDigits (natStr q.num.natAbs) ++ "/" ++ natStr q.den)
  | _ => .error (.valueError "Cannot specify a comma with s")

/-- `f"{v:.Nf}"` on a number. -/
def fmtFixedOf (digits : Nat) (v : PyVal) : Except PyErr String :=
  match pyNum? v with
  | some q => .ok (fmtFixed digits q)
  | Option.none => .error (.valueError "Unknown format code f")

/-- `s.capitalize()` (first character upper-cased). -/
def strCapitalize (s : String) : String :=
  match s.data with
  | [] => ""
  | c :: cs => String.mk (c.toUpper :: cs)

/-! ## Fallback generator (`src/src/lib/fallback_generator.py`) -/

/-- The conditional expression `(num / den) * 100 if <den positive> else 0`
(fallback_generator.py lines 99 and 118); the caller passes the already
evaluated positivity test. -/
def pctIfPos (num den : PyVal) (pos : Bool) : Except PyErr PyVal :=
  if pos then do
    let d ← pyDiv num den
    pyMul d (.int 100)
  else pure (PyVal.int 0)

/-- The schema scan of `_generate_missing_data_insight`: running
(column-name, count) maximum over `col.get("missing", 0)` (lines 106-112).
The accumulator starts as `(None, 0)`. -/
def maxMissingScan : List PyVal → PyVal × PyVal → Except PyErr (PyVal × PyVal)
  | [], acc => pure acc
  | col :: cols, acc => do
    let missing ← pyGetD col "missing" (.int 0)
    let gtAcc ← pyGtB missing acc.2
    if gtAcc then do
      let name ← pyGetD col "column" (.str "Unknown")
      maxMissingScan cols (name, missing)
    else maxMissingScan cols acc

/-- Lines 117-119 of `_generate_missing_data_insight`: extend the text
with the worst column when one was found. -/
def missingColText (text1 : String) (maxMissingCol maxMissingCount rowCount : PyVal) :
    Except PyErr String :=
  if maxMissingCol.truthy then do
    let rcGt0 ← pyGtB rowCount (.int 0)
    let colMissingPct ← pctIfPos maxMissingCount rowCount rcGt0
    let cmpStr ← fmtFixedOf 1 colMissingPct
    pure (text1 ++ "Column " ++ pyStr maxMissingCol
      ++ " has the highest missing rate at " ++ cmpStr ++ "% ("
      ++ pyStr maxMissingCount ++ " of " ++ pyStr rowCount ++ " rows). ")
  else pure text1

/-- `_generate_missing_data_insight(kpis, schema, insight_id)` (fallback_generator.py
lines 89-141). -/
def generateMissingDataInsight (kpis : PyVal) (schema : PyVal) (insightId : Nat) :
    Except PyErr (Option PyVal) := do
  let rowCount ← pyGetD kpis "rowCount" (.int 0)
  let colCount ← pyGetD kpis "columnCount" (.int 0)
  let missingCells ← pyGetD kpis "missingCells" (.int 0)
  if pyEq rowCount (.int 0) || pyEq colCount (.int 0) then
    pure Option.none
  else do
    let totalCells ← pyMul rowCount colCount
    let gt0 ← pyGtB totalCells (.int 0)
    let missingPct ← pctIfPos missingCells totalCells gt0
    let lt1 ← pyLtB missingPct (.int 1)
    if lt1 then pure Option.none
    else do
      let cols ← pyIter schema
      let maxInfo ← maxMissingScan cols ((PyVal.none : PyVal), (PyVal.int 0 : PyVal))
      let maxMissingCol := maxInfo.1
      let maxMissingCount := maxInfo.2
      let gt10 ← pyGtB missingPct (.int 10)
      let gt5 ← pyGtB missingPct (.int 5)
      let severity := if gt10 then "high" else if gt5 then "medium" else "low"
      let pctStr ← fmtFixedOf 1 missingPct
      let text1 := "Missing data detected: " ++ pyStr missingCells ++ " cells ("
        ++ pctStr ++ "%) are missing across the dataset. "
      let text2 ← missingColText text1 maxMissingCol maxMissingCount rowCount
      let text := text2 ++ "This may impact analysis accuracy and should be investigated."
      let roundedPct ← pyRoundTo 2 missingPct
      pure (some (PyVal.dict [
        ("id", .str ("i" ++ natStr insightId)),
        ("text", .str text),
        ("severity", .str severity),
        ("category", .str "missing_data"),
        ("evidence", .dict [
          ("aggregates", .dict [
            ("Total Cells", totalCells),
            ("Missing Cells", missingCells),
            ("Missing %", roundedPct)]),
          ("row_indices", .list []),
          ("chart_id", .none)]),
        ("recommendation", .dict [
          ("who", .str "data_engineer"),
          ("what", .str ("Investigate source of missing values in "
            ++ (if maxMissingCol.truthy then pyStr maxMissingCol else "affected columns")
            ++ " and implement data quality checks")),
          ("priority", .str (if gt10 then "high" else "medium"))])]))

/-- `_generate_duplicate_insight(kpis, insight_id)` (fallback_generator.py
lines 144-183). -/
def generateDuplicateInsight (kpis : PyVal) (insightId : Nat) :
    Except PyErr (Option PyVal) := do
  let rowCount ← pyGetD kpis "rowCount" (.int 0)
  let duplicateRows ← pyGetD kpis "duplicateRows" (.int 0)
  if pyEq duplicateRows (.int 0) || pyEq rowCount (.int 0) then
    pure Option.none
  else do
    let d ← pyDiv duplicateRows rowCount
    let duplicatePct ← pyMul d (.int 100)
    let lt1 ← pyLtB duplicatePct (.int 1)
    if lt1 then pure Option.none
    else do
      let gt10 ← pyGtB duplicatePct (.int 10)
      let gt5 ← pyGtB duplicatePct (.int 5)
      let severity := if gt10 then "high" else if gt5 then "medium" else "low"
      let pctStr ← fmtFixedOf 1 duplicatePct
      let text := "Duplicate rows detected: " ++ pyStr duplicateRows
        ++ " exact duplicate records found (" ++ pctStr ++ "% of dataset). "
        ++ "Duplicates can inflate aggregate metrics and may indicate ETL pipeline issues or double-entry in source systems. "
        ++ "Recommend implementing deduplication logic before analysis."
      let roundedPct ← pyRoundTo 2 duplicatePct
      pure (some (PyVal.dict [
        ("id", .str ("i" ++ natStr insightId)),
        ("text", .str text),
        ("severity", .str severity),
        ("category", .str "duplicate"),
        ("evidence", .dict [
          ("aggregates", .dict [
            ("Total Rows", rowCount),
            ("Duplicate Rows", duplicateRows),
            ("Duplicate %", roundedPct)]),
          ("row_indices", .list []),
          ("chart_id", .none)]),
        ("recommendation", .dict [
          ("who", .str "data_engineer"),
          ("what", .str "Implement deduplication logic in ETL pipeline and investigate root cause in source system"),
          ("priority", .str (if gt10 then "high" else "medium"))])]))

/-- The preview scan of `_generate_outlier_insight`: first row index whose
`col_name` value equals the maximum (lines 202-206). -/
def findMaxRowIdx (colName : String) (maxVal : PyVal) :
    List PyVal → Nat → Except PyErr (Option Nat)
  | [], _ => pure Option.none
  | row :: rows, idx => do
    let v ← pyGetD row colName .none
    if pyEq v maxVal then pure (some idx)
    else findMaxRowIdx colName maxVal rows (idx + 1)

/-- The chart scan of `_generate_outlier_insight`: first chart whose `y`
or `x` equals the column (lines 209-213). -/
def findChartForCol (colName : String) : List PyVal → Except PyErr (Option PyVal)
  | [] => pure Option.none
  | chart :: charts => do
    let y ← pyGetD chart "y" .none
    let x ← pyGetD chart "x" .none
    if pyEq y (.str colName) || pyEq x (.str colName) then do
      let cid ← pyGetD chart "id" .none
      pure (some cid)
    else findChartForCol colName charts

/-- The per-column body of `_generate_outlier_insight`'s loop
(fallback_generator.py lines 191-239): returns `some insight` when the
max/min ratio exceeds 10.  `cleanedPreview` and `chartSpecs` are only
iterated inside the qualifying branch, as in the source. -/
def outlierForCol (colName : String) (stats : PyVal) (cleanedPreview : PyVal)
    (chartSpecs : PyVal) (insightId : Nat) : Except PyErr (Option PyVal) := do
  let minVal ← pyGetD stats "min" (.int 0)
  let maxVal ← pyGetD stats "max" (.int 0)
  let _meanVal ← pyGetD stats "mean" (.int 0)
  let medianVal ← pyGetD stats "median" (.int 0)
  let minPos ← pyGtB minVal (.int 0)
  if !minPos then pure Option.none
  else do
    let ratio ← pyDiv maxVal minVal
    let big ← pyGtB ratio (.int 10)
    if !big then pure Option.none
    else do
      let previewRows ← pyIter cleanedPreview
      let maxRowIdx ← findMaxRowIdx colName maxVal previewRows 0
      let charts ← pyIter chartSpecs
      let chartId ← findChartForCol colName charts
      let maxStr ← fmtComma0 maxVal
      let ratioStr ← fmtFixedOf 1 ratio
      let minStr ← fmtComma0 minVal
      let medStr ← fmtComma0 medianVal
      let text := "Potential outlier detected in " ++ colName ++ ": Maximum value ("
        ++ maxStr ++ ") is " ++ ratioStr ++ "x the minimum value (" ++ minStr ++ "). "
        ++ "This is significantly higher than the median (" ++ medStr ++ "). "
        ++ "Verify whether this represents a legitimate extreme value or a data quality issue."
      let roundedRatio ← pyRoundTo 2 ratio
      pure (some (PyVal.dict [
        ("id", .str ("i" ++ natStr insightId)),
        ("text", .str text),
        ("severity", .str "medium"),
        ("category", .str "outlier"),
        ("evidence", .dict [
          ("aggregates", .dict [
            (colName ++ " Max", maxVal),
            (colName ++ " Min", minVal),
            (colName ++ " Median", medianVal),
            ("Max/Min Ratio", roundedRatio)]),
          ("row_indices", match maxRowIdx with
            | some i => .list [.int i]
            | Option.none => .list []),
          ("chart_id", match chartId with
            | some cid => cid
            | Option.none => .none)]),
        ("recommendation", .dict [
          ("who", .str "analyst"),
          ("what", .str ("Investigate extreme value in " ++ colName
            ++ " to determine if it is valid or requires correction")),
          ("priority", .str "medium")])]))

/-- The column loop of `_generate_outlier_insight` (lines 191-239): the
first qualifying column wins. -/
def outlierScan (cleanedPreview chartSpecs : PyVal) (insightId : Nat) :
    List (String × PyVal) → Except PyErr (Option PyVal)
  | [] => pure Option.none
  | (colName, stats) :: rest => do
    let r ← outlierForCol colName stats cleanedPreview chartSpecs insightId
    match r with
    | some ins => pure (some ins)
    | Option.none => outlierScan cleanedPreview chartSpecs insightId rest

/-- `_generate_outlier_insight(kpis, cleaned_preview, chart_specs,
insight_id)` (fallback_generator.py lines 186-241). -/
def generateOutlierInsight (kpis : PyVal) (cleanedPreview : PyVal)
    (chartSpecs : PyVal) (insightId : Nat) : Except PyErr (Option PyVal) := do
  let numericStats ← pyGetD kpis "numericStats" (.dict [])
  let items ← pyItems numericStats
  outlierScan cleanedPreview chartSpecs insightId items

/-- The chart scan of `_generate_correlation_insight` (lines 260-264). -/
def findChartForPair (col1 col2 : PyVal) : List PyVal → Except PyErr (Option PyVal)
  | [] => pure Option.none
  | chart :: charts => do
    let x ← pyGetD chart "x" .none
    let y ← pyGetD chart "y" .none
    if (pyEq x col1 || pyEq x col2) && (pyEq y col1 || pyEq y col2) then do
      let cid ← pyGetD chart "id" .none
      pure (some cid)
    else findChartForPair col1 col2 charts

/-- The per-entry body of `_generate_correlation_insight`'s loop
(fallback_generator.py lines 249-289); `chartSpecs` is only iterated
inside the strong-correlation branch, as in the source. -/
def correlationForEntry (corr : PyVal) (chartSpecs : PyVal) (insightId : Nat) :
    Except PyErr (Option PyVal) := do
  let col1 ← pyGetD corr "col1" (.str "")
  let col2 ← pyGetD corr "col2" (.str "")
  let r ← pyGetD corr "r" (.int 0)
  let absR ← pyAbs r
  let strong ← pyGtB absR (.float (7/10))
  if !strong then pure Option.none
  else do
    let rPos ← pyGtB r (.int 0)
    let direction := if rPos then "positive" else "negative"
    let veryStrong ← pyGtB absR (.float (9/10))
    let strength := if veryStrong then "very strong" else "strong"
    let charts ← pyIter chartSpecs
    let chartId ← findChartForPair col1 col2 charts
    let rStr ← fmtFixedOf 2 r
    let text := strCapitalize strength ++ " " ++ direction
      ++ " correlation detected between " ++ pyStr col1 ++ " and " ++ pyStr col2
      ++ " (r=" ++ rStr ++ "). "
      ++ "This relationship may indicate causal connection, shared underlying factors, or opportunity for predictive modeling. "
      ++ "Further statistical analysis recommended to understand the nature of this relationship."
    let roundedR ← pyRoundTo 3 r
    pure (some (PyVal.dict [
      ("id", .str ("i" ++ natStr insightId)),
      ("text", .str text),
      ("severity", .str "low"),
      ("category", .str "correlation"),
      ("evidence", .dict [
        ("aggregates", .dict [
          ("Correlation Coefficient", roundedR),
          ("Column 1", col1),
          ("Column 2", col2)]),
        ("row_indices", .list []),
        ("chart_id", match chartId with
          | some cid => cid
          | Option.none => .none)]),
      ("recommendation", .dict [
        ("who", .str "data_scientist"),
        ("what", .str ("Analyze relationship between " ++ pyStr col1 ++ " and "
          ++ pyStr col2 ++ " to determine causality and potential for predictive modeling")),
        ("priority", .str "medium")])]))

/-- The entry loop of `_generate_correlation_insight` (lines 249-289). -/
def correlationScan (chartSpecs : PyVal) (insightId : Nat) :
    List PyVal → Except PyErr (Option PyVal)
  | [] => pure Option.none
  | corr :: rest => do
    let r ← correlationForEntry corr chartSpecs insightId
    match r with
    | some ins => pure (some ins)
    | Option.none => correlationScan chartSpecs insightId rest

/-- `_generate_correlation_insight(compact_eda, chart_specs, insight_id)`
(fallback_generator.py lines 244-291). -/
def generateCorrelationInsight (compactEda : PyVal) (chartSpecs : PyVal)
    (insightId : Nat) : Except PyErr (Option PyVal) := do
  let correlationsV ← pyGetD compactEda "correlations" (.list [])
  let correlations ← pyIter correlationsV
  correlationScan chartSpecs insightId correlations

/-- Lines 307-315 of `_generate_business_summary`: the data-quality
sentence. -/
def qualitySentence (missingCells duplicateRows : PyVal) : Except PyErr String :=
  if pyEq missingCells (.int 0) && pyEq duplicateRows (.int 0) then
    pure "Data quality is excellent with no missing values or duplicate records detected."
  else do
    let mcPos ← pyGtB missingCells (.int 0)
    let drPos ← pyGtB duplicateRows (.int 0)
    let qualityIssues :=
      (if mcPos then [pyStr missingCells ++ " missing cells"] else [])
      ++ (if drPos then [pyStr duplicateRows ++ " duplicate rows"] else [])
    pure ("Data quality issues detected: " ++ sepComma qualityIssues
      ++ ". Review insights for details.")

/-- `_generate_business_summary(kpis, insight_count)` (fallback_generator.py
lines 294-319). -/
def generateBusinessSummary (kpis : PyVal) (insightCount : Nat) :
    Except PyErr (List PyVal) := do
  let rowCount ← pyGetD kpis "rowCount" (.int 0)
  let colCount ← pyGetD kpis "columnCount" (.int 0)
  let rcStr ← fmtCommaAny rowCount
  let first := "Dataset contains " ++ rcStr ++ " rows and " ++ pyStr colCount
    ++ " columns. Automated analysis generated " ++ natStr insightCount
    ++ " insights using deterministic templates."
  let missingCells ← pyGetD kpis "missingCells" (.int 0)
  let duplicateRows ← pyGetD kpis "duplicateRows" (.int 0)
  let quality ← qualitySentence missingCells duplicateRows
  pure [.str first, .str quality,
    .str "For deeper analysis and AI-generated insights, ensure LLM service is properly configured."]

/-- `_calculate_quality_score(kpis)` (fallback_generator.py lines 322-347). -/
def calculateQualityScore (kpis : PyVal) : Except PyErr PyVal := do
  let rowCount ← pyGetD kpis "rowCount" (.int 0)
  let colCount ← pyGetD kpis "columnCount" (.int 0)
  let missingCells ← pyGetD kpis "missingCells" (.int 0)
  let duplicateRows ← pyGetD kpis "duplicateRows" (.int 0)
  if pyEq rowCount (.int 0) || pyEq colCount (.int 0) then
    pure (PyVal.int 0)
  else do
    let totalCells ← pyMul rowCount colCount
    let score0 : PyVal := .int 100
    let score1 ←
      (do
        let tcPos ← pyGtB totalCells (.int 0)
        if tcPos then do
          let d ← pyDiv missingCells totalCells
          let missingPct ← pyMul d (.int 100)
          let doubled ← pyMul missingPct (.int 2)
          let ded ← pyMinNum doubled (.int 40)
          match pyNum? score0, pyNum? ded with
          | some s, some dd => pure (PyVal.float (s - dd))
          | _, _ => Except.error (.typeError "unsupported operand types for sub")
        else pure score0)
    let score2 ←
      (do
        let rcPos ← pyGtB rowCount (.int 0)
        if rcPos then do
          let d ← pyDiv duplicateRows rowCount
          let duplicatePct ← pyMul d (.int 100)
          let doubled ← pyMul duplicatePct (.int 2)
          let ded ← pyMinNum doubled (.int 30)
          match pyNum? score1, pyNum? ded with
          | some s, some dd => pure (PyVal.float (s - dd))
          | _, _ => Except.error (.typeError "unsupported operand types for sub")
        else pure score1)
    match pyToInt? score2 with
    | some n => do
      let r ← pyMaxNum (.int 0) (.int n)
      pure r
    | Option.none => Except.error (.typeError "int() argument")

/-- `generate_fallback_insights(compact_eda)` (fallback_generator.py lines
17-86). -/
def generateFallbackInsights (compactEda : PyVal) : Except PyErr PyVal := do
  let kpis ← pyGetD compactEda "kpis" (.dict [])
  let schema ← pyGetD compactEda "schema" (.list [])
  let cleanedPreview ← pyGetD compactEda "cleanedPreview" (.list [])
  let chartSpecs ← pyGetD compactEda "chartSpecs" (.list [])
  let missingIns ← generateMissingDataInsight kpis schema 1
  let (insights1, counter1) :=
    match missingIns with
    | some i => ([i], 2)
    | Option.none => ([], 1)
  let dupIns ← generateDuplicateInsight kpis counter1
  let (insights2, counter2) :=
    match dupIns with
    | some i => (insights1 ++ [i], counter1 + 1)
    | Option.none => (insights1, counter1)
  let outIns ← generateOutlierInsight kpis cleanedPreview chartSpecs counter2
  let (insights3, counter3) :=
    match outIns with
    | some i => (insights2 ++ [i], counter2 + 1)
    | Option.none => (insights2, counter2)
  let corrIns ← generateCorrelationInsight compactEda chartSpecs counter3
  let insights4 :=
    match corrIns with
    | some i => insights3 ++ [i]
    | Option.none => insights3
  let businessSummary ← generateBusinessSummary kpis insights4.length
  let score ← calculateQualityScore kpis
  pure (PyVal.dict [
    ("analystInsights", .list insights4),
    ("businessSummary", .list businessSummary),
    ("visualActions", .list []),
    ("metadata", .dict [
      ("total_insights", .int insights4.length),
      ("confidence", .str "low"),
      ("data_quality_score", score),
      ("analysis_timestamp", .str "")]),
    ("issues", .list [.str "llm_fallback_used"]),
    ("_meta", .dict [
      ("model", .str "fallback-deterministic"),
      ("latency_seconds", .float 0),
      ("timestamp", .int 0)])])

/-! ## Well-typedness of the facts given to the fallback generator

`generate_fallback_insights` performs unguarded arithmetic and
`:,`/`:.1f` formatting on the KPI fields, so totality requires them
numeric; the containers it iterates must be lists of dicts and the
correlation coefficients numeric. -/

/-- A schema entry: a dict whose `missing` field (defaulting to `0`) is
numeric — `_generate_missing_data_insight` compares it with `>`. -/
def schemaColOk : PyVal → Bool
  | .dict kvs => (dictGetD kvs "missing" (.int 0)).isNum
  | _ => false

def schemaOk : PyVal → Bool
  | .list cols => cols.all schemaColOk
  | _ => false

/-- A `numericStats` entry: a dict whose min/max/mean/median (defaulting
to `0`) are numeric. -/
def statsEntryOk : PyVal → Bool
  | .dict svs =>
    (dictGetD svs "min" (.int 0)).isNum && (dictGetD svs "max" (.int 0)).isNum
    && (dictGetD svs "mean" (.int 0)).isNum && (dictGetD svs "median" (.int 0)).isNum
  | _ => false

/-- The KPI dict: counts numeric, `numericStats` a dict of well-typed
entries. -/
def kpisOk : PyVal → Bool
  | .dict kvs =>
    (dictGetD kvs "rowCount" (.int 0)).isNum
    && (dictGetD kvs "columnCount" (.int 0)).isNum
    && (dictGetD kvs "missingCells" (.int 0)).isNum
    && (dictGetD kvs "duplicateRows" (.int 0)).isNum
    && (match dictGetD kvs "numericStats" (.dict []) with
        | .dict stats => stats.all (fun kv => statsEntryOk kv.2)
        | _ => false)
  | _ => false

/-- A list whose elements are all dicts. -/
def dictListOk : PyVal → Bool
  | .list xs => xs.all PyVal.isDict
  | _ => false

/-- A correlation entry: a dict whose `r` (defaulting to `0`) is numeric
(`abs(r)` is evaluated on it). -/
def corrEntryOk : PyVal → Bool
  | .dict kvs => (dictGetD kvs "r" (.int 0)).isNum
  | _ => false

def correlationsOk : PyVal → Bool
  | .list cs => cs.all corrEntryOk
  | _ => false

/-- Well-typed compact-EDA facts for `generate_fallback_insights`. -/
def wellTypedFacts (facts : PyVal) : Bool :=
  match facts with
  | .dict fvs =>
    kpisOk (dictGetD fvs "kpis" (.dict []))
    && schemaOk (dictGetD fvs "schema" (.list []))
    && dictListOk (dictGetD fvs "cleanedPreview" (.list []))
    && dictListOk (dictGetD fvs "chartSpecs" (.list []))
    && correlationsOk (dictGetD fvs "correlations" (.list []))
  | _ => false

/-! ## The insight-generation orchestrations
(`src/src/lib/llm_client.py` lines 102-241 and
`src/src/lib/llm_client_fewshot.py` lines 143-330)

External effects are oracles collected in `GenEnv`: `call fix k` is the
raw outcome of attempt `k` of one `retry_http_call` invocation (`fix`
marks the repair prompt with the appended fix-structure instruction),
`parse` abstracts `format_enforcer.enforce_json_format` respectively
`json.loads` after markdown cleaning (`none` = `JSONDecodeError`), and
`validate` abstracts `validator.validate_llm_result` of the plain client.
`str(e)` of a call exception is abstracted by `excMsg`.  Each
orchestration returns its value, the updated circuit-breaker state and
the trace of external calls as (fix-instruction?, attempt) pairs; both
are `Except`-valued like every embedded Python function, and the state on
a crashing path is not observable (as in Python, where the exception
propagates past the return value). -/

structure GenEnv where
  mockMode : Bool
  apiKey : Bool
  promptTemplate : Bool
  promptBuildOk : Bool
  call : Bool → Nat → Except CallExc String
  parse : String → Option PyVal
  validate : PyVal → Except PyErr PyVal
  model : String
  promptHash : String
  now : ℚ
  latency : ℚ
  cfg : CBConfig
  attempts : Nat
  initialDelay : ℚ
  factor : ℚ
  maxDelay : ℚ
  jitter : Nat → ℚ

/-- Abstraction of `str(e)` for a call exception. -/
def excMsg : CallExc → String
  | .http code _ => "HTTP " ++ intStr code
  | .network => "network error"
  | .other m => m

/-- Number of calls actually made by a retry invocation. -/
def callsOf {α : Type} : RunResult α → Nat
  | .ok _ a => a
  | .raised _ a => a
  | .loopExit => 0

/-- Call trace of one `retry_http_call` invocation: `k` attempts, each
with the same fix-instruction flag. -/
def callsTrace (fix : Bool) (k : Nat) : List (Bool × Nat) :=
  (List.range k).map (fun i => (fix, i + 1))

/-- `_get_mock_response()` of the plain client (llm_client.py lines
207-227). -/
def getMockResponse : PyVal := .dict [
  ("analystInsights", .list [.dict [
    ("id", .str "i1"),
    ("text", .str "Mock Insight 1: Data shows expected mock patterns."),
    ("evidence", .dict [
      ("aggregates", .dict [("MockCount", .int 100)]),
      ("row_indices", .list [.int 0, .int 1])])]]),
  ("businessSummary", .list [
    .str "Mock Business Summary Point 1",
    .str "Mock Business Summary Point 2"]),
  ("_meta", .dict [
    ("model", .str "mock-local"),
    ("latency_seconds", .float (1/100))])]

/-- `_get_fallback_response(reason)` (llm_client.py lines 229-241). -/
def getFallbackResponse (reason : String) : PyVal := .dict [
  ("analystInsights", .list []),
  ("businessSummary", .list [
    .str "Automated insights not available.",
    .str "Please review metadata and charts."]),
  ("issues", .list [.str reason]),
  ("_meta", .dict [("model", .str "fallback"), ("reason", .str reason)])]

/-- `_get_mock_response()` of the fewshot client (llm_client_fewshot.py
lines 293-330). -/
def getMockResponseFewshot (now : ℚ) : PyVal := .dict [
  ("analystInsights", .list [.dict [
    ("id", .str "i1"),
    ("text", .str "Mock Insight: Data shows expected patterns for testing purposes."),
    ("severity", .str "low"),
    ("category", .str "quality"),
    ("evidence", .dict [
      ("aggregates", .dict [("MockCount", .int 100)]),
      ("row_indices", .list [.int 0, .int 1]),
      ("chart_id", .none)]),
    ("recommendation", .dict [
      ("who", .str "analyst"),
      ("what", .str "Review mock data configuration"),
      ("priority", .str "low")])]]),
  ("businessSummary", .list [
    .str "Mock Business Summary: This is test data generated in mock mode.",
    .str "Enable real LLM by setting LLM_MOCK=false and providing OPENROUTER_API_KEY."]),
  ("visualActions", .list []),
  ("metadata", .dict [
    ("total_insights", .int 1),
    ("confidence", .str "low"),
    ("data_quality_score", .int 0),
    ("analysis_timestamp", .str "")]),
  ("_meta", .dict [
    ("model", .str "mock-local"),
    ("latency_seconds", .float (1/100)),
    ("timestamp", .float now)])]

/-- Key assignment `d[k] = v` on a dict. -/
def dictSet : List (String × PyVal) → String → PyVal → List (String × PyVal)
  | [], k, v => [(k, v)]
  | (k1, v1) :: rest, k, v =>
    if k1 == k then (k, v) :: rest else (k1, v1) :: dictSet rest k v

def pySetKey (d : PyVal) (k : String) (v : PyVal) : PyVal :=
  match d with
  | .dict kvs => .dict (dictSet kvs k v)
  | other => other

/-- `_make_llm_call()` of the plain client (llm_client.py lines 150-187):
raw call, JSON parse (`JSONDecodeError` → `ValueError`, a status-less
non-network exception), schema validation (whose exceptions also
propagate status-less), `_meta` stamping and the success record happen
inside the retried callable; the success record is applied by the caller
on overall success, which is equivalent because the successful attempt is
the last one executed. -/
def makeLlmCall (env : GenEnv) (attempt : Nat) : Except CallExc PyVal :=
  match env.call false attempt with
  | .error e => .error e
  | .ok text =>
    match env.parse text with
    | Option.none => .error (.other "Invalid JSON from LLM")
    | some result =>
      match env.validate result with
      | .error _ => .error (.other "validation error")
      | .ok normalized =>
        .ok (pySetKey normalized "_meta" (.dict [
          ("model", .str env.model),
          ("latency_seconds", .float env.latency),
          ("timestamp", .float env.now)]))

/-- `generate_insights(...)` (llm_client.py lines 102-203): the whole
retry invocation sits in a `try` whose handler records a failure and
returns the fallback response, so every exception from the call, the
parse or the validator is absorbed. -/
def generateInsights (env : GenEnv) (st : CBState) :
    Except PyErr (PyVal × CBState × List (Bool × Nat)) :=
  if env.mockMode then .ok (getMockResponse, st, [])
  else
    let (isOpen, st1) := checkCircuitBreaker env.cfg env.now st
    if isOpen then .ok (getFallbackResponse "circuit_breaker_open", st1, [])
    else if !env.apiKey then
      .ok (getFallbackResponse "missing_api_key", recordLlmFailure env.now st1, [])
    else if !env.promptTemplate then
      .ok (getFallbackResponse "prompt_load_failure", recordLlmFailure env.now st1, [])
    else
      match (retryHttpCall (makeLlmCall env) env.jitter env.attempts
        env.initialDelay env.factor env.maxDelay).1 with
      | .ok v a => .ok (v, recordLlmSuccess st1, callsTrace false a)
      | .raised e a => .ok (getFallbackResponse ("llm_failure_fallback: " ++ excMsg e),
          recordLlmFailure env.now st1, callsTrace false a)
      | .loopExit => .ok (getFallbackResponse "llm_failure_fallback: Unexpected retry loop exit",
          recordLlmFailure env.now st1, [])

/-- The post-parse tail of `generate_insights_fewshot` (lines 252-278 plus
the handler lines 280-290): validation — whose exceptions are caught by
the enclosing `try` — metadata stamping on success, fallback on critical
validation failure.  The handler re-invokes the same pure fallback, so
its repeated call is collapsed into one. -/
def fewshotAfterParse (env : GenEnv) (facts : PyVal) (st1 : CBState)
    (rawOut : PyVal) (trace : List (Bool × Nat)) :
    Except PyErr (PyVal × CBState × List (Bool × Nat)) :=
  match validateAndNormalize rawOut facts with
  | .error _ => do
    let fb ← generateFallbackInsights facts
    pure (fb, recordLlmFailure env.now st1, trace)
  | .ok (normalized, issues) =>
    match normalized with
    | some out =>
      .ok (pySetKey out "_meta" (.dict [
        ("model", .str env.model),
        ("latency_seconds", .float env.latency),
        ("timestamp", .float env.now),
        ("prompt_hash", .str env.promptHash),
        ("validation_issues", .int issues.length)]),
        recordLlmSuccess st1, trace)
    | Option.none => do
      let fb ← generateFallbackInsights facts
      pure (fb, recordLlmFailure env.now st1, trace)

/-- `generate_insights_fewshot(...)` (llm_client_fewshot.py lines
143-290).  The raw call is retried without the parse; a first-parse
`JSONDecodeError` triggers one dedicated repair invocation with
`fix_structure=True` and `attempts=1`.  The fallback calls on the
circuit-open, missing-key and prompt-failure paths, and inside the
exception handler, are outside any enclosing `try`, so their exceptions
propagate to the caller. -/
def generateInsightsFewshot (env : GenEnv) (facts : PyVal) (st : CBState) :
    Except PyErr (PyVal × CBState × List (Bool × Nat)) :=
  if env.mockMode then .ok (getMockResponseFewshot env.now, st, [])
  else
    let (isOpen, st1) := checkCircuitBreaker env.cfg env.now st
    if isOpen then do
      let fb ← generateFallbackInsights facts
      pure (fb, st1, [])
    else if !env.apiKey then do
      let fb ← generateFallbackInsights facts
      pure (fb, recordLlmFailure env.now st1, [])
    else if !env.promptBuildOk then do
      let fb ← generateFallbackInsights facts
      pure (fb, recordLlmFailure env.now st1, [])
    else
      match (retryHttpCall (env.call false) env.jitter env.attempts
        env.initialDelay env.factor env.maxDelay).1 with
      | .ok text a1 =>
        (match env.parse text with
        | some rawOut => fewshotAfterParse env facts st1 rawOut (callsTrace false a1)
        | Option.none =>
          match (retryHttpCall (env.call true) env.jitter 1
            env.initialDelay env.factor env.maxDelay).1 with
          | .ok text2 a2 =>
            (match env.parse text2 with
            | some rawOut => fewshotAfterParse env facts st1 rawOut
                (callsTrace false a1 ++ callsTrace true a2)
            | Option.none => do
              let fb ← generateFallbackInsights facts
              pure (fb, recordLlmFailure env.now st1,
                callsTrace false a1 ++ callsTrace true a2))
          | .raised _ a2 => do
            let fb ← generateFallbackInsights facts
            pure (fb, recordLlmFailure env.now st1,
              callsTrace false a1 ++ callsTrace true a2)
          | .loopExit => do
            let fb ← generateFallbackInsights facts
            pure (fb, recordLlmFailure env.now st1, callsTrace false a1))
      | .raised _ a1 => do
        let fb ← generateFallbackInsights facts
        pure (fb, recordLlmFailure env.now st1, callsTrace false a1)
      | .loopExit => do
        let fb ← generateFallbackInsights facts
        pure (fb, recordLlmFailure env.now st1, [])

/-- Specification combinator for totality proofs: `x` succeeds and its
value satisfies `P`. -/
def ExceptOkWith {ε α : Type} (x : Except ε α) (P : α → Prop) : Prop :=
  ∃ a, x = Except.ok a ∧ P a

/-! ## Concrete records and callables used by counterexamples and witnesses -/

/-- Both retryable error classes of the spec's claim C6 — 5xx/429 status
errors and network errors without a status — and nothing else. -/
def retryableClass : CallExc → Bool
  | .http c _ => decide (500 ≤ c) || decide (c = 429)
  | .network => true
  | .other _ => false

/-- Record used to refute claim C4: a record whose status is `cancelled`
(not `processing`) and whose `timeoutAt` has already passed. -/
def c4CexRecord : JobRecord :=
  { status := .cancelled, timeoutAt := some 0, error := none, errorMessage := none }

/-- Callable used to refute claim C6: a 500 on attempt 1, a 401 on
attempt 2, success on attempt 3. -/
def c6CexCall : Nat → Except CallExc Unit := fun a =>
  if a = 1 then .error (.http 500 false)
  else if a = 2 then .error (.http 401 false)
  else .ok ()

/-- Raw output used to refute claim C7: an insight whose `id` field is the
integer `0` rather than a string (one of the malformed shapes the claim
explicitly covers). -/
def c7CexRaw : PyVal :=
  .dict [("analystInsights", .list [.dict [("id", .int 0)]])]

/-- Raw output used to refute claim C10: one insight whose `text` is too
short, producing a repairable validation issue. -/
def c10CexRaw : PyVal :=
  .dict [("analystInsights", .list [.dict [("text", .str "short")]])]

/-- The normalized output of the first validation pass on `c10CexRaw`:
note the repaired text and the embedded non-empty `issues` entry. -/
def c10Out1 : PyVal := .dict [
  ("analystInsights", .list [.dict [
    ("id", .str "i1"),
    ("text", .str "Insight description missing"),
    ("severity", .str "medium"),
    ("category", .str "quality"),
    ("evidence", .dict [
      ("aggregates", .dict []),
      ("row_indices", .list []),
      ("chart_id", .none)]),
    ("recommendation", .dict [
      ("who", .str "analyst"),
      ("what", .str "Review and investigate"),
      ("priority", .str "medium")])]]),
  ("businessSummary", .list []),
  ("visualActions", .list []),
  ("metadata", .dict [
    ("total_insights", .int 1),
    ("confidence", .str "medium"),
    ("data_quality_score", .int 0),
    ("analysis_timestamp", .str "")]),
  ("issues", .list [.str "insight i1: text is too short or missing"])]

/-- The output of re-validating `c10Out1`: identical except that its
`issues` entry is empty. -/
def c10Out2 : PyVal := .dict [
  ("analystInsights", .list [.dict [
    ("id", .str "i1"),
    ("text", .str "Insight description missing"),
    ("severity", .str "medium"),
    ("category", .str "quality"),
    ("evidence", .dict [
      ("aggregates", .dict []),
      ("row_indices", .list []),
      ("chart_id", .none)]),
    ("recommendation", .dict [
      ("who", .str "analyst"),
      ("what", .str "Review and investigate"),
      ("priority", .str "medium")])]]),
  ("businessSummary", .list []),
  ("visualActions", .list []),
  ("metadata", .dict [
    ("total_insights", .int 1),
    ("confidence", .str "medium"),
    ("data_quality_score", .int 0),
    ("analysis_timestamp", .str "")]),
  ("issues", .list [])]

/-- Environment for the C1 counterexample: mock off, breaker closed and
clean, API key missing; the call oracles are never reached. -/
def c1CexEnv : GenEnv :=
  { mockMode := false, apiKey := false, promptTemplate := true, promptBuildOk := true,
    call := fun _ _ => .error .network, parse := fun _ => Option.none,
    validate := fun v => .ok v, model := "deepseek/deepseek-r1", promptHash := "h",
    now := 0, latency := 0, cfg := { threshold := 5, window := 300, cooldown := 600 },
    attempts := 2, initialDelay := 1/2, factor := 2, maxDelay := 10,
    jitter := fun _ => 1 }

/-- Environment for the C1 amended witness: as `c1CexEnv` but with an API
key present. -/
def c1WitEnv : GenEnv := { c1CexEnv with apiKey := true }

/-- Environment for the C9 counterexample against the plain client: the
call always returns a response that fails to parse. -/
def c9CexEnv : GenEnv :=
  { c1CexEnv with apiKey := true, call := fun _ _ => .ok "not json" }

/-- Environment for the C9 amended witness: the plain prompt draws the
unparseable response "bad", the repair prompt the parseable "fixed". -/
def c9WitEnv : GenEnv :=
  { c1CexEnv with
    apiKey := true,
    call := fun fix _ => .ok (if fix then "fixed" else "bad"),
    parse := fun s => if s == "fixed" then some (.dict []) else Option.none }

/-! ## Supporting lemmas for the retry executors -/

theorem httpShouldRetry_of_retryableClass {e : CallExc} (h : retryableClass e = true)
    (a : Nat) : httpShouldRetry e a = true := by
  cases e with
  | http c net =>
    simp only [retryableClass, Bool.or_eq_true, decide_eq_true_eq] at h
    have hc : c ≠ 0 := by rcases h with h | h <;> omega
    simp [httpShouldRetry, hc, h]
  | network => rfl
  | other m => simp [retryableClass] at h

theorem retryHttpAux_sleeps {α : Type} (call : Nat → Except CallExc α)
    (jitter : Nat → ℚ) (attempts : Nat) (i f m : ℚ) :
    ∀ (fuel a₀ : Nat), 1 ≤ a₀ → ∀ k d,
      (k, d) ∈ (retryHttpAux call jitter attempts i f m a₀ fuel).2 →
      2 ≤ k ∧ d = backoffDelay i f m (k - 1) (jitter (k - 1)) := by
  intro fuel
  induction fuel with
  | zero => intro a₀ _ k d hmem; simp [retryHttpAux] at hmem
  | succ n ih =>
    intro a₀ h1 k d hmem
    rw [retryHttpAux] at hmem
    cases hc : call a₀ with
    | ok v => rw [hc] at hmem; simp at hmem
    | error e =>
      rw [hc] at hmem
      by_cases hsr : httpShouldRetry e a₀ = true
      · by_cases hne : a₀ = attempts
        · simp [hsr, hne] at hmem
        · simp only [hsr, hne, not_true_eq_false, false_or, if_false,
            List.mem_cons] at hmem
          rcases hmem with hhd | htl
          · have hk : k = a₀ + 1 := congrArg Prod.fst hhd
            have hd : d = backoffDelay i f m a₀ (jitter a₀) := congrArg Prod.snd hhd
            subst hk
            refine ⟨by omega, ?_⟩
            simpa using hd
          · exact ih (a₀ + 1) (by omega) k d htl
      · simp [hsr] at hmem

theorem retryWithBackoffAux_sleeps {α : Type} (call : Nat → Except RwbExc α)
    (jitter : Nat → ℚ) (attempts : Nat) (i f m : ℚ) :
    ∀ (fuel a₀ : Nat), 1 ≤ a₀ → ∀ k d,
      (k, d) ∈ (retryWithBackoffAux call jitter attempts i f m a₀ fuel).2 →
      2 ≤ k ∧ d = backoffDelay i f m (k - 1) (jitter (k - 1)) := by
  intro fuel
  induction fuel with
  | zero => intro a₀ _ k d hmem; simp [retryWithBackoffAux] at hmem
  | succ n ih =>
    intro a₀ h1 k d hmem
    rw [retryWithBackoffAux] at hmem
    cases hc : call a₀ with
    | ok v => rw [hc] at hmem; simp at hmem
    | error e =>
      rw [hc] at hmem
      cases e with
      | fatal => simp at hmem
      | retryable =>
        by_cases hne : a₀ = attempts
        · simp [hne] at hmem
        · simp only [hne, if_false, List.mem_cons] at hmem
          rcases hmem with hhd | htl
          · have hk : k = a₀ + 1 := congrArg Prod.fst hhd
            have hd : d = backoffDelay i f m a₀ (jitter a₀) := congrArg Prod.snd hhd
            subst hk
            refine ⟨by omega, ?_⟩
            simpa using hd
          · exact ih (a₀ + 1) (by omega) k d htl

theorem backoffDelay_bounds (i f m : ℚ) (a : Nat) (j : ℚ)
    (hi : 0 ≤ i) (hf : 0 ≤ f) (hm : 0 ≤ m) (hj₁ : 9/10 ≤ j) (hj₂ : j ≤ 11/10) :
    0 ≤ backoffDelay i f m a j ∧ backoffDelay i f m a j ≤ m * (11/10) := by
  have hj0 : (0 : ℚ) ≤ j := le_trans (by norm_num) hj₁
  have hbase₀ : 0 ≤ min m (i * f ^ (a - 1)) :=
    le_min hm (mul_nonneg hi (pow_nonneg hf _))
  constructor
  · exact mul_nonneg hbase₀ hj0
  · exact mul_le_mul (min_le_left _ _) hj₂ hj0 hm

/-! ## Claim theorems C2 - C6 -/

/-- Claim C2 (confirmed): whenever a cancellation check of `process_job`
observes status `cancelled` — before processing, after parsing, before
analysis, or inside the exception handler — the consumer stops with no
write other than the initial `processing` transition, so it never writes
`completed` or `failed` after observing `cancelled`; and the shutdown
signal handler writes nothing at all to a record whose status is
`cancelled`. -/
theorem cancelled_observed_never_completed_or_failed :
    (∀ env : JobEnv, (processJob env).2 = true →
      ∀ w ∈ (processJob env).1, w = WriteEvent.processing)
    ∧ (∀ rec : JobRecord, rec.status = .cancelled → signalHandlerWrite rec = none) := by
  constructor
  · intro env
    rcases env with ⟨c1, c2, c3, ch, t2, dl, de, ns, an, lm, tr, sv⟩
    revert c1 c2 c3 ch t2 dl de ns an lm tr sv
    decide
  · intro rec h
    simp [signalHandlerWrite, h]

/-- Witness for C2 at a concrete environment: cancellation observed at the
post-parse checkpoint stops the consumer after the single `processing`
write; the signal handler leaves a cancelled record untouched. -/
theorem cancelled_observed_never_completed_or_failed_witness :
    (∀ w ∈ (processJob
      { cancelledBefore := false, cancelledAfterParse := true,
        cancelledBeforeAnalysis := false, cancelledInHandler := false,
        timedOutAfterParse := false, downloadOk := true, dfEmpty := false,
        nonTabularSaveOk := true, analysisOk := true, llmOk := true,
        transformOk := true, saveOk := true }).1, w = WriteEvent.processing)
    ∧ signalHandlerWrite
        { status := .cancelled, timeoutAt := none, error := none,
          errorMessage := none } = none := by
  refine ⟨?_, ?_⟩
  · exact cancelled_observed_never_completed_or_failed.1 _ (by decide)
  · exact cancelled_observed_never_completed_or_failed.2 _ (by decide)

/-- Claim C3 (confirmed): starting from a closed state, the check opens the
circuit (and reports open) iff the number of recorded failure timestamps
within the trailing `window` seconds reaches `threshold`; starting from an
open state (with its opening timestamp recorded at a positive wall-clock
time, as `time.time()` always is), the check closes the circuit exactly
when `now - openedAt ≥ cooldown` and the failure history is empty
immediately after closing; and recording a success while closed clears the
failure history. -/
theorem circuit_breaker_transitions :
    ∀ (cfg : CBConfig) (s : CBState) (now : ℚ),
      (s.isOpen = false →
        (((checkCircuitBreaker cfg now s).1 = true) ↔
          cfg.threshold ≤ (s.failures.filter (fun ts => now - cfg.window ≤ ts)).length)
        ∧ (((checkCircuitBreaker cfg now s).2.isOpen = true) ↔
          cfg.threshold ≤ (s.failures.filter (fun ts => now - cfg.window ≤ ts)).length))
      ∧ (∀ t, s.isOpen = true → s.openedAt = some t → 0 < t →
        (((checkCircuitBreaker cfg now s).2.isOpen = false) ↔ cfg.cooldown ≤ now - t)
        ∧ (cfg.cooldown ≤ now - t → (checkCircuitBreaker cfg now s).2.failures = []))
      ∧ (s.isOpen = false → (recordLlmSuccess s).failures = []) := by
  intro cfg s now
  obtain ⟨fs, op, oa⟩ := s
  refine ⟨?_, ?_, ?_⟩
  · intro hclosed
    have hop : op = false := hclosed
    subst hop
    simp only [checkCircuitBreaker, Bool.false_eq_true, if_false]
    by_cases hthr : cfg.threshold ≤ (fs.filter (fun ts => now - cfg.window ≤ ts)).length
    · rw [if_pos hthr]
      exact ⟨⟨fun _ => hthr, fun _ => rfl⟩, ⟨fun _ => hthr, fun _ => rfl⟩⟩
    · rw [if_neg hthr]
      exact ⟨⟨fun h => by simp at h, fun h => absurd h hthr⟩,
        ⟨fun h => by simp at h, fun h => absurd h hthr⟩⟩
  · intro t hopen hat ht
    have hop : op = true := hopen
    subst hop
    have hoa : oa = some t := hat
    subst hoa
    have htne : t ≠ 0 := ne_of_gt ht
    simp only [checkCircuitBreaker, if_true]
    by_cases hcd : cfg.cooldown ≤ now - t
    · rw [if_pos ⟨htne, hcd⟩]
      exact ⟨⟨fun _ => hcd, fun _ => rfl⟩, fun _ => rfl⟩
    · rw [if_neg (fun hc => hcd hc.2)]
      exact ⟨⟨fun h => by simp at h, fun h => absurd h hcd⟩,
        fun h => absurd h hcd⟩
  · intro _
    rcases hf : fs with _ | ⟨x, xs⟩
    · simp [recordLlmSuccess, hf]
    · simp [recordLlmSuccess, hf]

/-- Witness for C3 at concrete inputs: a closed breaker with one failure
inside the 300 s window and threshold 1 opens; an open breaker opened at
time 10 with cooldown 600 closes at time 700 with empty history; a closed
breaker's success wipes its failures. -/
theorem circuit_breaker_transitions_witness :
    ((checkCircuitBreaker ⟨1, 300, 600⟩ 20 ⟨[10], false, none⟩).1 = true)
    ∧ ((checkCircuitBreaker ⟨1, 300, 600⟩ 700 ⟨[1, 2], true, some 10⟩).2.isOpen = false)
    ∧ ((checkCircuitBreaker ⟨1, 300, 600⟩ 700 ⟨[1, 2], true, some 10⟩).2.failures = [])
    ∧ ((recordLlmSuccess ⟨[5], false, none⟩).failures = []) := by
  refine ⟨?_, ?_, ?_, ?_⟩
  · exact ((circuit_breaker_transitions ⟨1, 300, 600⟩ ⟨[10], false, none⟩ 20).1
      rfl).1.mpr (by norm_num)
  · exact ((circuit_breaker_transitions ⟨1, 300, 600⟩ ⟨[1, 2], true, some 10⟩ 700).2.1
      10 rfl rfl (by norm_num)).1.mpr (by norm_num)
  · exact ((circuit_breaker_transitions ⟨1, 300, 600⟩ ⟨[1, 2], true, some 10⟩ 700).2.1
      10 rfl rfl (by norm_num)).2 (by norm_num)
  · exact (circuit_breaker_transitions ⟨1, 300, 600⟩ ⟨[5], false, none⟩ 0).2.2 rfl

/-- Counterexample to claim C4: the worker checkpoint `_check_timeout`
marks the record `failed` with error code `timeout` even though its status
at the time of the check is `cancelled`, not `processing` — refuting the
claimed "only while its status was processing" direction of the iff. -/
theorem worker_timeout_marks_non_processing_record :
    (checkTimeoutWorker c4CexRecord 1).1 = true
    ∧ (checkTimeoutWorker c4CexRecord 1).2.status = .failed
    ∧ (checkTimeoutWorker c4CexRecord 1).2.error = some "timeout"
    ∧ c4CexRecord.status ≠ .processing := by
  refine ⟨?_, ?_, ?_, ?_⟩ <;> decide

/-- Claim C4 as amended: the worker checkpoint marks a record
`failed`/`timeout` iff the check occurs after `timeoutAt` has passed —
regardless of the record's status field — while the status poll marks it
iff additionally the status was `processing`; a record still `processing`
after `timeoutAt` is reconciled to `failed` with code `timeout` by the next
status poll, and no check ever marks a record whose timeout has not yet
passed. -/
theorem timeout_marking_amended :
    ∀ (rec : JobRecord) (now : ℚ),
      (((checkTimeoutWorker rec now).1 = true) ↔ ∃ t, rec.timeoutAt = some t ∧ t < now)
      ∧ ((checkTimeoutWorker rec now).1 = true →
        (checkTimeoutWorker rec now).2.status = .failed
        ∧ (checkTimeoutWorker rec now).2.error = some "timeout")
      ∧ (∀ t, rec.status = .processing → rec.timeoutAt = some t → t < now →
        (pollTimeoutCheck rec now).status = .failed
        ∧ (pollTimeoutCheck rec now).error = some "timeout")
      ∧ (rec.status ≠ .processing → pollTimeoutCheck rec now = rec)
      ∧ ((∀ t, rec.timeoutAt = some t → now ≤ t) →
        (checkTimeoutWorker rec now).1 = false ∧ pollTimeoutCheck rec now = rec) := by
  intro rec now
  refine ⟨?_, ?_, ?_, ?_, ?_⟩
  · rcases hta : rec.timeoutAt with _ | t
    · simp [checkTimeoutWorker, hta]
    · by_cases hlt : t < now
      · simp [checkTimeoutWorker, hta, hlt]
      · simp [checkTimeoutWorker, hta, hlt]
  · intro h
    rcases hta : rec.timeoutAt with _ | t
    · simp [checkTimeoutWorker, hta] at h
    · by_cases hlt : t < now
      · simp [checkTimeoutWorker, hta, hlt]
      · simp [checkTimeoutWorker, hta, hlt] at h
  · intro t hst hta hlt
    simp [pollTimeoutCheck, hst, hta, hlt]
  · intro hst
    simp [pollTimeoutCheck, hst]
  · intro hnl
    rcases hta : rec.timeoutAt with _ | t
    · constructor
      · simp [checkTimeoutWorker, hta]
      · by_cases hst : rec.status = .processing
        · simp [pollTimeoutCheck, hst, hta]
        · simp [pollTimeoutCheck, hst]
    · have hle : now ≤ t := hnl t hta
      have hnlt : ¬ t < now := not_lt.mpr hle
      constructor
      · simp [checkTimeoutWorker, hta, hnlt]
      · by_cases hst : rec.status = .processing
        · simp [pollTimeoutCheck, hst, hta, hnlt]
        · simp [pollTimeoutCheck, hst]

/-- Witness for the amended C4 at concrete inputs: a processing record past
its timeout is reconciled to `failed`/`timeout` by the poll, and the worker
check fires on it. -/
theorem timeout_marking_amended_witness :
    ((checkTimeoutWorker
      { status := .processing, timeoutAt := some 5, error := none,
        errorMessage := none } 6).1 = true)
    ∧ ((pollTimeoutCheck
      { status := .processing, timeoutAt := some 5, error := none,
        errorMessage := none } 6).status = .failed) := by
  refine ⟨?_, ?_⟩
  · exact (timeout_marking_amended _ 6).1.mpr ⟨5, rfl, by norm_num⟩
  · exact ((timeout_marking_amended _ 6).2.2.1 5 rfl rfl (by norm_num)).1

/-- Claim C5 (confirmed): in both retry executors, every sleep recorded in
the trace before some attempt `k` sleeps for
`min(maxDelay, initialDelay * factor ^ (k-2))` multiplied by the jitter
factor drawn for that backoff; with non-negative parameters and the jitter
in `[0.9, 1.1]`, that delay is never negative and never exceeds
`maxDelay * 1.1`. -/
theorem backoff_delay_formula_and_bounds :
    ∀ (callH : Nat → Except CallExc Unit) (callB : Nat → Except RwbExc Unit)
      (jitter : Nat → ℚ) (attempts : Nat) (i f m : ℚ) (k : Nat) (d : ℚ),
      ((k, d) ∈ (retryHttpCall callH jitter attempts i f m).2
        ∨ (k, d) ∈ (retryWithBackoff callB jitter attempts i f m).2) →
      (2 ≤ k ∧ d = min m (i * f ^ (k - 2)) * jitter (k - 1))
      ∧ (0 ≤ i → 0 ≤ f → 0 ≤ m → 9/10 ≤ jitter (k - 1) → jitter (k - 1) ≤ 11/10 →
        0 ≤ d ∧ d ≤ m * (11/10)) := by
  intro callH callB jitter attempts i f m k d hmem
  have hform : 2 ≤ k ∧ d = backoffDelay i f m (k - 1) (jitter (k - 1)) := by
    rcases hmem with h | h
    · exact retryHttpAux_sleeps callH jitter attempts i f m attempts 1 le_rfl k d h
    · exact retryWithBackoffAux_sleeps callB jitter attempts i f m attempts 1 le_rfl k d h
  have hk2 : k - 1 - 1 = k - 2 := by omega
  refine ⟨⟨hform.1, ?_⟩, ?_⟩
  · rw [hform.2, backoffDelay, hk2]
  · intro hi hf hm hj₁ hj₂
    rw [hform.2]
    exact backoffDelay_bounds i f m (k - 1) (jitter (k - 1)) hi hf hm hj₁ hj₂

/-- Witness for C5: with a callable that always fails retryably, unit
jitter and parameters `(attempts, initial, factor, max) = (2, 1, 2, 10)`,
the recorded sleep before attempt 2 is `min 10 (1 * 2^0) * 1 = 1`, within
`[0, 11]`. -/
theorem backoff_delay_formula_and_bounds_witness :
    (2 ≤ 2 ∧ (1 : ℚ) = min 10 (1 * 2 ^ (2 - 2)) * 1)
    ∧ (0 ≤ (1 : ℚ) ∧ (1 : ℚ) ≤ 10 * (11/10)) := by
  have h := backoff_delay_formula_and_bounds
    (fun _ => Except.error (.http 500 false)) (fun _ => Except.error .retryable)
    (fun _ => 1) 2 1 2 10 2 1
    (Or.inl (by norm_num [retryHttpCall, retryHttpAux, httpShouldRetry, backoffDelay]))
  exact ⟨h.1, h.2 (by norm_num) (by norm_num) (by norm_num) (by norm_num) (by norm_num)⟩

/-- Counterexample to claim C6: with an attempt budget of 3, a retryable
500 on attempt 1 followed by a 401 on attempt 2 makes `retry_http_call`
re-raise the 401 immediately after attempt 2, even though the budget
allowed a further attempt that would have succeeded — so a 401 error is
retried only when it occurs on the very first attempt, not "exactly once"
as the claim states. -/
theorem http_auth_retry_counterexample :
    (retryHttpCall c6CexCall (fun _ => 1) 3 (1/2) 2 10).1
      = RunResult.raised (.http 401 false) 2
    ∧ c6CexCall 3 = .ok () := by
  refine ⟨?_, rfl⟩
  norm_num [retryHttpCall, retryHttpAux, httpShouldRetry, c6CexCall]

/-- Claim C6 as amended: `retry_http_call` classifies by status code —
errors with status 5xx or 429 and network errors without a status are
retried up to the attempt budget (exhaustion re-raises on the final
attempt, and success on the final attempt after retryable failures is
returned); errors with any other 4xx status are re-raised immediately at
whatever attempt they occur, without consuming remaining attempts; and
errors with status 401 or 403 are retried only when they occur on the
first attempt (a second attempt then proceeds), being re-raised
immediately when they occur on any later attempt. -/
theorem http_retry_classification_amended :
    ∀ (call : Nat → Except CallExc Unit) (jitter : Nat → ℚ) (attempts : Nat) (i f m : ℚ),
      (∀ a c net, 1 ≤ a → a ≤ attempts → call a = .error (.http c net) →
        400 ≤ c → c < 500 → c ≠ 429 → ((c = 401 ∨ c = 403) → a ≠ 1) →
        (retryHttpAux call jitter attempts i f m a (attempts - a + 1)).1
          = RunResult.raised (.http c net) a)
      ∧ (1 ≤ attempts →
        (∀ k, 1 ≤ k → k ≤ attempts → ∃ e, call k = .error e ∧ retryableClass e = true) →
        ∃ e, call attempts = .error e
          ∧ (retryHttpCall call jitter attempts i f m).1 = RunResult.raised e attempts)
      ∧ (∀ v, 1 ≤ attempts →
        (∀ k, 1 ≤ k → k < attempts → ∃ e, call k = .error e ∧ retryableClass e = true) →
        call attempts = .ok v →
        (retryHttpCall call jitter attempts i f m).1 = RunResult.ok v attempts)
      ∧ (∀ c net v, 2 ≤ attempts → call 1 = .error (.http c net) →
        (c = 401 ∨ c = 403) → call 2 = .ok v →
        (retryHttpCall call jitter attempts i f m).1 = RunResult.ok v 2) := by
  intro call jitter attempts i f m
  refine ⟨?_, ?_, ?_, ?_⟩
  · intro a c net h1 hle hc h400 h500 h429 hauth
    have hsr : httpShouldRetry (.http c net) a = false := by
      have hc0 : c ≠ 0 := by omega
      have hn5 : ¬ (500 ≤ c ∨ c = 429) := by omega
      by_cases hca : (c = 401 ∨ c = 403) ∧ a = 1
      · exact absurd hca.2 (hauth hca.1)
      · simp [httpShouldRetry, hc0, hn5, hca]
    have hcond : ¬ httpShouldRetry (CallExc.http c net) a = true ∨ a = attempts :=
      Or.inl (by simp [hsr])
    simp only [retryHttpAux, hc]
    rw [if_pos hcond]
  · intro h1 hall
    -- auxiliary exhaustion argument by induction on the remaining attempts
    suffices haux : ∀ n a, 1 ≤ a → a + n = attempts →
        (∀ k, a ≤ k → k ≤ attempts → ∃ e, call k = .error e ∧ retryableClass e = true) →
        ∃ e, call attempts = .error e
          ∧ (retryHttpAux call jitter attempts i f m a (n + 1)).1
            = RunResult.raised e attempts by
      have h := haux (attempts - 1) 1 le_rfl (by omega)
        (fun k hk hk2 => hall k hk hk2)
      rcases h with ⟨e, he, hr⟩
      refine ⟨e, he, ?_⟩
      rw [retryHttpCall]
      have heq : attempts - 1 + 1 = attempts := by omega
      rw [heq] at hr
      exact hr
    intro n
    induction n with
    | zero =>
      intro a ha haeq hrest
      obtain rfl : a = attempts := by omega
      obtain ⟨e, he, hec⟩ := hrest a le_rfl le_rfl
      refine ⟨e, he, ?_⟩
      simp [retryHttpAux, he]
    | succ n ih =>
      intro a ha haeq hrest
      obtain ⟨e, he, hec⟩ := hrest a le_rfl (by omega)
      have hne : a ≠ attempts := by omega
      have hsr := httpShouldRetry_of_retryableClass hec a
      have hcond : ¬ (¬ httpShouldRetry e a = true ∨ a = attempts) := fun hor =>
        hor.elim (fun hn => hn hsr) hne
      obtain ⟨e₂, he₂, hr₂⟩ :=
        ih (a + 1) (by omega) (by omega) (fun k hk hk2 => hrest k (by omega) hk2)
      refine ⟨e₂, he₂, ?_⟩
      simp only [retryHttpAux, he]
      rw [if_neg hcond]
      exact hr₂
  · intro v h1 hall hfin
    suffices haux : ∀ n a, 1 ≤ a → a + n = attempts →
        (∀ k, a ≤ k → k < attempts → ∃ e, call k = .error e ∧ retryableClass e = true) →
        (retryHttpAux call jitter attempts i f m a (n + 1)).1
          = RunResult.ok v attempts by
      have h := haux (attempts - 1) 1 le_rfl (by omega)
        (fun k hk hk2 => hall k hk hk2)
      rw [retryHttpCall]
      have heq : attempts - 1 + 1 = attempts := by omega
      rw [heq] at h
      exact h
    intro n
    induction n with
    | zero =>
      intro a ha haeq hrest
      obtain rfl : a = attempts := by omega
      simp only [retryHttpAux, hfin]
    | succ n ih =>
      intro a ha haeq hrest
      obtain ⟨e, he, hec⟩ := hrest a le_rfl (by omega)
      have hne : a ≠ attempts := by omega
      have hsr := httpShouldRetry_of_retryableClass hec a
      have hcond : ¬ (¬ httpShouldRetry e a = true ∨ a = attempts) := fun hor =>
        hor.elim (fun hn => hn hsr) hne
      have hr₂ := ih (a + 1) (by omega) (by omega) (fun k hk hk2 => hrest k (by omega) hk2)
      simp only [retryHttpAux, he]
      rw [if_neg hcond]
      exact hr₂
  · intro c net v h2 hc1 hauth hc2
    rw [retryHttpCall]
    obtain ⟨n, hn⟩ : ∃ n, attempts = n + 2 := ⟨attempts - 2, by omega⟩
    subst hn
    have hsr : httpShouldRetry (.http c net) 1 = true := by
      have hc0 : c ≠ 0 := by rcases hauth with h | h <;> omega
      rcases hauth with h | h <;> simp [httpShouldRetry, hc0, h]
    have hcond : ¬ (¬ httpShouldRetry (CallExc.http c net) 1 = true ∨ 1 = n + 2) :=
      fun hor => hor.elim (fun hn' => hn' hsr) (by omega)
    simp only [retryHttpAux, hc1, hc2]
    rw [if_neg hcond]

/-- Witness for the amended C6 at concrete inputs: a 404 on the first of
three attempts is re-raised immediately; three consecutive 500s exhaust a
budget of three; and a 401 on attempt 1 followed by success on attempt 2
returns the success. -/
theorem http_retry_classification_amended_witness :
    ((retryHttpAux (fun _ => (.error (.http 404 false) : Except CallExc Unit))
      (fun _ => 1) 3 (1/2) 2 10 1 (3 - 1 + 1)).1 = RunResult.raised (.http 404 false) 1)
    ∧ (∃ e, (fun _ => (.error (.http 500 true) : Except CallExc Unit)) 3 = .error e
        ∧ (retryHttpCall (fun _ => (.error (.http 500 true) : Except CallExc Unit))
            (fun _ => 1) 3 (1/2) 2 10).1 = RunResult.raised e 3)
    ∧ ((retryHttpCall
        (fun a => if a = 1 then (.error (.http 401 false) : Except CallExc Unit) else .ok ())
        (fun _ => 1) 2 (1/2) 2 10).1 = RunResult.ok () 2) := by
  refine ⟨?_, ?_, ?_⟩
  · exact (http_retry_classification_amended _ (fun _ => 1) 3 (1/2) 2 10).1
      1 404 false le_rfl (by norm_num) rfl (by norm_num) (by norm_num) (by norm_num)
      (by norm_num)
  · exact (http_retry_classification_amended _ (fun _ => 1) 3 (1/2) 2 10).2.1
      (by norm_num) (fun k _ _ => ⟨.http 500 true, rfl, by decide⟩)
  · exact (http_retry_classification_amended _ (fun _ => 1) 2 (1/2) 2 10).2.2.2
      401 false () le_rfl rfl (Or.inl rfl) rfl

/-! ## Except-monad reduction helpers -/

@[simp] theorem except_bind_ok {ε α β : Type} (a : α) (f : α → Except ε β) :
    (Except.ok a >>= f) = f a := rfl

@[simp] theorem except_bind_error {ε α β : Type} (e : ε) (f : α → Except ε β) :
    ((Except.error e : Except ε α) >>= f) = Except.error e := rfl

@[simp] theorem except_pure_eq {ε α : Type} (a : α) :
    (pure a : Except ε α) = Except.ok a := rfl

theorem except_bind_ok_inv {ε α β : Type} {x : Except ε α} {f : α → Except ε β} {r : β}
    (h : (x >>= f) = Except.ok r) : ∃ a, x = Except.ok a ∧ f a = Except.ok r := by
  cases x with
  | ok a => exact ⟨a, rfl, h⟩
  | error e => simp at h

@[simp] theorem except_isOk_ok {ε α : Type} (a : α) :
    (Except.ok a : Except ε α).isOk = true := rfl

@[simp] theorem except_isOk_error {ε α : Type} (e : ε) :
    (Except.error e : Except ε α).isOk = false := rfl

theorem exists_ok_of_isOk {ε α : Type} {x : Except ε α} (h : x.isOk = true) :
    ∃ a, x = Except.ok a := by
  cases x with
  | ok a => exact ⟨a, rfl⟩
  | error e => simp [Except.isOk, Except.toBool] at h

/-! ## Totality lemmas for the insight validator (claim C7, amended) -/

theorem mapM_getId_ok (xs : List PyVal)
    (h : xs.all (fun v => match v with
      | PyVal.dict kvs => pyHashable (dictGetD kvs "id" .none)
      | _ => false) = true) :
    (exceptMapM (fun ch => do
      let v ← pyGetD ch "id" PyVal.none
      if pyHashable v then pure v
      else Except.error (.typeError "unhashable type")) xs).isOk = true := by
  induction xs with
  | nil => rfl
  | cons x xs ih =>
    simp only [List.all_cons, Bool.and_eq_true] at h
    have htl := ih h.2
    obtain ⟨l, hl⟩ := exists_ok_of_isOk htl
    cases x with
    | dict kvs =>
      have hh : pyHashable (dictGetD kvs "id" PyVal.none) = true := h.1
      have hstep : pyGetD (PyVal.dict kvs) "id" PyVal.none
          = Except.ok (dictGetD kvs "id" PyVal.none) := rfl
      simp only [except_pure_eq] at hl
      simp only [exceptMapM, hstep, except_bind_ok]
      rw [if_pos hh]
      simp only [except_pure_eq, except_bind_ok, hl, except_isOk_ok]
    | none => exact absurd h.1 (by exact Bool.false_ne_true)
    | bool b => exact absurd h.1 (by exact Bool.false_ne_true)
    | int n => exact absurd h.1 (by exact Bool.false_ne_true)
    | float q => exact absurd h.1 (by exact Bool.false_ne_true)
    | str s => exact absurd h.1 (by exact Bool.false_ne_true)
    | list ys => exact absurd h.1 (by exact Bool.false_ne_true)

/-- Decomposition of `ctxOk` at a dict context. -/
theorem ctxOk_dict {kvs : List (String × PyVal)} (h : ctxOk (.dict kvs) = true) :
    ∃ kk, dictGetD kvs "kpis" (.dict []) = .dict kk
      ∧ (dictGetD kk "numericStats" (.dict [])).isDict = true
      ∧ (dictGetD kvs "cleanedPreview" (.list [])).len?.isSome = true
      ∧ chartSpecsOk (dictGetD kvs "chartSpecs" (.list [])) = true := by
  have h' : ((dictGetD kvs "kpis" (.dict [])).isDict
      && (match dictGetD kvs "kpis" (.dict []) with
          | .dict kk => (dictGetD kk "numericStats" (.dict [])).isDict
          | _ => false)
      && (dictGetD kvs "cleanedPreview" (.list [])).len?.isSome
      && chartSpecsOk (dictGetD kvs "chartSpecs" (.list []))) = true := h
  rcases hkp : dictGetD kvs "kpis" (.dict []) with _ | _ | _ | _ | _ | _ | kk <;>
    rw [hkp] at h'
  case dict =>
    simp only [PyVal.isDict, Bool.true_and, Bool.and_eq_true] at h'
    exact ⟨kk, rfl, h'.1.1, h'.1.2, h'.2⟩
  all_goals simp [PyVal.isDict] at h'

theorem edaChartIds_ok {ctx : PyVal} (h : ctxOk ctx = true) :
    (edaChartIds ctx).isOk = true := by
  rcases ctx with _ | b | n | q | s | xs | kvs
  case dict =>
    obtain ⟨kk, hkp, hns, hcp, hcs⟩ := ctxOk_dict h
    rcases hcsv : dictGetD kvs "chartSpecs" (.list []) with _ | _ | _ | _ | _ | ys | ykvs <;>
      rw [hcsv] at hcs
    case list =>
      rw [chartSpecsOk] at hcs
      have hm := mapM_getId_ok ys hcs
      obtain ⟨l, hl⟩ := exists_ok_of_isOk hm
      simp only [except_pure_eq] at hl
      have h1 : pyGetD (PyVal.dict kvs) "chartSpecs" (.list [])
          = Except.ok (dictGetD kvs "chartSpecs" (.list [])) := rfl
      simp only [edaChartIds, h1, except_bind_ok, hcsv, pyIter, except_pure_eq, hl,
        except_isOk_ok]
    all_goals simp [chartSpecsOk] at hcs
  all_goals simp [ctxOk] at h

theorem validateEvidence_ok {ctx : PyVal} (h : ctxOk ctx = true)
    (ev : List (String × PyVal))
    (hch : pyHashable (dictGetD ev "chart_id" PyVal.none) = true) :
    (validateEvidence ev ctx).isOk = true := by
  have hcharts := edaChartIds_ok h
  obtain ⟨ids, hids⟩ := exists_ok_of_isOk hcharts
  rcases ctx with _ | b | n | q | s | xs | kvs
  case dict =>
    obtain ⟨kk, hkp, hns, hcp, _⟩ := ctxOk_dict h
    rcases hnsv : dictGetD kk "numericStats" (.dict []) with _ | _ | _ | _ | _ | _ | nkk <;>
      rw [hnsv] at hns
    case dict =>
      obtain ⟨pl, hcpl⟩ := Option.isSome_iff_exists.mp hcp
      have h1 : pyGetD (PyVal.dict kvs) "kpis" (.dict [])
          = Except.ok (dictGetD kvs "kpis" (.dict [])) := rfl
      have h2 : pyGetD (PyVal.dict kvs) "cleanedPreview" (.list [])
          = Except.ok (dictGetD kvs "cleanedPreview" (.list [])) := rfl
      have h3 : pyGetD (PyVal.dict kk) "numericStats" (.dict [])
          = Except.ok (dictGetD kk "numericStats" (.dict [])) := rfl
      simp only [validateEvidence, h1, h2, except_bind_ok, hkp, h3, hnsv, pyKeys, pyLen,
        hcpl, except_pure_eq]
      rcases hcid : dictGetD ev "chart_id" PyVal.none
          with _ | cb | ci | cq | cs | cxs | ckvs <;>
        rw [hcid] at hch
      · simp
      · simp only [hids, except_bind_ok, pyHashable, Bool.not_true, Bool.false_eq_true,
          if_false]
        split <;> simp
      · simp only [hids, except_bind_ok, pyHashable, Bool.not_true, Bool.false_eq_true,
          if_false]
        split <;> simp
      · simp only [hids, except_bind_ok, pyHashable, Bool.not_true, Bool.false_eq_true,
          if_false]
        split <;> simp
      · simp only [hids, except_bind_ok, pyHashable, Bool.not_true, Bool.false_eq_true,
          if_false]
        split <;> simp
      · exact absurd hch (by exact Bool.false_ne_true)
      · exact absurd hch (by exact Bool.false_ne_true)
    all_goals simp [PyVal.isDict] at hns
  all_goals simp [ctxOk] at h

theorem isOk_bind {ε α β : Type} {x : Except ε α} {f : α → Except ε β}
    (hx : x.isOk = true) (hf : ∀ a, (f a).isOk = true) : (x >>= f).isOk = true := by
  obtain ⟨a, ha⟩ := exists_ok_of_isOk hx
  rw [ha, except_bind_ok]
  exact hf a

theorem normalizeInsight_ok {ctx : PyVal} (h : ctxOk ctx = true)
    {ikvs : List (String × PyVal)} (hin : insightOk ikvs = true) (idx : Nat) :
    (normalizeInsight ikvs idx ctx).isOk = true := by
  simp only [insightOk, Bool.and_eq_true] at hin
  obtain ⟨⟨hid, htext⟩, hevch⟩ := hin
  have hValEv : ∀ insightId : String,
      (validateEvidence (match dictGetD ikvs "evidence" (.dict []) with
        | PyVal.dict kvs => (([] : List String), kvs)
        | _ => (["insight " ++ insightId ++ ": evidence must be a dictionary"],
            ([] : List (String × PyVal)))).2 ctx).isOk = true := by
    intro insightId
    rcases hev : dictGetD ikvs "evidence" (.dict []) with _ | _ | _ | _ | _ | _ | ekvs <;>
      rw [hev] at hevch
    case dict => exact validateEvidence_ok h ekvs hevch
    all_goals exact validateEvidence_ok h [] (by decide)
  obtain ⟨sid, hsid⟩ :
      ∃ s, dictGetD ikvs "id" (.str ("i" ++ natStr (idx + 1))) = PyVal.str s := by
    rcases hl : dictLookup ikvs "id" with _ | v
    · exact ⟨"i" ++ natStr (idx + 1), by simp [dictGetD, hl]⟩
    · rw [hl] at hid
      rcases v with _ | _ | _ | _ | s | _ | _
      case str => exact ⟨s, by simp [dictGetD, hl]⟩
      all_goals simp [PyVal.isStr] at hid
  simp only [normalizeInsight, hsid, except_pure_eq, except_bind_ok]
  by_cases htr : (dictGetD ikvs "text" (.str "")).truthy = true
  · -- truthy text: `len(text)` is evaluated and defined
    rw [textOk, htr] at htext
    simp only [Bool.not_true, Bool.false_or] at htext
    obtain ⟨n, hlen⟩ := Option.isSome_iff_exists.mp htext
    simp only [htr, Bool.not_true, Bool.false_eq_true, if_false, pyLen, hlen,
      except_pure_eq, except_bind_ok]
    by_cases hlt : n < 10
    · rw [if_pos hlt]
      exact isOk_bind (hValEv _) (fun r => rfl)
    · rw [if_neg hlt]
      exact isOk_bind (hValEv _) (fun r => rfl)
  · have htr' : (dictGetD ikvs "text" (.str "")).truthy = false :=
      eq_false_of_ne_true htr
    simp only [htr', Bool.not_false, if_true, except_pure_eq, except_bind_ok]
    exact isOk_bind (hValEv _) (fun r => rfl)

theorem normalizeVisualAction_ok {ctx : PyVal} (h : ctxOk ctx = true)
    {akvs : List (String × PyVal)} (ha : actionOk (PyVal.dict akvs) = true) :
    (normalizeVisualAction akvs ctx).isOk = true := by
  by_cases hc : (dictGetD akvs "chart_id" PyVal.none).truthy = true
  · simp only [actionOk, hc, Bool.not_true, Bool.false_or] at ha
    simp only [normalizeVisualAction, hc, Bool.not_true, Bool.false_eq_true, if_false]
    apply isOk_bind (edaChartIds_ok h)
    intro ids
    rw [if_neg (by simp [ha])]
    split <;> simp
  · have hc' : (dictGetD akvs "chart_id" PyVal.none).truthy = false :=
      eq_false_of_ne_true hc
    simp [normalizeVisualAction, hc']

theorem insightsMapM_ok {ctx : PyVal} (h : ctxOk ctx = true) :
    ∀ (xs : List PyVal) (n : Nat), insightsListOk xs = true →
      (exceptMapM (fun p =>
        match p.2 with
        | .dict ikvs => do
          let r ← normalizeInsight ikvs p.1 ctx
          pure (some r.1, r.2)
        | _ => pure ((Option.none : Option PyVal),
            ["Insight at index " ++ natStr p.1 ++ " is not a dictionary"]))
        (List.enumFrom n xs)).isOk = true := by
  intro xs
  induction xs with
  | nil => intro n _; rfl
  | cons x xs ih =>
    intro n hok
    rw [insightsListOk, List.all_cons, Bool.and_eq_true] at hok
    have htl := ih (n + 1) (by rw [insightsListOk]; exact hok.2)
    simp only [List.enumFrom, exceptMapM]
    apply isOk_bind
    · cases x with
      | dict ikvs =>
        exact isOk_bind (normalizeInsight_ok h hok.1 n) (fun r => rfl)
      | none => rfl
      | bool b => rfl
      | int n' => rfl
      | float q => rfl
      | str s => rfl
      | list ys => rfl
    · intro y
      exact isOk_bind htl (fun ys => rfl)

theorem actionsMapM_ok {ctx : PyVal} (h : ctxOk ctx = true) :
    ∀ (xs : List PyVal), xs.all actionOk = true →
      (exceptMapM (actionStep ctx) xs).isOk = true := by
  intro xs
  induction xs with
  | nil => intro _; rfl
  | cons x xs ih =>
    intro hok
    rw [List.all_cons, Bool.and_eq_true] at hok
    simp only [exceptMapM]
    apply isOk_bind
    · cases x with
      | dict akvs => exact normalizeVisualAction_ok h hok.1
      | none => rfl
      | bool b => rfl
      | int n => rfl
      | float q => rfl
      | str s => rfl
      | list ys => rfl
    · intro y
      exact isOk_bind (ih hok.2) (fun ys => rfl)

theorem actionsOfRaw_ok {ctx : PyVal} (h : ctxOk ctx = true) (rAV : PyVal)
    (hA : (match rAV with
      | PyVal.list xs => xs.all actionOk
      | _ => true) = true) :
    (exceptMapM (actionStep ctx) ((match rAV with
      | PyVal.list xs => (([] : List String), xs)
      | _ => (["visualActions must be a list"], ([] : List PyVal))).2)).isOk = true := by
  rcases rAV with _ | _ | _ | _ | _ | xs | _
  case list => exact actionsMapM_ok h xs hA
  all_goals rfl

/-- Claim C7 as amended: `validate_and_normalize` returns a pair
`(normalized-output-or-null, issues)` — never raising — for every raw
output and context facts that are well-typed at the positions the code
reads without an isinstance guard: the context is a dict whose `kpis` and
`kpis['numericStats']` are dicts, whose `cleanedPreview` is sized and
whose `chartSpecs` is a list of dicts with hashable ids; and, in the raw
output, any nested `insights` replacement is itself a dict, every dict
insight's `id` (when present) is a string, its `text` is falsy or sized
and its evidence `chart_id` is hashable, and every dict visual action's
`chart_id` is falsy or hashable.  Outside these conditions the function
can raise — see the counterexample. -/
theorem validator_total_on_welltyped :
    ∀ (raw ctx : PyVal), ctxOk ctx = true → rawOutputOk raw = true →
      ∃ r, validateAndNormalize raw ctx = Except.ok r := by
  intro raw ctx hctx hraw
  apply exists_ok_of_isOk
  rcases raw with _ | b | n | q | s | xs | kvs0
  case dict =>
    simp only [rawOutputOk] at hraw
    rcases hE : (if dictHas kvs0 "insights" && !(dictHas kvs0 "analystInsights")
        then dictGetD kvs0 "insights" PyVal.none
        else PyVal.dict kvs0) with _ | eb | en | eq' | es | exs | ekvs <;>
      rw [hE] at hraw
    case dict =>
      dsimp only at hraw
      rw [Bool.and_eq_true] at hraw
      obtain ⟨hIns, hActs⟩ := hraw
      simp only [validateAndNormalize, hE, pyGetD, except_bind_ok, except_pure_eq]
      rcases hAI : dictGetD ekvs "analystInsights" (.list [])
          with _ | ab | an | aq | as' | axs | akvs <;>
        rw [hAI] at hIns <;> dsimp only at hIns <;> simp only [hAI]
      case list =>
        apply isOk_bind
        · simpa only [List.enum] using insightsMapM_ok hctx axs 0 hIns
        · intro y
          apply isOk_bind (actionsOfRaw_ok hctx _ hActs)
          intro a
          split <;> rfl
      case dict =>
        apply isOk_bind
        · have h1 : insightsListOk [PyVal.dict akvs] = true := by
            rw [insightsListOk]
            simp [hIns]
          simpa only [List.enum] using insightsMapM_ok hctx [PyVal.dict akvs] 0 h1
        · intro y
          apply isOk_bind (actionsOfRaw_ok hctx _ hActs)
          intro a
          split <;> rfl
      all_goals
        apply isOk_bind (by rfl)
        intro y
        apply isOk_bind (actionsOfRaw_ok hctx _ hActs)
        intro a
        split <;> rfl
    all_goals simp at hraw
  all_goals rfl

/-- Witness for the amended C7 at a concrete well-typed input. -/
theorem validator_total_on_welltyped_witness :
    ∃ r, validateAndNormalize
      (.dict [("analystInsights", .list [.dict [
          ("id", .str "i1"),
          ("text", .str "A sufficiently long insight text")]]),
        ("businessSummary", .list [.str "ok"])])
      (.dict [("kpis", .dict []), ("cleanedPreview", .list []),
        ("chartSpecs", .list [])])
      = Except.ok r :=
  validator_total_on_welltyped _ _ (by rfl) (by rfl)

/-- Counterexample to claim C7: `validate_and_normalize` raises
`AttributeError` (from `insight_id.startswith('i')`) on an insight whose
`id` is the integer `0`, instead of returning a pair. -/
theorem validator_raises_on_nonstring_id :
    validateAndNormalize c7CexRaw (.dict []) = .error (.attributeError "startswith") := rfl

/-- Counterexample to claim C10: re-validating the normalized output of
`c10CexRaw` yields an output that differs from the first normalized output
(its embedded `issues` entry has been emptied), so validation is not
idempotent in the claimed sense. -/
theorem validator_not_idempotent :
    validateAndNormalize c10CexRaw (.dict [])
      = .ok (some c10Out1, ["insight i1: text is too short or missing"])
    ∧ validateAndNormalize c10Out1 (.dict []) = .ok (some c10Out2, [])
    ∧ c10Out1 ≠ c10Out2 := by
  refine ⟨rfl, rfl, ?_⟩
  intro h
  simp [c10Out1, c10Out2] at h

/-! ## Numeric totality lemmas for the fallback generator (claim C8) -/

theorem isNum_pyNum {v : PyVal} (h : v.isNum = true) : ∃ q, pyNum? v = some q := by
  cases v <;> simp [PyVal.isNum] at h <;> exact ⟨_, rfl⟩

theorem pyLtB_ok_of_num {v w : PyVal} (hv : v.isNum = true) (hw : w.isNum = true) :
    ∃ b, pyLtB v w = Except.ok b := by
  obtain ⟨x, hx⟩ := isNum_pyNum hv
  obtain ⟨y, hy⟩ := isNum_pyNum hw
  refine ⟨decide (x < y), ?_⟩
  simp only [pyLtB, hx, hy]

theorem pyGtB_ok_of_num {v w : PyVal} (hv : v.isNum = true) (hw : w.isNum = true) :
    ∃ b, pyGtB v w = Except.ok b := by
  obtain ⟨b, hb⟩ := pyLtB_ok_of_num hw hv
  exact ⟨b, hb⟩

theorem pyMul_ok_of_num {v w : PyVal} (hv : v.isNum = true) (hw : w.isNum = true) :
    ∃ u, pyMul v w = Except.ok u ∧ u.isNum = true := by
  cases v <;> simp [PyVal.isNum] at hv <;>
    cases w <;> simp [PyVal.isNum] at hw <;> exact ⟨_, rfl, rfl⟩

/-- A value strictly greater than `0` under Python `>` is numeric with a
positive rational value. -/
theorem pyGtB_zero_true {w : PyVal} (h : pyGtB w (.int 0) = Except.ok true) :
    ∃ q, pyNum? w = some q ∧ 0 < q := by
  cases w with
  | bool b =>
    cases b
    · exact absurd h (by simp [pyGtB, pyLtB, pyNum?])
    · exact ⟨1, rfl, one_pos⟩
  | int n =>
    refine ⟨n, rfl, ?_⟩
    simp only [pyGtB, pyLtB, pyNum?, Except.ok.injEq, decide_eq_true_eq] at h
    simpa using h
  | float q =>
    refine ⟨q, rfl, ?_⟩
    simp only [pyGtB, pyLtB, pyNum?, Except.ok.injEq, decide_eq_true_eq] at h
    simpa using h
  | none => exact absurd h (by simp [pyGtB, pyLtB, pyNum?])
  | str s => exact absurd h (by simp [pyGtB, pyLtB, pyNum?])
  | list xs => exact absurd h (by simp [pyGtB, pyLtB, pyNum?])
  | dict kvs => exact absurd h (by simp [pyGtB, pyLtB, pyNum?])

/-- A numeric value that is not `== 0` has a nonzero rational value. -/
theorem pyEq_zero_false {w : PyVal} (hw : w.isNum = true)
    (h : pyEq w (.int 0) = false) : ∃ q, pyNum? w = some q ∧ q ≠ 0 := by
  cases w <;> simp [PyVal.isNum] at hw <;>
    first
      | (rename_i b
         cases b
         · exact absurd h (by simp [pyEq, pyNum?])
         · exact ⟨1, rfl, one_ne_zero⟩)
      | (refine ⟨_, rfl, ?_⟩
         simp only [pyEq, pyNum?, beq_eq_false_iff_ne, ne_eq] at h
         first
           | exact_mod_cast h
           | exact h)

theorem pyDiv_ok {v w : PyVal} {q : ℚ} (hv : v.isNum = true)
    (hw : pyNum? w = some q) (hq : q ≠ 0) :
    ∃ u, pyDiv v w = Except.ok u ∧ u.isNum = true := by
  obtain ⟨x, hx⟩ := isNum_pyNum hv
  refine ⟨.float (x / q), ?_, rfl⟩
  simp only [pyDiv, hx, hw]
  rw [if_neg hq]

theorem pyAbs_ok_of_num {v : PyVal} (hv : v.isNum = true) :
    ∃ u, pyAbs v = Except.ok u ∧ u.isNum = true := by
  cases v <;> simp [PyVal.isNum] at hv <;> exact ⟨_, rfl, rfl⟩

theorem pyRoundTo_ok_of_num {v : PyVal} (hv : v.isNum = true) (d : Nat) :
    ∃ u, pyRoundTo d v = Except.ok u := by
  cases v <;> simp [PyVal.isNum] at hv <;> exact ⟨_, rfl⟩

theorem pyToInt_some_of_num {v : PyVal} (hv : v.isNum = true) :
    ∃ n, pyToInt? v = some n := by
  cases v <;> simp [PyVal.isNum] at hv <;> exact ⟨_, rfl⟩

theorem fmtFixedOf_ok_of_num {v : PyVal} (hv : v.isNum = true) (d : Nat) :
    ∃ s, fmtFixedOf d v = Except.ok s := by
  obtain ⟨x, hx⟩ := isNum_pyNum hv
  refine ⟨fmtFixed d x, ?_⟩
  simp only [fmtFixedOf, hx]

theorem fmtComma0_ok_of_num {v : PyVal} (hv : v.isNum = true) :
    ∃ s, fmtComma0 v = Except.ok s := by
  obtain ⟨x, hx⟩ := isNum_pyNum hv
  refine ⟨(if (round x : ℤ) < 0 then "-" else "")
    ++ groupDigits (natStr (round x : ℤ).natAbs), ?_⟩
  simp only [fmtComma0, hx]

theorem fmtCommaAny_ok_of_num {v : PyVal} (hv : v.isNum = true) :
    ∃ s, fmtCommaAny v = Except.ok s := by
  cases v <;> simp [PyVal.isNum] at hv
  · exact ⟨_, rfl⟩
  · exact ⟨_, rfl⟩
  · dsimp only [fmtCommaAny]
    split <;> exact ⟨_, rfl⟩

theorem pyMinNum_ok_of_num {v w : PyVal} (hv : v.isNum = true) (hw : w.isNum = true) :
    ∃ u, pyMinNum v w = Except.ok u ∧ u.isNum = true := by
  obtain ⟨b, hb⟩ := pyLtB_ok_of_num hw hv
  cases b
  · exact ⟨v, by simp only [pyMinNum, pyGtB, hb, except_bind_ok, if_false]; rfl, hv⟩
  · exact ⟨w, by simp only [pyMinNum, pyGtB, hb, except_bind_ok, if_true]; rfl, hw⟩

theorem pyMaxNum_ok_of_num {v w : PyVal} (hv : v.isNum = true) (hw : w.isNum = true) :
    ∃ u, pyMaxNum v w = Except.ok u ∧ u.isNum = true := by
  obtain ⟨b, hb⟩ := pyLtB_ok_of_num hv hw
  cases b
  · exact ⟨v, by simp only [pyMaxNum, pyGtB, hb, except_bind_ok, if_false]; rfl, hv⟩
  · exact ⟨w, by simp only [pyMaxNum, pyGtB, hb, except_bind_ok, if_true]; rfl, hw⟩

theorem pyGetD_dict (kvs : List (String × PyVal)) (k : String) (d : PyVal) :
    pyGetD (.dict kvs) k d = Except.ok (dictGetD kvs k d) := rfl

theorem pyIter_list (xs : List PyVal) : pyIter (.list xs) = Except.ok xs := rfl

theorem pyItems_dict (kvs : List (String × PyVal)) :
    pyItems (.dict kvs) = Except.ok kvs := rfl

theorem findMaxRowIdx_ok (colName : String) (maxVal : PyVal) (rows : List PyVal)
    (h : rows.all PyVal.isDict = true) : ∀ idx : Nat,
    (findMaxRowIdx colName maxVal rows idx).isOk = true := by
  induction rows with
  | nil => exact fun _ => rfl
  | cons row rows ih =>
    intro idx
    simp only [List.all_cons, Bool.and_eq_true] at h
    obtain ⟨hrow, hrows⟩ := h
    cases row with
    | dict kvs =>
      cases hpe : pyEq (dictGetD kvs colName PyVal.none) maxVal with
      | true =>
        simp only [findMaxRowIdx, pyGetD_dict, except_bind_ok, hpe, if_true]
        rfl
      | false =>
        simp only [findMaxRowIdx, pyGetD_dict, except_bind_ok, hpe,
          Bool.false_eq_true, if_false]
        exact ih hrows (idx + 1)
    | none => exact absurd hrow (by simp [PyVal.isDict])
    | bool b => exact absurd hrow (by simp [PyVal.isDict])
    | int n => exact absurd hrow (by simp [PyVal.isDict])
    | float q => exact absurd hrow (by simp [PyVal.isDict])
    | str s => exact absurd hrow (by simp [PyVal.isDict])
    | list xs => exact absurd hrow (by simp [PyVal.isDict])

theorem findChartForCol_ok (colName : String) (charts : List PyVal)
    (h : charts.all PyVal.isDict = true) :
    (findChartForCol colName charts).isOk = true := by
  induction charts with
  | nil => rfl
  | cons chart charts ih =>
    simp only [List.all_cons, Bool.and_eq_true] at h
    obtain ⟨hchart, hcharts⟩ := h
    cases chart with
    | dict kvs =>
      cases hpe : (pyEq (dictGetD kvs "y" PyVal.none) (.str colName)
          || pyEq (dictGetD kvs "x" PyVal.none) (.str colName)) with
      | true =>
        simp only [findChartForCol, pyGetD_dict, except_bind_ok, hpe, if_true]
        rfl
      | false =>
        simp only [findChartForCol, pyGetD_dict, except_bind_ok, hpe,
          Bool.false_eq_true, if_false]
        exact ih hcharts
    | none => exact absurd hchart (by simp [PyVal.isDict])
    | bool b => exact absurd hchart (by simp [PyVal.isDict])
    | int n => exact absurd hchart (by simp [PyVal.isDict])
    | float q => exact absurd hchart (by simp [PyVal.isDict])
    | str s => exact absurd hchart (by simp [PyVal.isDict])
    | list xs => exact absurd hchart (by simp [PyVal.isDict])

theorem findChartForPair_ok (col1 col2 : PyVal) (charts : List PyVal)
    (h : charts.all PyVal.isDict = true) :
    (findChartForPair col1 col2 charts).isOk = true := by
  induction charts with
  | nil => rfl
  | cons chart charts ih =>
    simp only [List.all_cons, Bool.and_eq_true] at h
    obtain ⟨hchart, hcharts⟩ := h
    cases chart with
    | dict kvs =>
      cases hpe : ((pyEq (dictGetD kvs "x" PyVal.none) col1
            || pyEq (dictGetD kvs "x" PyVal.none) col2)
          && (pyEq (dictGetD kvs "y" PyVal.none) col1
            || pyEq (dictGetD kvs "y" PyVal.none) col2)) with
      | true =>
        simp only [findChartForPair, pyGetD_dict, except_bind_ok, hpe, if_true]
        rfl
      | false =>
        simp only [findChartForPair, pyGetD_dict, except_bind_ok, hpe,
          Bool.false_eq_true, if_false]
        exact ih hcharts
    | none => exact absurd hchart (by simp [PyVal.isDict])
    | bool b => exact absurd hchart (by simp [PyVal.isDict])
    | int n => exact absurd hchart (by simp [PyVal.isDict])
    | float q => exact absurd hchart (by simp [PyVal.isDict])
    | str s => exact absurd hchart (by simp [PyVal.isDict])
    | list xs => exact absurd hchart (by simp [PyVal.isDict])

theorem maxMissingScan_ok (cols : List PyVal) :
    cols.all schemaColOk = true →
    ∀ acc : PyVal × PyVal, acc.2.isNum = true →
    ∃ res, maxMissingScan cols acc = Except.ok res ∧ res.2.isNum = true := by
  induction cols with
  | nil => exact fun _ acc hacc => ⟨acc, rfl, hacc⟩
  | cons col cols ih =>
    intro h acc hacc
    simp only [List.all_cons, Bool.and_eq_true] at h
    obtain ⟨hcol, hcols⟩ := h
    cases col with
    | dict kvs =>
      have hmiss : (dictGetD kvs "missing" (.int 0)).isNum = true := hcol
      obtain ⟨b, hb⟩ := pyGtB_ok_of_num hmiss hacc
      cases b with
      | true =>
        obtain ⟨res, hres, hnum⟩ := ih hcols
          (dictGetD kvs "column" (.str "Unknown"), dictGetD kvs "missing" (.int 0)) hmiss
        refine ⟨res, ?_, hnum⟩
        simp only [maxMissingScan, pyGetD_dict, except_bind_ok, hb, if_true]
        exact hres
      | false =>
        obtain ⟨res, hres, hnum⟩ := ih hcols acc hacc
        refine ⟨res, ?_, hnum⟩
        simp only [maxMissingScan, pyGetD_dict, except_bind_ok, hb,
          Bool.false_eq_true, if_false]
        exact hres
    | none => exact absurd hcol (by simp [schemaColOk])
    | bool b => exact absurd hcol (by simp [schemaColOk])
    | int n => exact absurd hcol (by simp [schemaColOk])
    | float q => exact absurd hcol (by simp [schemaColOk])
    | str s => exact absurd hcol (by simp [schemaColOk])
    | list xs => exact absurd hcol (by simp [schemaColOk])

/-! ## The `ExceptOkWith` calculus used to walk the generator do-blocks -/

theorem okWith_bind {ε α β : Type} {x : Except ε α} {f : α → Except ε β}
    {P : α → Prop} {Q : β → Prop}
    (hx : ExceptOkWith x P) (hf : ∀ a, P a → ExceptOkWith (f a) Q) :
    ExceptOkWith (x >>= f) Q := by
  obtain ⟨a, ha, hpa⟩ := hx
  rw [ha, except_bind_ok]
  exact hf a hpa

theorem okWith_isOk {ε α : Type} {x : Except ε α} (P : α → Prop)
    (h : ExceptOkWith x P) : x.isOk = true := by
  obtain ⟨a, ha, _⟩ := h
  rw [ha]
  rfl

theorem okWith_self {ε α : Type} {x : Except ε α} (h : ∃ a, x = Except.ok a) :
    ExceptOkWith x (fun a => x = Except.ok a) := by
  obtain ⟨a, ha⟩ := h
  exact ⟨a, ha, ha⟩

theorem okWith_ite {c : Prop} [Decidable c] {ε α : Type} {x y : Except ε α}
    {P : α → Prop} (hx : c → ExceptOkWith x P) (hy : ¬ c → ExceptOkWith y P) :
    ExceptOkWith (if c then x else y) P := by
  by_cases h : c
  · rw [if_pos h]
    exact hx h
  · rw [if_neg h]
    exact hy h

/-! ## Shape inversion for the well-typedness predicates -/

theorem dictListOk_list {v : PyVal} (h : dictListOk v = true) :
    ∃ xs, v = PyVal.list xs ∧ xs.all PyVal.isDict = true := by
  cases v with
  | list xs => exact ⟨xs, rfl, h⟩
  | none => exact absurd h (by simp [dictListOk])
  | bool b => exact absurd h (by simp [dictListOk])
  | int n => exact absurd h (by simp [dictListOk])
  | float q => exact absurd h (by simp [dictListOk])
  | str s => exact absurd h (by simp [dictListOk])
  | dict kvs => exact absurd h (by simp [dictListOk])

theorem schemaOk_list {v : PyVal} (h : schemaOk v = true) :
    ∃ cols, v = PyVal.list cols ∧ cols.all schemaColOk = true := by
  cases v with
  | list cols => exact ⟨cols, rfl, h⟩
  | none => exact absurd h (by simp [schemaOk])
  | bool b => exact absurd h (by simp [schemaOk])
  | int n => exact absurd h (by simp [schemaOk])
  | float q => exact absurd h (by simp [schemaOk])
  | str s => exact absurd h (by simp [schemaOk])
  | dict kvs => exact absurd h (by simp [schemaOk])

theorem correlationsOk_list {v : PyVal} (h : correlationsOk v = true) :
    ∃ cs, v = PyVal.list cs ∧ cs.all corrEntryOk = true := by
  cases v with
  | list cs => exact ⟨cs, rfl, h⟩
  | none => exact absurd h (by simp [correlationsOk])
  | bool b => exact absurd h (by simp [correlationsOk])
  | int n => exact absurd h (by simp [correlationsOk])
  | float q => exact absurd h (by simp [correlationsOk])
  | str s => exact absurd h (by simp [correlationsOk])
  | dict kvs => exact absurd h (by simp [correlationsOk])

theorem statsEntryOk_dict {v : PyVal} (h : statsEntryOk v = true) :
    ∃ svs, v = PyVal.dict svs
      ∧ (dictGetD svs "min" (.int 0)).isNum = true
      ∧ (dictGetD svs "max" (.int 0)).isNum = true
      ∧ (dictGetD svs "mean" (.int 0)).isNum = true
      ∧ (dictGetD svs "median" (.int 0)).isNum = true := by
  cases v with
  | dict svs =>
    simp only [statsEntryOk, Bool.and_eq_true] at h
    exact ⟨svs, rfl, h.1.1.1, h.1.1.2, h.1.2, h.2⟩
  | none => exact absurd h (by simp [statsEntryOk])
  | bool b => exact absurd h (by simp [statsEntryOk])
  | int n => exact absurd h (by simp [statsEntryOk])
  | float q => exact absurd h (by simp [statsEntryOk])
  | str s => exact absurd h (by simp [statsEntryOk])
  | list xs => exact absurd h (by simp [statsEntryOk])

theorem corrEntryOk_dict {v : PyVal} (h : corrEntryOk v = true) :
    ∃ cvs, v = PyVal.dict cvs ∧ (dictGetD cvs "r" (.int 0)).isNum = true := by
  cases v with
  | dict cvs => exact ⟨cvs, rfl, h⟩
  | none => exact absurd h (by simp [corrEntryOk])
  | bool b => exact absurd h (by simp [corrEntryOk])
  | int n => exact absurd h (by simp [corrEntryOk])
  | float q => exact absurd h (by simp [corrEntryOk])
  | str s => exact absurd h (by simp [corrEntryOk])
  | list xs => exact absurd h (by simp [corrEntryOk])

theorem kpisOk_dict {v : PyVal} (h : kpisOk v = true) :
    ∃ kvs, v = PyVal.dict kvs
      ∧ (dictGetD kvs "rowCount" (.int 0)).isNum = true
      ∧ (dictGetD kvs "columnCount" (.int 0)).isNum = true
      ∧ (dictGetD kvs "missingCells" (.int 0)).isNum = true
      ∧ (dictGetD kvs "duplicateRows" (.int 0)).isNum = true
      ∧ ∃ stats, dictGetD kvs "numericStats" (.dict []) = PyVal.dict stats
          ∧ stats.all (fun kv => statsEntryOk kv.2) = true := by
  cases v with
  | dict kvs =>
    simp only [kpisOk, Bool.and_eq_true] at h
    obtain ⟨⟨⟨⟨h1, h2⟩, h3⟩, h4⟩, h5⟩ := h
    refine ⟨kvs, rfl, h1, h2, h3, h4, ?_⟩
    cases hns : dictGetD kvs "numericStats" (.dict []) with
    | dict stats =>
      rw [hns] at h5
      exact ⟨stats, rfl, h5⟩
    | none => rw [hns] at h5; simp at h5
    | bool b => rw [hns] at h5; simp at h5
    | int n => rw [hns] at h5; simp at h5
    | float q => rw [hns] at h5; simp at h5
    | str s => rw [hns] at h5; simp at h5
    | list xs => rw [hns] at h5; simp at h5
  | none => exact absurd h (by simp [kpisOk])
  | bool b => exact absurd h (by simp [kpisOk])
  | int n => exact absurd h (by simp [kpisOk])
  | float q => exact absurd h (by simp [kpisOk])
  | str s => exact absurd h (by simp [kpisOk])
  | list xs => exact absurd h (by simp [kpisOk])

/-! ## Totality of the individual fallback-insight generators -/

theorem pctIfPos_ok {num den : PyVal} {b : Bool} (hnum : num.isNum = true)
    (hb : pyGtB den (.int 0) = Except.ok b) :
    ExceptOkWith (pctIfPos num den b) (fun v => PyVal.isNum v = true) := by
  cases b with
  | false => exact ⟨_, rfl, rfl⟩
  | true =>
    obtain ⟨q, hq, hqpos⟩ := pyGtB_zero_true hb
    exact okWith_bind (pyDiv_ok hnum hq (ne_of_gt hqpos))
      (fun d hd => pyMul_ok_of_num hd (by rfl))

theorem missingColText_ok {mcol mcount rc : PyVal} (hm : mcount.isNum = true)
    (hrc : rc.isNum = true) (t : String) :
    ExceptOkWith (missingColText t mcol mcount rc) (fun _ => True) := by
  simp only [missingColText]
  refine okWith_ite (fun _ => ?_) (fun _ => ⟨_, rfl, trivial⟩)
  refine okWith_bind (okWith_self (pyGtB_ok_of_num hrc (by rfl))) (fun g hg => ?_)
  refine okWith_bind (pctIfPos_ok hm hg) (fun cmp hcmp => ?_)
  refine okWith_bind (okWith_self (fmtFixedOf_ok_of_num hcmp 1)) (fun cs _ => ?_)
  exact ⟨_, rfl, trivial⟩

theorem qualitySentence_ok {mc dr : PyVal} (hmc : mc.isNum = true)
    (hdr : dr.isNum = true) :
    ExceptOkWith (qualitySentence mc dr) (fun _ => True) := by
  simp only [qualitySentence]
  refine okWith_ite (fun _ => ⟨_, rfl, trivial⟩) (fun _ => ?_)
  refine okWith_bind (okWith_self (pyGtB_ok_of_num hmc (by rfl))) (fun b1 _ => ?_)
  refine okWith_bind (okWith_self (pyGtB_ok_of_num hdr (by rfl))) (fun b2 _ => ?_)
  exact ⟨_, rfl, trivial⟩

theorem generateMissingDataInsight_ok {kpis schema : PyVal} (hk : kpisOk kpis = true)
    (hs : schemaOk schema = true) (n : Nat) :
    (generateMissingDataInsight kpis schema n).isOk = true := by
  obtain ⟨kvs, rfl, hrc, hcc, hmc, _, _⟩ := kpisOk_dict hk
  refine okWith_isOk (fun _ => True) ?_
  simp only [generateMissingDataInsight, pyGetD_dict, except_bind_ok]
  refine okWith_ite (fun _ => ⟨_, rfl, trivial⟩) (fun _ => ?_)
  refine okWith_bind (pyMul_ok_of_num hrc hcc) (fun tc htc => ?_)
  refine okWith_bind (okWith_self (pyGtB_ok_of_num htc (by rfl))) (fun g hg => ?_)
  refine okWith_bind (pctIfPos_ok hmc hg) (fun mp hmp => ?_)
  refine okWith_bind (okWith_self (pyLtB_ok_of_num hmp (by rfl))) (fun lt _ => ?_)
  refine okWith_ite (fun _ => ⟨_, rfl, trivial⟩) (fun _ => ?_)
  obtain ⟨cols, rfl, hcols⟩ := schemaOk_list hs
  simp only [pyIter_list, except_bind_ok]
  refine okWith_bind (maxMissingScan_ok cols hcols (PyVal.none, PyVal.int 0) (by rfl))
    (fun mi hmi => ?_)
  refine okWith_bind (okWith_self (pyGtB_ok_of_num hmp (by rfl))) (fun g10 _ => ?_)
  refine okWith_bind (okWith_self (pyGtB_ok_of_num hmp (by rfl))) (fun g5 _ => ?_)
  refine okWith_bind (okWith_self (fmtFixedOf_ok_of_num hmp 1)) (fun ps _ => ?_)
  refine okWith_bind (missingColText_ok hmi hrc _) (fun t2 _ => ?_)
  refine okWith_bind (okWith_self (pyRoundTo_ok_of_num hmp 2)) (fun u _ => ?_)
  exact ⟨_, rfl, trivial⟩

theorem generateDuplicateInsight_ok {kpis : PyVal} (hk : kpisOk kpis = true) (n : Nat) :
    (generateDuplicateInsight kpis n).isOk = true := by
  obtain ⟨kvs, rfl, hrc, _, _, hdr, _⟩ := kpisOk_dict hk
  refine okWith_isOk (fun _ => True) ?_
  simp only [generateDuplicateInsight, pyGetD_dict, except_bind_ok]
  refine okWith_ite (fun _ => ⟨_, rfl, trivial⟩) (fun hz => ?_)
  have hz0 : pyEq (dictGetD kvs "rowCount" (.int 0)) (.int 0) = false := by
    simp only [Bool.or_eq_true, not_or, Bool.not_eq_true] at hz
    exact hz.2
  obtain ⟨q, hq, hqne⟩ := pyEq_zero_false hrc hz0
  refine okWith_bind (pyDiv_ok hdr hq hqne) (fun d hd => ?_)
  refine okWith_bind (pyMul_ok_of_num hd (by rfl)) (fun pct hpct => ?_)
  refine okWith_bind (okWith_self (pyLtB_ok_of_num hpct (by rfl))) (fun lt _ => ?_)
  refine okWith_ite (fun _ => ⟨_, rfl, trivial⟩) (fun _ => ?_)
  refine okWith_bind (okWith_self (pyGtB_ok_of_num hpct (by rfl))) (fun g10 _ => ?_)
  refine okWith_bind (okWith_self (pyGtB_ok_of_num hpct (by rfl))) (fun g5 _ => ?_)
  refine okWith_bind (okWith_self (fmtFixedOf_ok_of_num hpct 1)) (fun ps _ => ?_)
  refine okWith_bind (okWith_self (pyRoundTo_ok_of_num hpct 2)) (fun u _ => ?_)
  exact ⟨_, rfl, trivial⟩

theorem outlierForCol_ok {stats cleanedPreview chartSpecs : PyVal}
    (hst : statsEntryOk stats = true) (hp : dictListOk cleanedPreview = true)
    (hc : dictListOk chartSpecs = true) (colName : String) (n : Nat) :
    (outlierForCol colName stats cleanedPreview chartSpecs n).isOk = true := by
  obtain ⟨svs, rfl, hmin, hmax, hmean, hmed⟩ := statsEntryOk_dict hst
  obtain ⟨rows, rfl, hrows⟩ := dictListOk_list hp
  obtain ⟨charts, rfl, hcharts⟩ := dictListOk_list hc
  refine okWith_isOk (fun _ => True) ?_
  simp only [outlierForCol, pyGetD_dict, except_bind_ok]
  refine okWith_bind (okWith_self (pyGtB_ok_of_num hmin (by rfl))) (fun mpos hmpos => ?_)
  refine okWith_ite (fun _ => ⟨_, rfl, trivial⟩) (fun hnp => ?_)
  rw [show mpos = true from by simpa using hnp] at hmpos
  obtain ⟨q, hq, hqpos⟩ := pyGtB_zero_true hmpos
  refine okWith_bind (pyDiv_ok hmax hq (ne_of_gt hqpos)) (fun ratio hratio => ?_)
  refine okWith_bind (okWith_self (pyGtB_ok_of_num hratio (by rfl))) (fun big _ => ?_)
  refine okWith_ite (fun _ => ⟨_, rfl, trivial⟩) (fun _ => ?_)
  simp only [pyIter_list, except_bind_ok]
  refine okWith_bind (okWith_self (exists_ok_of_isOk
    (findMaxRowIdx_ok colName _ rows hrows 0))) (fun ri _ => ?_)
  refine okWith_bind (okWith_self (exists_ok_of_isOk
    (findChartForCol_ok colName charts hcharts))) (fun ci _ => ?_)
  refine okWith_bind (okWith_self (fmtComma0_ok_of_num hmax)) (fun s1 _ => ?_)
  refine okWith_bind (okWith_self (fmtFixedOf_ok_of_num hratio 1)) (fun s2 _ => ?_)
  refine okWith_bind (okWith_self (fmtComma0_ok_of_num hmin)) (fun s3 _ => ?_)
  refine okWith_bind (okWith_self (fmtComma0_ok_of_num hmed)) (fun s4 _ => ?_)
  refine okWith_bind (okWith_self (pyRoundTo_ok_of_num hratio 2)) (fun u _ => ?_)
  exact ⟨_, rfl, trivial⟩

theorem outlierScan_ok {cleanedPreview chartSpecs : PyVal}
    (hp : dictListOk cleanedPreview = true) (hc : dictListOk chartSpecs = true)
    (n : Nat) : ∀ items : List (String × PyVal),
    items.all (fun kv => statsEntryOk kv.2) = true →
    (outlierScan cleanedPreview chartSpecs n items).isOk = true := by
  intro items
  induction items with
  | nil => exact fun _ => rfl
  | cons kv rest ih =>
    intro h
    simp only [List.all_cons, Bool.and_eq_true] at h
    obtain ⟨colName, stats⟩ := kv
    obtain ⟨r, hr⟩ := exists_ok_of_isOk (outlierForCol_ok h.1 hp hc colName n)
    cases r with
    | some ins =>
      simp only [outlierScan, hr, except_bind_ok]
      rfl
    | none =>
      simp only [outlierScan, hr, except_bind_ok]
      exact ih h.2

theorem generateOutlierInsight_ok {kpis cleanedPreview chartSpecs : PyVal}
    (hk : kpisOk kpis = true) (hp : dictListOk cleanedPreview = true)
    (hc : dictListOk chartSpecs = true) (n : Nat) :
    (generateOutlierInsight kpis cleanedPreview chartSpecs n).isOk = true := by
  obtain ⟨kvs, rfl, _, _, _, _, stats, hns, hall⟩ := kpisOk_dict hk
  simp only [generateOutlierInsight, pyGetD_dict, except_bind_ok, hns,
    pyItems_dict]
  exact outlierScan_ok hp hc n stats hall

theorem correlationForEntry_ok {corr chartSpecs : PyVal}
    (hco : corrEntryOk corr = true) (hc : dictListOk chartSpecs = true) (n : Nat) :
    (correlationForEntry corr chartSpecs n).isOk = true := by
  obtain ⟨cvs, rfl, hr⟩ := corrEntryOk_dict hco
  obtain ⟨charts, rfl, hcharts⟩ := dictListOk_list hc
  refine okWith_isOk (fun _ => True) ?_
  simp only [correlationForEntry, pyGetD_dict, except_bind_ok]
  refine okWith_bind (pyAbs_ok_of_num hr) (fun absR habs => ?_)
  refine okWith_bind (okWith_self (pyGtB_ok_of_num habs (by rfl))) (fun strong _ => ?_)
  refine okWith_ite (fun _ => ⟨_, rfl, trivial⟩) (fun _ => ?_)
  refine okWith_bind (okWith_self (pyGtB_ok_of_num hr (by rfl))) (fun rp _ => ?_)
  refine okWith_bind (okWith_self (pyGtB_ok_of_num habs (by rfl))) (fun vs _ => ?_)
  simp only [pyIter_list, except_bind_ok]
  refine okWith_bind (okWith_self (exists_ok_of_isOk
    (findChartForPair_ok _ _ charts hcharts))) (fun ci _ => ?_)
  refine okWith_bind (okWith_self (fmtFixedOf_ok_of_num hr 2)) (fun s _ => ?_)
  refine okWith_bind (okWith_self (pyRoundTo_ok_of_num hr 3)) (fun u _ => ?_)
  exact ⟨_, rfl, trivial⟩

theorem correlationScan_ok {chartSpecs : PyVal} (hc : dictListOk chartSpecs = true)
    (n : Nat) : ∀ corrs : List PyVal, corrs.all corrEntryOk = true →
    (correlationScan chartSpecs n corrs).isOk = true := by
  intro corrs
  induction corrs with
  | nil => exact fun _ => rfl
  | cons corr rest ih =>
    intro h
    simp only [List.all_cons, Bool.and_eq_true] at h
    obtain ⟨r, hr⟩ := exists_ok_of_isOk (correlationForEntry_ok h.1 hc n)
    cases r with
    | some ins =>
      simp only [correlationScan, hr, except_bind_ok]
      rfl
    | none =>
      simp only [correlationScan, hr, except_bind_ok]
      exact ih h.2

theorem generateCorrelationInsight_ok {fvs : List (String × PyVal)} {chartSpecs : PyVal}
    (hcorr : correlationsOk (dictGetD fvs "correlations" (.list [])) = true)
    (hc : dictListOk chartSpecs = true) (n : Nat) :
    (generateCorrelationInsight (.dict fvs) chartSpecs n).isOk = true := by
  obtain ⟨cs, hcs, hall⟩ := correlationsOk_list hcorr
  simp only [generateCorrelationInsight, pyGetD_dict, except_bind_ok, hcs,
    pyIter_list, except_bind_ok]
  exact correlationScan_ok hc n cs hall

theorem generateBusinessSummary_ok {kpis : PyVal} (hk : kpisOk kpis = true) (n : Nat) :
    (generateBusinessSummary kpis n).isOk = true := by
  obtain ⟨kvs, rfl, hrc, _, hmc, hdr, _⟩ := kpisOk_dict hk
  refine okWith_isOk (fun _ => True) ?_
  simp only [generateBusinessSummary, pyGetD_dict, except_bind_ok]
  refine okWith_bind (okWith_self (fmtCommaAny_ok_of_num hrc)) (fun rcs _ => ?_)
  refine okWith_bind (qualitySentence_ok hmc hdr) (fun qual _ => ?_)
  exact ⟨_, rfl, trivial⟩

theorem calculateQualityScore_ok {kpis : PyVal} (hk : kpisOk kpis = true) :
    (calculateQualityScore kpis).isOk = true := by
  obtain ⟨kvs, rfl, hrc, hcc, hmc, hdr, _⟩ := kpisOk_dict hk
  refine okWith_isOk (fun _ => True) ?_
  simp only [calculateQualityScore, pyGetD_dict, except_bind_ok]
  refine okWith_ite (fun _ => ⟨_, rfl, trivial⟩) (fun _ => ?_)
  refine okWith_bind (pyMul_ok_of_num hrc hcc) (fun tc htc => ?_)
  refine @okWith_bind _ _ _ _ _ (fun v => PyVal.isNum v = true) _ ?_ (fun s1 hs1 => ?_)
  · refine okWith_bind (okWith_self (pyGtB_ok_of_num htc (by rfl))) (fun g hg => ?_)
    refine okWith_ite (fun hgt => ?_) (fun _ => ⟨_, rfl, rfl⟩)
    rw [show g = true from hgt] at hg
    obtain ⟨q, hq, hqpos⟩ := pyGtB_zero_true hg
    refine okWith_bind (pyDiv_ok hmc hq (ne_of_gt hqpos)) (fun d hd => ?_)
    refine okWith_bind (pyMul_ok_of_num hd (by rfl)) (fun mp hmp => ?_)
    refine okWith_bind (pyMul_ok_of_num hmp (by rfl)) (fun db hdb => ?_)
    refine okWith_bind (pyMinNum_ok_of_num hdb (by rfl)) (fun ded hded => ?_)
    obtain ⟨dd, hdd⟩ := isNum_pyNum hded
    have h100 : pyNum? (PyVal.int 100) = some (100 : ℚ) := rfl
    simp only [h100, hdd]
    exact ⟨_, rfl, rfl⟩
  · refine @okWith_bind _ _ _ _ _ (fun v => PyVal.isNum v = true) _ ?_ (fun s2 hs2 => ?_)
    · refine okWith_bind (okWith_self (pyGtB_ok_of_num hrc (by rfl))) (fun g hg => ?_)
      refine okWith_ite (fun hgt => ?_) (fun _ => ⟨_, rfl, hs1⟩)
      rw [show g = true from hgt] at hg
      obtain ⟨q, hq, hqpos⟩ := pyGtB_zero_true hg
      refine okWith_bind (pyDiv_ok hdr hq (ne_of_gt hqpos)) (fun d hd => ?_)
      refine okWith_bind (pyMul_ok_of_num hd (by rfl)) (fun mp hmp => ?_)
      refine okWith_bind (pyMul_ok_of_num hmp (by rfl)) (fun db hdb => ?_)
      refine okWith_bind (pyMinNum_ok_of_num hdb (by rfl)) (fun ded hded => ?_)
      obtain ⟨ss, hss⟩ := isNum_pyNum hs1
      obtain ⟨dd, hdd⟩ := isNum_pyNum hded
      simp only [hss, hdd]
      exact ⟨_, rfl, rfl⟩
    · obtain ⟨m, hm⟩ := pyToInt_some_of_num hs2
      simp only [hm]
      refine okWith_bind (pyMaxNum_ok_of_num (by rfl) (by rfl)) (fun r _ => ?_)
      exact ⟨_, rfl, trivial⟩

/-! ## Claim C8 -/

/-- C8 counterexample: `generate_fallback_insights` is claimed total on
every facts dictionary, including KPI fields "of unexpected types", but a
string `rowCount` crashes it: `_generate_missing_data_insight` computes
`total_cells = row_count * col_count`, which for `"100" * 2` is the
string `"100100"` (Python sequence repetition), and the conditional
`total_cells > 0` then raises `TypeError` (str vs int comparison), which
propagates to the caller. -/
theorem fallback_crashes_on_string_rowcount :
    generateFallbackInsights (.dict [("kpis", .dict [("rowCount", .str "100"),
      ("columnCount", .int 2), ("missingCells", .int 0)])])
      = Except.error (.typeError "not supported between instances") := rfl

/-- Shared totality core for the fallback generator on well-typed facts. -/
theorem fallbackInsights_isOk_of_welltyped {facts : PyVal}
    (h : wellTypedFacts facts = true) :
    (generateFallbackInsights facts).isOk = true := by
  cases facts with
  | dict fvs =>
    simp only [wellTypedFacts, Bool.and_eq_true] at h
    obtain ⟨⟨⟨⟨hk, hsc⟩, hp⟩, hcs⟩, hcorr⟩ := h
    refine okWith_isOk (fun _ => True) ?_
    simp only [generateFallbackInsights, pyGetD_dict, except_bind_ok]
    refine okWith_bind (okWith_self (exists_ok_of_isOk
      (generateMissingDataInsight_ok hk hsc 1))) (fun mi _ => ?_)
    cases mi <;>
      refine okWith_bind (okWith_self (exists_ok_of_isOk
        (generateDuplicateInsight_ok hk _))) (fun di _ => ?_) <;>
    cases di <;>
      refine okWith_bind (okWith_self (exists_ok_of_isOk
        (generateOutlierInsight_ok hk hp hcs _))) (fun oi _ => ?_) <;>
    cases oi <;>
      refine okWith_bind (okWith_self (exists_ok_of_isOk
        (generateCorrelationInsight_ok hcorr hcs _))) (fun ci _ => ?_) <;>
    cases ci <;>
      refine okWith_bind (okWith_self (exists_ok_of_isOk
        (generateBusinessSummary_ok hk _))) (fun bs _ => ?_) <;>
    refine okWith_bind (okWith_self (exists_ok_of_isOk
      (calculateQualityScore_ok hk))) (fun sc _ => ?_) <;>
    exact ⟨_, rfl, trivial⟩
  | none => exact absurd h (by simp [wellTypedFacts])
  | bool b => exact absurd h (by simp [wellTypedFacts])
  | int n => exact absurd h (by simp [wellTypedFacts])
  | float q => exact absurd h (by simp [wellTypedFacts])
  | str s => exact absurd h (by simp [wellTypedFacts])
  | list xs => exact absurd h (by simp [wellTypedFacts])

/-- C8 (amended): on well-typed facts — numeric KPI counts, a schema list
of dicts with numeric `missing` fields, `numericStats` a dict of dicts
with numeric min/max/mean/median, list-of-dict `cleanedPreview` and
`chartSpecs`, and correlation entries with numeric `r` — the fallback
generator always returns a complete insight bundle; it performs no
network call (it is a pure function of its argument). -/
theorem fallback_generator_total_on_welltyped (facts : PyVal)
    (h : wellTypedFacts facts = true) :
    ∃ r, generateFallbackInsights facts = Except.ok r :=
  exists_ok_of_isOk (fallbackInsights_isOk_of_welltyped h)

/-- Witness for the amended C8 at concrete well-typed facts (the sample
dataset from the source file). -/
theorem fallback_generator_total_on_welltyped_witness :
    ∃ r, generateFallbackInsights (.dict [
      ("kpis", .dict [("rowCount", .int 500), ("columnCount", .int 5),
        ("missingCells", .int 45), ("duplicateRows", .int 23),
        ("numericStats", .dict [("Revenue", .dict [("min", .int 1000),
          ("max", .int 50000), ("mean", .int 8000), ("median", .int 7500)])])]),
      ("schema", .list [.dict [("column", .str "Email"), ("missing", .int 38)],
        .dict [("column", .str "Revenue"), ("missing", .int 0)]]),
      ("cleanedPreview", .list [.dict [("Email", .none), ("Revenue", .int 50000)],
        .dict [("Email", .str "test"), ("Revenue", .int 7500)]]),
      ("chartSpecs", .list [.dict [("id", .str "chart_1"), ("x", .str "Revenue")]]),
      ("correlations", .list [])])
      = Except.ok r :=
  fallback_generator_total_on_welltyped _ (by rfl)

/-! ## Claim C1: totality of the insight orchestrations -/

theorem fewshotAfterParse_ok {facts : PyVal} (env : GenEnv) (st1 : CBState)
    (rawOut : PyVal) (trace : List (Bool × Nat))
    (hwt : wellTypedFacts facts = true) :
    (fewshotAfterParse env facts st1 rawOut trace).isOk = true := by
  cases hv : validateAndNormalize rawOut facts with
  | error e =>
    simp only [fewshotAfterParse, hv]
    exact isOk_bind (fallbackInsights_isOk_of_welltyped hwt) (fun fb => rfl)
  | ok pr =>
    obtain ⟨normalized, issues⟩ := pr
    cases normalized with
    | some out =>
      simp only [fewshotAfterParse, hv]
      rfl
    | none =>
      simp only [fewshotAfterParse, hv]
      exact isOk_bind (fallbackInsights_isOk_of_welltyped hwt) (fun fb => rfl)

theorem plainInsights_isOk (env : GenEnv) (st : CBState) :
    (generateInsights env st).isOk = true := by
  unfold generateInsights
  repeat' split
  all_goals rfl

theorem fewshot_isOk_of_welltyped (env : GenEnv) (facts : PyVal) (st : CBState)
    (hwt : wellTypedFacts facts = true) :
    (generateInsightsFewshot env facts st).isOk = true := by
  unfold generateInsightsFewshot
  repeat' split
  all_goals
    first
      | rfl
      | exact isOk_bind (fallbackInsights_isOk_of_welltyped hwt) (fun fb => rfl)
      | exact fewshotAfterParse_ok _ _ _ _ hwt

/-- C1 counterexample: in the fewshot orchestration the fallback call on
the missing-credentials path runs outside any `try`, so with the circuit
closed, no API key, and compact-EDA facts whose `rowCount` is the string
"100", `generate_insights_fewshot` propagates the fallback generator
TypeError to its caller instead of returning a value. -/
theorem fewshot_crashes_on_missing_api_key :
    generateInsightsFewshot c1CexEnv
      (.dict [("kpis", .dict [("rowCount", .str "100"), ("columnCount", .int 2),
        ("missingCells", .int 0)])]) CBState.initial
      = Except.error (.typeError "not supported between instances") := rfl

/-- C1 (amended): the plain `generate_insights` returns a value for every
environment and breaker state — its single `try` absorbs call, parse and
validation failures, and the remaining paths build pure dictionaries;
`generate_insights_fewshot` returns a value provided the compact-EDA
facts are well-typed for the fallback generator, whose invocations on the
circuit-open / missing-key / prompt-failure / handler paths sit outside
any `try`. -/
theorem insight_orchestration_total_amended (env : GenEnv) (st : CBState)
    (facts : PyVal) (hwt : wellTypedFacts facts = true) :
    (∃ r, generateInsights env st = Except.ok r)
    ∧ (∃ r, generateInsightsFewshot env facts st = Except.ok r) :=
  ⟨exists_ok_of_isOk (plainInsights_isOk env st),
   exists_ok_of_isOk (fewshot_isOk_of_welltyped env facts st hwt)⟩

/-- Witness for the amended C1 at a concrete environment and facts. -/
theorem insight_orchestration_total_amended_witness :
    (∃ r, generateInsights c1WitEnv CBState.initial = Except.ok r)
    ∧ (∃ r, generateInsightsFewshot c1WitEnv (.dict []) CBState.initial = Except.ok r) :=
  insight_orchestration_total_amended c1WitEnv CBState.initial (.dict []) (by rfl)

/-! ## Claim C9: JSON-repair retry behaviour -/

theorem retryHttpCall_first_ok {α : Type} {call : Nat → Except CallExc α} {v : α}
    (j : Nat → ℚ) {attempts : Nat} (ha : 1 ≤ attempts) (i f m : ℚ)
    (hc : call 1 = Except.ok v) :
    retryHttpCall call j attempts i f m = (.ok v 1, []) := by
  obtain ⟨k, rfl⟩ : ∃ k, attempts = k + 1 :=
    ⟨attempts - 1, (Nat.succ_pred_eq_of_pos ha).symm⟩
  simp only [retryHttpCall, retryHttpAux, hc]

theorem callsTrace_fix {fix : Bool} {k : Nat} {p : Bool × Nat}
    (hp : p ∈ callsTrace fix k) : p.1 = fix := by
  simp only [callsTrace, List.mem_map] at hp
  obtain ⟨i, _, rfl⟩ := hp
  rfl

theorem plain_trace_false (env : GenEnv) (st : CBState)
    (r : PyVal × CBState × List (Bool × Nat))
    (hres : generateInsights env st = Except.ok r) :
    ∀ p ∈ r.2.2, p.1 = false := by
  have hmem : r.2.2 = [] ∨ ∃ a, r.2.2 = callsTrace false a := by
    unfold generateInsights at hres
    repeat' split at hres
    all_goals
      simp only [Except.ok.injEq] at hres
    all_goals
      subst hres
    all_goals
      first
        | exact Or.inl rfl
        | exact Or.inr ⟨_, rfl⟩
  rcases hmem with h | ⟨a, h⟩
  · intro p hp
    rw [h] at hp
    exact absurd hp (List.not_mem_nil p)
  · intro p hp
    rw [h] at hp
    exact callsTrace_fix hp

/-- C9 counterexample: in the plain client the JSON parse runs inside the
retried callable and its `ValueError` carries no HTTP status and is not a
network error, so `retry_http_call` re-raises it immediately: a first
unparseable response yields exactly one external call — no repair retry
and no amended instruction — and the orchestration routes straight to
the fallback response. -/
theorem plain_parse_failure_counterexample :
    generateInsights c9CexEnv CBState.initial
      = Except.ok (getFallbackResponse "llm_failure_fallback: Invalid JSON from LLM",
          { failures := [0], isOpen := false, openedAt := Option.none },
          [(false, 1)]) := rfl

/-- C9 (amended): only the fewshot orchestration implements the repair
retry.  With the breaker closed, a key present and a built prompt: when
the first invocation returns an unparseable response, exactly one
further call is made with the fix-structure instruction (`attempts=1`);
if its response parses, validation proceeds on it, and if it is still
unparseable the orchestration routes to the fallback — in both cases the
trace is one plain call followed by one amended call.  The plain client
never issues an amended call on any path. -/
theorem json_repair_retry_amended
    (env : GenEnv) (st st1 : CBState) (facts : PyVal) (t1 t2 : String)
    (hmock : env.mockMode = false)
    (hcb : checkCircuitBreaker env.cfg env.now st = (false, st1))
    (hkey : env.apiKey = true)
    (hpb : env.promptBuildOk = true)
    (hatt : 1 ≤ env.attempts)
    (hcall1 : env.call false 1 = Except.ok t1)
    (hparse1 : env.parse t1 = Option.none)
    (hcall2 : env.call true 1 = Except.ok t2)
    (hwt : wellTypedFacts facts = true) :
    (∀ raw, env.parse t2 = some raw →
      generateInsightsFewshot env facts st
        = fewshotAfterParse env facts st1 raw [(false, 1), (true, 1)])
    ∧ (env.parse t2 = Option.none →
      ∃ fb, generateFallbackInsights facts = Except.ok fb
        ∧ generateInsightsFewshot env facts st
          = Except.ok (fb, recordLlmFailure env.now st1, [(false, 1), (true, 1)]))
    ∧ (∀ envp stp r, generateInsights envp stp = Except.ok r →
        ∀ p ∈ r.2.2, p.1 = false) := by
  have h1 : retryHttpCall (env.call false) env.jitter env.attempts
      env.initialDelay env.factor env.maxDelay = (.ok t1 1, []) :=
    retryHttpCall_first_ok env.jitter hatt _ _ _ hcall1
  have h2 : retryHttpCall (env.call true) env.jitter 1
      env.initialDelay env.factor env.maxDelay = (.ok t2 1, []) :=
    retryHttpCall_first_ok env.jitter (Nat.le_refl 1) _ _ _ hcall2
  refine ⟨?_, ?_, fun envp stp r h => plain_trace_false envp stp r h⟩
  · intro raw hraw
    simp only [generateInsightsFewshot, hmock, Bool.false_eq_true, if_false, hcb,
      hkey, hpb, Bool.not_true, h1, h2, hparse1, hraw]
    rfl
  · intro hn
    obtain ⟨fb, hfb⟩ := exists_ok_of_isOk (fallbackInsights_isOk_of_welltyped hwt)
    refine ⟨fb, hfb, ?_⟩
    simp only [generateInsightsFewshot, hmock, Bool.false_eq_true, if_false, hcb,
      hkey, hpb, Bool.not_true, h1, h2, hparse1, hn, hfb, except_bind_ok]
    rfl

/-- Witness for the amended C9 at a concrete environment: the plain
prompt draws the unparseable "bad", the repair prompt the parseable
"fixed". -/
theorem json_repair_retry_amended_witness :
    (∀ raw, c9WitEnv.parse "fixed" = some raw →
      generateInsightsFewshot c9WitEnv (.dict []) CBState.initial
        = fewshotAfterParse c9WitEnv (.dict []) CBState.initial raw
            [(false, 1), (true, 1)])
    ∧ (c9WitEnv.parse "fixed" = Option.none →
      ∃ fb, generateFallbackInsights (.dict []) = Except.ok fb
        ∧ generateInsightsFewshot c9WitEnv (.dict []) CBState.initial
          = Except.ok (fb, recordLlmFailure c9WitEnv.now CBState.initial,
              [(false, 1), (true, 1)]))
    ∧ (∀ envp stp r, generateInsights envp stp = Except.ok r →
        ∀ p ∈ r.2.2, p.1 = false) :=
  json_repair_retry_amended c9WitEnv CBState.initial CBState.initial (.dict [])
    "bad" "fixed" rfl rfl rfl rfl (by decide) rfl rfl rfl (by rfl)

/-! ## Claim C10: re-validation of a normalized output

Small fixed-point facts about the rendering and normalization
primitives. -/

theorem floatIfNumeric_idem (v : PyVal) :
    floatIfNumeric (floatIfNumeric v) = floatIfNumeric v := by
  cases v <;> rfl

theorem str_data_nil {s : String} (h : s.data = []) : s = "" := by
  cases s with
  | mk l =>
    simp only at h
    subst h
    rfl

theorem strMk_ne_empty {l : List Char} (h : l ≠ []) : String.mk l ≠ "" := by
  intro hc
  exact h (by simpa using congrArg String.data hc)

theorem natDigits_ne_nil {n : Nat} (h : n ≠ 0) : natDigits n ≠ [] := by
  cases n with
  | zero => exact absurd rfl h
  | succ m =>
    show natDigitsAux (m + 1) (m + 1) ≠ []
    simp only [natDigitsAux]
    intro hcon
    have := (List.append_eq_nil.mp hcon).2
    simp at this

theorem natStr_ne_empty (n : Nat) : natStr n ≠ "" := by
  unfold natStr
  split
  · decide
  · next h => exact strMk_ne_empty (natDigits_ne_nil h)

theorem strAppend_ne_empty_right {a b : String} (hb : b ≠ "") : a ++ b ≠ "" := by
  intro hc
  have hd := congrArg String.data hc
  rw [String.data_append] at hd
  exact hb (str_data_nil (List.append_eq_nil.mp (by simpa using hd)).2)

theorem intStr_ne_empty (n : Int) : intStr n ≠ "" := by
  unfold intStr
  split
  · exact strAppend_ne_empty_right (natStr_ne_empty _)
  · exact natStr_ne_empty _

theorem pyStr_ne_empty_of_truthy {v : PyVal} (h : v.truthy = true) : pyStr v ≠ "" := by
  cases v with
  | none => simp [PyVal.truthy] at h
  | bool b =>
    cases b
    · simp [PyVal.truthy] at h
    · decide
  | int n => exact intStr_ne_empty n
  | float q =>
    show ratStr q ≠ ""
    unfold ratStr
    split
    · exact strAppend_ne_empty_right (by decide)
    · exact strAppend_ne_empty_right (natStr_ne_empty _)
  | str s =>
    simp only [PyVal.truthy, decide_eq_true_eq] at h
    exact h
  | list xs => exact strAppend_ne_empty_right (by decide)
  | dict kvs => exact strAppend_ne_empty_right (by decide)

theorem strStartsWith_i_append (t : String) : strStartsWith ("i" ++ t) "i" = true := by
  show List.isPrefixOf "i".data ("i" ++ t).data = true
  rw [String.data_append]
  simp [List.isPrefixOf]

theorem normalizeValue_mem {v : PyVal} {S : List String} {d : String} (hd : d ∈ S) :
    normalizeValue v S d ∈ S := by
  unfold normalizeValue
  split
  · exact hd
  · dsimp only
    split
    · next hc => exact List.mem_of_elem_eq_true hc
    · split
      · next c hfind => exact List.mem_of_find?_eq_some hfind
      · exact hd

theorem canonical_fix_sev :
    ∀ c ∈ CANONICAL_SEVERITY, normalizeValue (.str c) CANONICAL_SEVERITY "medium" = c := by
  decide

theorem canonical_fix_cat :
    ∀ c ∈ CANONICAL_CATEGORY, normalizeValue (.str c) CANONICAL_CATEGORY "quality" = c := by
  decide

theorem canonical_fix_who :
    ∀ c ∈ CANONICAL_WHO, normalizeValue (.str c) CANONICAL_WHO "analyst" = c := by
  decide

theorem canonical_fix_pri :
    ∀ c ∈ CANONICAL_PRIORITY, normalizeValue (.str c) CANONICAL_PRIORITY "medium" = c := by
  decide

theorem canonical_fix_conf :
    ∀ c ∈ ["high", "medium", "low"],
      normalizeValue (.str c) ["high", "medium", "low"] "medium" = c := by
  decide

theorem canonical_fix_va :
    ∀ c ∈ CANONICAL_VISUAL_ACTIONS,
      normalizeValue (.str c) CANONICAL_VISUAL_ACTIONS "highlight_outliers" = c := by
  decide

/-! ### List-scan fixed points for the second validation pass -/

theorem normAggs_idem : ∀ l : List (String × PyVal),
    (l.map (fun kv => (kv.1, floatIfNumeric kv.2))).map (fun kv => (kv.1, floatIfNumeric kv.2))
      = l.map (fun kv => (kv.1, floatIfNumeric kv.2)) := by
  intro l
  induction l with
  | nil => rfl
  | cons kv rest ih => simp [ih, floatIfNumeric_idem]

theorem aggKeyIssues_of_norm (kn nc : List String) : ∀ l : List (String × PyVal),
    ((l.map (fun kv => (kv.1, floatIfNumeric kv.2))).filterMap (fun kv =>
      if !(kn.contains kv.1) && !(nc.any (fun col => strContains kv.1 col))
      then some ("aggregate key " ++ kv.1 ++ " not found in KPIs or numeric columns")
      else Option.none))
    = l.filterMap (fun kv =>
      if !(kn.contains kv.1) && !(nc.any (fun col => strContains kv.1 col))
      then some ("aggregate key " ++ kv.1 ++ " not found in KPIs or numeric columns")
      else Option.none) := by
  intro l
  induction l with
  | nil => rfl
  | cons kv rest ih =>
    simp only [List.map_cons, List.filterMap_cons, ih]

theorem kept_mem_inv (maxIndex : Int) : ∀ raw : List PyVal,
    ∀ x ∈ ((raw.map (fun idx =>
      match pyToInt? idx with
      | some i =>
        if 0 ≤ i ∧ i ≤ maxIndex then (([] : List String), [PyVal.int i])
        else (["row_index " ++ intStr i ++ " out of range [0, " ++ intStr maxIndex ++ "]"],
          ([] : List PyVal))
      | Option.none => (["row_index " ++ pyStr idx ++ " is not an integer"],
          ([] : List PyVal)))).map Prod.snd).flatten,
      ∃ i : Int, x = PyVal.int i ∧ 0 ≤ i ∧ i ≤ maxIndex := by
  intro raw
  induction raw with
  | nil => intro x hx; simp at hx
  | cons idx rest ih =>
    intro x hx
    simp only [List.map_cons, List.flatten_cons, List.mem_append] at hx
    rcases hx with hx | hx
    · rcases hp : pyToInt? idx with _ | i
      · simp [hp] at hx
      · by_cases hrange : 0 ≤ i ∧ i ≤ maxIndex
        · simp [hp, hrange] at hx
          exact ⟨i, hx, hrange.1, hrange.2⟩
        · simp [hp, hrange] at hx
    · exact ih x hx

theorem row_pass2 (maxIndex : Int) : ∀ kept : List PyVal,
    (∀ x ∈ kept, ∃ i : Int, x = PyVal.int i ∧ 0 ≤ i ∧ i ≤ maxIndex) →
    (((kept.map (fun idx =>
      match pyToInt? idx with
      | some i =>
        if 0 ≤ i ∧ i ≤ maxIndex then (([] : List String), [PyVal.int i])
        else (["row_index " ++ intStr i ++ " out of range [0, " ++ intStr maxIndex ++ "]"],
          ([] : List PyVal))
      | Option.none => (["row_index " ++ pyStr idx ++ " is not an integer"],
          ([] : List PyVal)))).map Prod.fst).flatten = []
    ∧ ((kept.map (fun idx =>
      match pyToInt? idx with
      | some i =>
        if 0 ≤ i ∧ i ≤ maxIndex then (([] : List String), [PyVal.int i])
        else (["row_index " ++ intStr i ++ " out of range [0, " ++ intStr maxIndex ++ "]"],
          ([] : List PyVal))
      | Option.none => (["row_index " ++ pyStr idx ++ " is not an integer"],
          ([] : List PyVal)))).map Prod.snd).flatten = kept) := by
  intro kept
  induction kept with
  | nil => intro _; exact ⟨rfl, rfl⟩
  | cons x rest ih =>
    intro h
    obtain ⟨i, rfl, hr1, hr2⟩ := h x (List.mem_cons_self x rest)
    obtain ⟨ih1, ih2⟩ := ih (fun y hy => h y (List.mem_cons_of_mem (PyVal.int i) hy))
    have hhead : (fun idx =>
        match pyToInt? idx with
        | some i =>
          if 0 ≤ i ∧ i ≤ maxIndex then (([] : List String), [PyVal.int i])
          else (["row_index " ++ intStr i ++ " out of range [0, " ++ intStr maxIndex ++ "]"],
            ([] : List PyVal))
        | Option.none => (["row_index " ++ pyStr idx ++ " is not an integer"],
            ([] : List PyVal))) (PyVal.int i)
        = (([] : List String), [PyVal.int i]) := by
      dsimp only [pyToInt?]
      rw [if_pos ⟨hr1, hr2⟩]
    constructor
    · simp only [List.map_cons, hhead, List.flatten_cons, ih1, List.nil_append]
    · simp only [List.map_cons, hhead, List.flatten_cons, ih2, List.singleton_append]

theorem bs_all_ne (raw : List PyVal) :
    ∀ s ∈ (raw.filter PyVal.truthy).map pyStr, s ≠ "" := by
  intro s hs
  simp only [List.mem_map, List.mem_filter] at hs
  obtain ⟨v, ⟨_, hv⟩, rfl⟩ := hs
  exact pyStr_ne_empty_of_truthy hv

theorem bs_strs_pass2 : ∀ bs : List String, (∀ s ∈ bs, s ≠ "") →
    ((bs.map PyVal.str).filter PyVal.truthy).map pyStr = bs := by
  intro bs
  induction bs with
  | nil => intro _; rfl
  | cons s rest ih =>
    intro h
    have hs : (PyVal.str s).truthy = true := by
      simp only [PyVal.truthy, decide_eq_true_eq]
      exact h s (List.mem_cons_self s rest)
    rw [List.map_cons, List.filter_cons_of_pos hs, List.map_cons,
      ih (fun y hy => h y (List.mem_cons_of_mem s hy))]
    rfl

theorem exceptMapM_mem_inv {α β : Type} {f : α → Except PyErr β} :
    ∀ {l : List α} {rs : List β}, exceptMapM f l = Except.ok rs →
      ∀ r ∈ rs, ∃ a ∈ l, f a = Except.ok r := by
  intro l
  induction l with
  | nil =>
    intro rs h r hr
    simp only [exceptMapM] at h
    cases h
    simp at hr
  | cons x xs ih =>
    intro rs h r hr
    simp only [exceptMapM] at h
    obtain ⟨y, hy, h⟩ := except_bind_ok_inv h
    obtain ⟨ys, hys, h⟩ := except_bind_ok_inv h
    have hrs : y :: ys = rs := by
      simpa using h
    subst hrs
    rcases List.mem_cons.mp hr with rfl | hr
    · exact ⟨x, List.mem_cons_self x xs, hy⟩
    · obtain ⟨a, ha, hfa⟩ := ih hys r hr
      exact ⟨a, List.mem_cons_of_mem x ha, hfa⟩

/-! ### Second pass through `_validate_evidence` -/

theorem validateEvidence_fixpoint {ctx kpis nsv cp : PyVal} {kn nc : List String}
    {plen : Nat}
    (hkpis : pyGetD ctx "kpis" (.dict []) = Except.ok kpis)
    (hkn : pyKeys kpis = Except.ok kn)
    (hnsv : pyGetD kpis "numericStats" (.dict []) = Except.ok nsv)
    (hnc : pyKeys nsv = Except.ok nc)
    (hcp : pyGetD ctx "cleanedPreview" (.list []) = Except.ok cp)
    (hplen : pyLen cp = Except.ok plen)
    (aggs : List (String × PyVal)) (kept : List PyVal) (cv : PyVal)
    (hkept : ∀ x ∈ kept, ∃ i : Int, x = PyVal.int i ∧ 0 ≤ i ∧ i ≤ (plen : Int) - 1)
    (hcv : cv = PyVal.none ∨ (pyHashable cv = true
        ∧ ∃ ids, edaChartIds ctx = Except.ok ids
        ∧ ids.any (fun x => pyEq x cv) = true)) :
    validateEvidence [("aggregates", .dict (aggs.map (fun kv => (kv.1, floatIfNumeric kv.2)))),
        ("row_indices", .list kept), ("chart_id", cv)] ctx
      = Except.ok (.dict [
            ("aggregates", .dict (aggs.map (fun kv => (kv.1, floatIfNumeric kv.2)))),
            ("row_indices", .list kept), ("chart_id", cv)],
          aggs.filterMap (fun kv =>
            if !(kn.contains kv.1) && !(nc.any (fun col => strContains kv.1 col))
            then some ("aggregate key " ++ kv.1 ++ " not found in KPIs or numeric columns")
            else Option.none)) := by
  have hrow := row_pass2 ((plen : Int) - 1) kept hkept
  have hg1 : dictGetD [("aggregates",
        PyVal.dict (aggs.map (fun kv => (kv.1, floatIfNumeric kv.2)))),
        ("row_indices", PyVal.list kept), ("chart_id", cv)] "aggregates" (.dict [])
      = PyVal.dict (aggs.map (fun kv => (kv.1, floatIfNumeric kv.2))) := rfl
  have hg2 : dictGetD [("aggregates",
        PyVal.dict (aggs.map (fun kv => (kv.1, floatIfNumeric kv.2)))),
        ("row_indices", PyVal.list kept), ("chart_id", cv)] "row_indices" (.list [])
      = PyVal.list kept := rfl
  have hg3 : dictGetD [("aggregates",
        PyVal.dict (aggs.map (fun kv => (kv.1, floatIfNumeric kv.2)))),
        ("row_indices", PyVal.list kept), ("chart_id", cv)] "chart_id" .none
      = cv := rfl
  simp only [validateEvidence, hg1, hg2, hg3, hkpis, hkn, hnsv, hnc, hcp, hplen,
    except_bind_ok, aggKeyIssues_of_norm, normAggs_idem, hrow.1, hrow.2]
  rcases hcv with rfl | ⟨hh, ids, hids, hany⟩
  · simp
  · cases cv with
    | none => simp
    | bool b =>
      simp only [hids, except_bind_ok]
      rw [if_neg (by simp [hh]), if_pos hany]
      simp
    | int n =>
      simp only [hids, except_bind_ok]
      rw [if_neg (by simp [hh]), if_pos hany]
      simp
    | float q =>
      simp only [hids, except_bind_ok]
      rw [if_neg (by simp [hh]), if_pos hany]
      simp
    | str s =>
      simp only [hids, except_bind_ok]
      rw [if_neg (by simp [hh]), if_pos hany]
      simp
    | list xs =>
      simp only [hids, except_bind_ok]
      rw [if_neg (by simp [hh]), if_pos hany]
      simp
    | dict kvs =>
      simp only [hids, except_bind_ok]
      rw [if_neg (by simp [hh]), if_pos hany]
      simp

theorem validateEvidence_pass2 {ev : List (String × PyVal)} {ctx : PyVal}
    {e : PyVal} {eIss : List String}
    (h : validateEvidence ev ctx = Except.ok (e, eIss)) :
    ∃ ekvs eIss2, e = PyVal.dict ekvs
      ∧ validateEvidence ekvs ctx = Except.ok (e, eIss2)
      ∧ ∀ x ∈ eIss2, x ∈ eIss := by
  simp only [validateEvidence] at h
  obtain ⟨kpis, hkpis, h⟩ := except_bind_ok_inv h
  obtain ⟨kn, hkn, h⟩ := except_bind_ok_inv h
  obtain ⟨nsv, hnsv, h⟩ := except_bind_ok_inv h
  obtain ⟨nc, hnc, h⟩ := except_bind_ok_inv h
  obtain ⟨cp, hcp, h⟩ := except_bind_ok_inv h
  obtain ⟨plen, hplen, h⟩ := except_bind_ok_inv h
  split at h
  · simp only [except_pure_eq, except_bind_ok, Except.ok.injEq, Prod.mk.injEq] at h
    obtain ⟨he, hiss⟩ := h
    subst he
    subst hiss
    refine ⟨_, _, rfl, validateEvidence_fixpoint hkpis hkn hnsv hnc hcp hplen _ _ _
        (kept_mem_inv _ _) (Or.inl rfl), ?_⟩
    intro x hx
    simp only [List.mem_append]
    tauto
  · obtain ⟨ids, hids, h⟩ := except_bind_ok_inv h
    split at h
    · exact absurd h (by simp [except_bind_error])
    · rename_i hnh
      have hh := eq_false_of_ne_true hnh
      rw [Bool.not_eq_false'] at hh
      split at h
      · rename_i hany
        simp only [except_pure_eq, except_bind_ok, Except.ok.injEq, Prod.mk.injEq] at h
        obtain ⟨he, hiss⟩ := h
        subst he
        subst hiss
        refine ⟨_, _, rfl, validateEvidence_fixpoint hkpis hkn hnsv hnc hcp hplen _ _ _
            (kept_mem_inv _ _) (Or.inr ⟨hh, ids, hids, hany⟩), ?_⟩
        intro x hx
        simp only [List.mem_append]
        tauto
      · simp only [except_pure_eq, except_bind_ok, Except.ok.injEq, Prod.mk.injEq] at h
        obtain ⟨he, hiss⟩ := h
        subst he
        subst hiss
        refine ⟨_, _, rfl, validateEvidence_fixpoint hkpis hkn hnsv hnc hcp hplen _ _ _
            (kept_mem_inv _ _) (Or.inl rfl), ?_⟩
        intro x hx
        simp only [List.mem_append]
        tauto

/-! ### Second pass through `_normalize_insight` and `_normalize_visual_action` -/

theorem insightId_starts (s : String) (idx : Nat) :
    strStartsWith (if strStartsWith s "i" = true then s else "i" ++ natStr (idx + 1)) "i"
      = true := by
  split
  · assumption
  · exact strStartsWith_i_append _

theorem params_dict (X : PyVal) : ∃ pkvs,
    (match X with | PyVal.dict kvs => PyVal.dict kvs | _ => PyVal.dict [])
      = PyVal.dict pkvs := by
  cases X <;> exact ⟨_, rfl⟩

theorem normalizeInsight_fixpoint {ctx : PyVal} {eIss2 : List String}
    {ekvs : List (String × PyVal)}
    (tID : String) (hstart : strStartsWith tID "i" = true)
    (TXT : PyVal) (htr : TXT.truthy = true) {n : Nat} (hlen : pyLen TXT = Except.ok n)
    (hge : ¬ n < 10)
    (SEV : String) (hsev : SEV ∈ CANONICAL_SEVERITY)
    (CAT : String) (hcat : CAT ∈ CANONICAL_CATEGORY)
    (EV : PyVal) (hev : validateEvidence ekvs ctx = Except.ok (EV, eIss2))
    (hEV : EV = PyVal.dict ekvs)
    (WHO : String) (hwho : WHO ∈ CANONICAL_WHO)
    (WHAT : PyVal)
    (PRI : String) (hpri : PRI ∈ CANONICAL_PRIORITY)
    (idx2 : Nat) :
    normalizeInsight [("id", .str tID), ("text", TXT), ("severity", .str SEV),
      ("category", .str CAT), ("evidence", EV),
      ("recommendation", .dict [("who", .str WHO), ("what", WHAT), ("priority", .str PRI)])]
      idx2 ctx
      = Except.ok (.dict [("id", .str tID), ("text", TXT), ("severity", .str SEV),
          ("category", .str CAT), ("evidence", EV),
          ("recommendation", .dict [("who", .str WHO), ("what", WHAT), ("priority", .str PRI)])],
        eIss2.map (fun i => "insight " ++ tID ++ ": " ++ i)) := by
  have hg1 : dictGetD [("id", PyVal.str tID), ("text", TXT), ("severity", .str SEV),
      ("category", .str CAT), ("evidence", EV),
      ("recommendation", .dict [("who", .str WHO), ("what", WHAT), ("priority", .str PRI)])]
      "id" (.str ("i" ++ natStr (idx2 + 1))) = PyVal.str tID := rfl
  have hg2 : dictGetD [("id", PyVal.str tID), ("text", TXT), ("severity", .str SEV),
      ("category", .str CAT), ("evidence", EV),
      ("recommendation", .dict [("who", .str WHO), ("what", WHAT), ("priority", .str PRI)])]
      "text" (.str "") = TXT := rfl
  have hg3 : dictGetD [("id", PyVal.str tID), ("text", TXT), ("severity", .str SEV),
      ("category", .str CAT), ("evidence", EV),
      ("recommendation", .dict [("who", .str WHO), ("what", WHAT), ("priority", .str PRI)])]
      "severity" (.str "medium") = PyVal.str SEV := rfl
  have hg4 : dictGetD [("id", PyVal.str tID), ("text", TXT), ("severity", .str SEV),
      ("category", .str CAT), ("evidence", EV),
      ("recommendation", .dict [("who", .str WHO), ("what", WHAT), ("priority", .str PRI)])]
      "category" (.str "quality") = PyVal.str CAT := rfl
  have hg5 : dictGetD [("id", PyVal.str tID), ("text", TXT), ("severity", .str SEV),
      ("category", .str CAT), ("evidence", EV),
      ("recommendation", .dict [("who", .str WHO), ("what", WHAT), ("priority", .str PRI)])]
      "evidence" (.dict []) = EV := rfl
  have hg6 : dictGetD [("id", PyVal.str tID), ("text", TXT), ("severity", .str SEV),
      ("category", .str CAT), ("evidence", EV),
      ("recommendation", .dict [("who", .str WHO), ("what", WHAT), ("priority", .str PRI)])]
      "recommendation" (.dict [])
      = PyVal.dict [("who", .str WHO), ("what", WHAT), ("priority", .str PRI)] := rfl
  subst hEV
  simp only [normalizeInsight, hg1, hg2, hg3, hg4, hg5, hg6, except_pure_eq,
    except_bind_ok, htr, Bool.not_true, Bool.false_eq_true, if_false, hlen, hstart,
    if_true, hev, canonical_fix_sev SEV hsev, canonical_fix_cat CAT hcat,
    canonical_fix_who WHO hwho, canonical_fix_pri PRI hpri]
  rw [if_neg hge]
  have hr1 : dictGetD [("who", PyVal.str WHO), ("what", WHAT), ("priority", PyVal.str PRI)]
      "who" (.str "analyst") = PyVal.str WHO := rfl
  have hr2 : dictGetD [("who", PyVal.str WHO), ("what", WHAT), ("priority", PyVal.str PRI)]
      "what" (.str "Review and investigate") = WHAT := rfl
  have hr3 : dictGetD [("who", PyVal.str WHO), ("what", WHAT), ("priority", PyVal.str PRI)]
      "priority" (.str "medium") = PyVal.str PRI := rfl
  simp only [except_pure_eq, except_bind_ok, hr1, hr2, hr3,
    canonical_fix_who WHO hwho, canonical_fix_pri PRI hpri, List.nil_append]

theorem normalizeInsight_pass2 {ikvs : List (String × PyVal)} {idx : Nat} {ctx v : PyVal}
    {iss : List String} (h : normalizeInsight ikvs idx ctx = Except.ok (v, iss)) :
    ∃ vkvs iss2, v = PyVal.dict vkvs
      ∧ (∀ idx2, normalizeInsight vkvs idx2 ctx = Except.ok (v, iss2))
      ∧ ∀ x ∈ iss2, x ∈ iss := by
  simp only [normalizeInsight] at h
  split at h
  case _ =>
    rename_i s heq
    simp only [except_pure_eq, except_bind_ok] at h
    generalize htid : (if strStartsWith s "i" = true then s
      else "i" ++ natStr (idx + 1)) = tID at h
    have hstart : strStartsWith tID "i" = true := htid ▸ insightId_starts s idx
    split at h
    · -- text falsy
      obtain ⟨evr, hevr, h⟩ := except_bind_ok_inv h
      simp only [except_pure_eq, Except.ok.injEq, Prod.mk.injEq] at h
      obtain ⟨he, hiss⟩ := h
      subst he
      subst hiss
      obtain ⟨ekvs, eIss2, hEV, hev2, hsub⟩ := validateEvidence_pass2 hevr
      refine ⟨_, _, rfl, fun idx2 => normalizeInsight_fixpoint tID hstart _ (by decide)
        (by rfl) (by decide) _ (normalizeValue_mem (by decide))
        _ (normalizeValue_mem (by decide)) _ hev2 hEV
        _ (normalizeValue_mem (by decide)) _ _ (normalizeValue_mem (by decide)) idx2, ?_⟩
      intro x hx
      simp only [List.mem_map] at hx
      obtain ⟨y, hy, rfl⟩ := hx
      have hx2 := List.mem_map_of_mem (fun i => "insight " ++ tID ++ ": " ++ i) (hsub y hy)
      simp only [List.mem_append, List.mem_map]
      tauto
    · -- text truthy
      rename_i hne
      have htr : (dictGetD ikvs "text" (.str "")).truthy = true := by
        simpa using hne
      obtain ⟨n, hlen, h⟩ := except_bind_ok_inv h
      split at h
      · -- short text
        obtain ⟨evr, hevr, h⟩ := except_bind_ok_inv h
        simp only [except_pure_eq, Except.ok.injEq, Prod.mk.injEq] at h
        obtain ⟨he, hiss⟩ := h
        subst he
        subst hiss
        obtain ⟨ekvs, eIss2, hEV, hev2, hsub⟩ := validateEvidence_pass2 hevr
        refine ⟨_, _, rfl, fun idx2 => normalizeInsight_fixpoint tID hstart _ (by decide)
          (by rfl) (by decide) _ (normalizeValue_mem (by decide))
          _ (normalizeValue_mem (by decide)) _ hev2 hEV
          _ (normalizeValue_mem (by decide)) _ _ (normalizeValue_mem (by decide)) idx2, ?_⟩
        intro x hx
        simp only [List.mem_map] at hx
        obtain ⟨y, hy, rfl⟩ := hx
        have hx2 := List.mem_map_of_mem (fun i => "insight " ++ tID ++ ": " ++ i) (hsub y hy)
        simp only [List.mem_append, List.mem_map]
        tauto
      · -- long text
        rename_i hge
        obtain ⟨evr, hevr, h⟩ := except_bind_ok_inv h
        simp only [except_pure_eq, Except.ok.injEq, Prod.mk.injEq] at h
        obtain ⟨he, hiss⟩ := h
        subst he
        subst hiss
        obtain ⟨ekvs, eIss2, hEV, hev2, hsub⟩ := validateEvidence_pass2 hevr
        refine ⟨_, _, rfl, fun idx2 => normalizeInsight_fixpoint tID hstart _ htr
          hlen hge _ (normalizeValue_mem (by decide))
          _ (normalizeValue_mem (by decide)) _ hev2 hEV
          _ (normalizeValue_mem (by decide)) _ _ (normalizeValue_mem (by decide)) idx2, ?_⟩
        intro x hx
        simp only [List.mem_map] at hx
        obtain ⟨y, hy, rfl⟩ := hx
        have hx2 := List.mem_map_of_mem (fun i => "insight " ++ tID ++ ": " ++ i) (hsub y hy)
        simp only [List.mem_append, List.mem_map]
        tauto
  case _ =>
    simp only [except_bind_error] at h
    simp at h

theorem normalizeVisualAction_fixpoint {ctx : PyVal} {ids : List PyVal}
    (CH : PyVal) (htr : CH.truthy = true) (hh : pyHashable CH = true)
    (hids : edaChartIds ctx = Except.ok ids)
    (hany : ids.any (fun x => pyEq x CH) = true)
    (AT : String) (hat : AT ∈ CANONICAL_VISUAL_ACTIONS)
    (pkvs : List (String × PyVal)) :
    normalizeVisualAction [("chart_id", CH), ("action", .str AT), ("params", .dict pkvs)] ctx
      = Except.ok (some (PyVal.dict [("chart_id", CH), ("action", .str AT),
          ("params", .dict pkvs)]), []) := by
  have hg1 : dictGetD [("chart_id", CH), ("action", PyVal.str AT), ("params", PyVal.dict pkvs)]
      "chart_id" .none = CH := rfl
  have hg2 : dictGetD [("chart_id", CH), ("action", PyVal.str AT), ("params", PyVal.dict pkvs)]
      "action" (.str "") = PyVal.str AT := rfl
  have hg3 : dictGetD [("chart_id", CH), ("action", PyVal.str AT), ("params", PyVal.dict pkvs)]
      "params" (.dict []) = PyVal.dict pkvs := rfl
  simp only [normalizeVisualAction, hg1, hg2, hg3, htr, hh, Bool.not_true,
    Bool.false_eq_true, if_false, hids, except_bind_ok, hany, canonical_fix_va AT hat,
    except_pure_eq]

theorem normalizeVisualAction_pass2 {akvs : List (String × PyVal)} {ctx w : PyVal}
    {iss : List String}
    (h : normalizeVisualAction akvs ctx = Except.ok (some w, iss)) :
    ∃ wkvs, w = PyVal.dict wkvs
      ∧ normalizeVisualAction wkvs ctx = Except.ok (some w, []) := by
  simp only [normalizeVisualAction] at h
  split at h
  · simp only [except_pure_eq, Except.ok.injEq, Prod.mk.injEq] at h
    exact absurd h.1 (by simp)
  · rename_i hne
    have htr : (dictGetD akvs "chart_id" .none).truthy = true := by simpa using hne
    obtain ⟨ids, hids, h⟩ := except_bind_ok_inv h
    split at h
    · exact absurd h (by simp)
    · rename_i hnh
      have hh : pyHashable (dictGetD akvs "chart_id" .none) = true := by
        simpa using hnh
      split at h
      · simp only [except_pure_eq, Except.ok.injEq, Prod.mk.injEq] at h
        exact absurd h.1 (by simp)
      · rename_i hne2
        have hany : ids.any (fun x => pyEq x (dictGetD akvs "chart_id" .none)) = true := by
          simpa using hne2
        obtain ⟨pkvs, hp⟩ := params_dict (dictGetD akvs "params" (.dict []))
        rw [hp] at h
        simp only [except_pure_eq, Except.ok.injEq, Prod.mk.injEq, Option.some.injEq] at h
        obtain ⟨hw, hiss⟩ := h
        subst hw
        exact ⟨_, rfl, normalizeVisualAction_fixpoint _ htr hh hids hany _
          (normalizeValue_mem (by decide)) pkvs⟩

theorem insightStep_pass2 {ctx : PyVal} {ikvs : List (String × PyVal)} {j : Nat}
    {vi : PyVal} {issi : List String}
    (h : normalizeInsight ikvs j ctx = Except.ok (vi, issi)) :
    ∀ j2 : Nat, ∃ iss2, insightStep ctx (j2, vi) = Except.ok (some vi, iss2)
      ∧ ∀ x ∈ iss2, x ∈ issi := by
  obtain ⟨vkvs, iss2, hv, hfix, hsub⟩ := normalizeInsight_pass2 h
  intro j2
  subst hv
  refine ⟨iss2, ?_, hsub⟩
  simp only [insightStep, hfix j2, except_bind_ok, except_pure_eq]

theorem actionStep_pass2 {ctx : PyVal} {akvs : List (String × PyVal)} {a : PyVal}
    {issa : List String}
    (h : normalizeVisualAction akvs ctx = Except.ok (some a, issa)) :
    actionStep ctx a = Except.ok (some a, []) := by
  obtain ⟨wkvs, hw, hfix⟩ := normalizeVisualAction_pass2 h
  subst hw
  simp only [actionStep, hfix]

theorem snd_mem_of_mem_enumFrom {α : Type} : ∀ {n : Nat} {l : List α} {p : Nat × α},
    p ∈ l.enumFrom n → p.2 ∈ l := by
  intro n l
  induction l generalizing n with
  | nil => intro p hp; simp [List.enumFrom] at hp
  | cons x xs ih =>
    intro p hp
    simp only [List.enumFrom, List.mem_cons] at hp
    rcases hp with rfl | hp
    · exact List.mem_cons_self _ _
    · exact List.mem_cons_of_mem _ (ih hp)

theorem snd_mem_of_mem_enum {α : Type} {l : List α} {p : Nat × α}
    (hp : p ∈ l.enum) : p.2 ∈ l :=
  snd_mem_of_mem_enumFrom hp

theorem enumFrom_map_snd {α : Type} : ∀ (n : Nat) (l : List α),
    (l.enumFrom n).map Prod.snd = l := by
  intro n l
  induction l generalizing n with
  | nil => rfl
  | cons x xs ih => simp only [List.enumFrom, List.map_cons, ih]

theorem enum_map_snd {α : Type} (l : List α) : l.enum.map Prod.snd = l :=
  enumFrom_map_snd 0 l

theorem exceptMapM_pass2_ins {f : Nat × PyVal → Except PyErr (Option PyVal × List String)}
    {S : List String} :
    ∀ L : List (Nat × PyVal),
      (∀ p ∈ L, ∃ iss2, f p = Except.ok (some p.2, iss2) ∧ ∀ x ∈ iss2, x ∈ S) →
      ∃ rs, exceptMapM f L = Except.ok rs
        ∧ rs.filterMap Prod.fst = L.map Prod.snd
        ∧ ∀ x ∈ (rs.map Prod.snd).flatten, x ∈ S := by
  intro L
  induction L with
  | nil => intro _; exact ⟨[], rfl, rfl, by intro x hx; simp at hx⟩
  | cons p rest ih =>
    intro h
    obtain ⟨iss2, hf, hsub⟩ := h p (List.mem_cons_self p rest)
    obtain ⟨rs, hrs, hfil, hflat⟩ := ih (fun q hq => h q (List.mem_cons_of_mem p hq))
    refine ⟨(some p.2, iss2) :: rs, ?_, ?_, ?_⟩
    · simp only [exceptMapM, hf, except_bind_ok, hrs, except_pure_eq]
    · simp only [List.filterMap_cons, hfil, List.map_cons]
    · intro x hx
      simp only [List.map_cons, List.flatten_cons, List.mem_append] at hx
      rcases hx with hx | hx
      · exact hsub x hx
      · exact hflat x hx

theorem exceptMapM_pass2_act {f : PyVal → Except PyErr (Option PyVal × List String)} :
    ∀ L : List PyVal, (∀ a ∈ L, f a = Except.ok (some a, ([] : List String))) →
      ∃ rs, exceptMapM f L = Except.ok rs
        ∧ rs.filterMap Prod.fst = L
        ∧ (rs.map Prod.snd).flatten = [] := by
  intro L
  induction L with
  | nil => intro _; exact ⟨[], rfl, rfl, rfl⟩
  | cons a rest ih =>
    intro h
    obtain ⟨rs, hrs, hfil, hflat⟩ := ih (fun b hb => h b (List.mem_cons_of_mem a hb))
    refine ⟨(some a, []) :: rs, ?_, ?_, ?_⟩
    · simp only [exceptMapM, h a (List.mem_cons_self a rest), except_bind_ok, hrs,
        except_pure_eq]
    · simp only [List.filterMap_cons, hfil]
    · simp only [List.map_cons, List.flatten_cons, hflat, List.nil_append]

theorem pySetKey_issues (a b c d e X : PyVal) :
    pySetKey (PyVal.dict [("analystInsights", a), ("businessSummary", b),
      ("visualActions", c), ("metadata", d), ("issues", e)]) "issues" X
    = PyVal.dict [("analystInsights", a), ("businessSummary", b),
      ("visualActions", c), ("metadata", d), ("issues", X)] := rfl

/-- Running `validate_and_normalize` on a value that already has the exact
shape it produces (canonical five keys, normalized insights, nonempty
summary strings, valid visual actions, canonical metadata) returns the
same value with only the recurring issues (a subset of `S`) in the issues
slot. -/
theorem validateAndNormalize_fixpoint {ctx : PyVal} {S : List String}
    (NI : List PyVal) (BS : List String) (VA : List PyVal)
    (conf : String) (DQ TS ISS : PyVal)
    (hcond : (NI.isEmpty && BS.isEmpty) = false)
    (hconf : conf ∈ ["high", "medium", "low"])
    (hbs : ∀ s ∈ BS, s ≠ "")
    (hins : ∀ p ∈ NI.enum, ∃ iss2, insightStep ctx p = Except.ok (some p.2, iss2)
      ∧ ∀ x ∈ iss2, x ∈ S)
    (hact : ∀ a ∈ VA, actionStep ctx a = Except.ok (some a, ([] : List String))) :
    ∃ iss2, validateAndNormalize (PyVal.dict [
        ("analystInsights", .list NI),
        ("businessSummary", .list (BS.map PyVal.str)),
        ("visualActions", .list VA),
        ("metadata", .dict [("total_insights", .int NI.length),
          ("confidence", .str conf), ("data_quality_score", DQ),
          ("analysis_timestamp", TS)]),
        ("issues", ISS)]) ctx
      = Except.ok (some (PyVal.dict [
          ("analystInsights", .list NI),
          ("businessSummary", .list (BS.map PyVal.str)),
          ("visualActions", .list VA),
          ("metadata", .dict [("total_insights", .int NI.length),
            ("confidence", .str conf), ("data_quality_score", DQ),
            ("analysis_timestamp", TS)]),
          ("issues", .list (iss2.map PyVal.str))]), iss2)
      ∧ ∀ x ∈ iss2, x ∈ S := by
  obtain ⟨rs2, hrs2, hfil2, hflat2⟩ := exceptMapM_pass2_ins NI.enum hins
  obtain ⟨rsA, hrsA, hfilA, hflatA⟩ := exceptMapM_pass2_act VA hact
  have hbs2 : ((BS.map PyVal.str).filter PyVal.truthy).map pyStr = BS := bs_strs_pass2 BS hbs
  have heff : (dictHas [("analystInsights", PyVal.list NI),
      ("businessSummary", .list (BS.map PyVal.str)), ("visualActions", .list VA),
      ("metadata", .dict [("total_insights", .int NI.length), ("confidence", .str conf),
        ("data_quality_score", DQ), ("analysis_timestamp", TS)]),
      ("issues", ISS)] "insights"
      && !(dictHas [("analystInsights", PyVal.list NI),
      ("businessSummary", .list (BS.map PyVal.str)), ("visualActions", .list VA),
      ("metadata", .dict [("total_insights", .int NI.length), ("confidence", .str conf),
        ("data_quality_score", DQ), ("analysis_timestamp", TS)]),
      ("issues", ISS)] "analystInsights")) = false := rfl
  have hga : pyGetD (PyVal.dict [("analystInsights", PyVal.list NI),
      ("businessSummary", .list (BS.map PyVal.str)), ("visualActions", .list VA),
      ("metadata", .dict [("total_insights", .int NI.length), ("confidence", .str conf),
        ("data_quality_score", DQ), ("analysis_timestamp", TS)]),
      ("issues", ISS)]) "analystInsights" (.list [])
      = Except.ok (PyVal.list NI) := rfl
  have hgb : pyGetD (PyVal.dict [("analystInsights", PyVal.list NI),
      ("businessSummary", .list (BS.map PyVal.str)), ("visualActions", .list VA),
      ("metadata", .dict [("total_insights", .int NI.length), ("confidence", .str conf),
        ("data_quality_score", DQ), ("analysis_timestamp", TS)]),
      ("issues", ISS)]) "businessSummary" (.list [])
      = Except.ok (PyVal.list (BS.map PyVal.str)) := rfl
  have hgv : pyGetD (PyVal.dict [("analystInsights", PyVal.list NI),
      ("businessSummary", .list (BS.map PyVal.str)), ("visualActions", .list VA),
      ("metadata", .dict [("total_insights", .int NI.length), ("confidence", .str conf),
        ("data_quality_score", DQ), ("analysis_timestamp", TS)]),
      ("issues", ISS)]) "visualActions" (.list [])
      = Except.ok (PyVal.list VA) := rfl
  have hgm : pyGetD (PyVal.dict [("analystInsights", PyVal.list NI),
      ("businessSummary", .list (BS.map PyVal.str)), ("visualActions", .list VA),
      ("metadata", .dict [("total_insights", .int NI.length), ("confidence", .str conf),
        ("data_quality_score", DQ), ("analysis_timestamp", TS)]),
      ("issues", ISS)]) "metadata" (.dict [])
      = Except.ok (PyVal.dict [("total_insights", .int NI.length), ("confidence", .str conf),
        ("data_quality_score", DQ), ("analysis_timestamp", TS)]) := rfl
  have hm1 : dictGetD [("total_insights", PyVal.int NI.length), ("confidence", .str conf),
      ("data_quality_score", DQ), ("analysis_timestamp", TS)] "confidence" (.str "medium")
      = PyVal.str conf := rfl
  have hm2 : dictGetD [("total_insights", PyVal.int NI.length), ("confidence", .str conf),
      ("data_quality_score", DQ), ("analysis_timestamp", TS)] "data_quality_score" (.int 0)
      = DQ := rfl
  have hm3 : dictGetD [("total_insights", PyVal.int NI.length), ("confidence", .str conf),
      ("data_quality_score", DQ), ("analysis_timestamp", TS)] "analysis_timestamp" (.str "")
      = TS := rfl
  have hfil2n : rs2.filterMap Prod.fst = NI := by rw [hfil2, enum_map_snd]
  refine ⟨(rs2.map Prod.snd).flatten, ?_, hflat2⟩
  simp only [validateAndNormalize, heff, Bool.false_eq_true, if_false, hga, hgb, hgv, hgm,
    except_bind_ok, hrs2, hrsA, except_pure_eq, hfil2n, hbs2, hfilA, hflatA,
    hm1, hm2, hm3, canonical_fix_conf conf hconf, List.append_nil, List.nil_append]
  rw [if_neg (by rw [hcond]; exact Bool.false_ne_true)]

theorem metaKvs_eq (X : PyVal) : ∃ kvs : List (String × PyVal),
    ((match X with | PyVal.dict kvs => kvs | _ => []) : List (String × PyVal)) = kvs :=
  ⟨_, rfl⟩

theorem bsPair_eq (X : PyVal) : ∃ pr : List String × List PyVal,
    (match X with
     | PyVal.list xs => (([] : List String), xs)
     | _ => (["businessSummary must be a list"], ([] : List PyVal))) = pr :=
  ⟨_, rfl⟩

/-- C10 (amended): `validate_and_normalize` is not literally idempotent --
re-validating a normalized output reproduces the same normalized output
except for its embedded `issues` entry, which is rebuilt from the second
pass's (possibly smaller) issue list: whenever the first pass returns a
normalized output `out1` with issues `iss1`, the second pass on `out1`
returns `out1` with its `issues` entry replaced by the second pass's
issues `iss2`, and every issue of `iss2` already occurred in `iss1`. -/
theorem validator_idempotent_modulo_issues {raw ctx out1 : PyVal} {iss1 : List String}
    (h : validateAndNormalize raw ctx = Except.ok (some out1, iss1)) :
    ∃ iss2, validateAndNormalize out1 ctx
        = Except.ok (some (pySetKey out1 "issues" (.list (iss2.map PyVal.str))), iss2)
      ∧ ∀ x ∈ iss2, x ∈ iss1 := by
  simp only [validateAndNormalize] at h
  split at h
  · rename_i kvs0
    obtain ⟨rIV, hrIV, h⟩ := except_bind_ok_inv h
    obtain ⟨irs, hirs, h⟩ := except_bind_ok_inv h
    obtain ⟨rSV, hrSV, h⟩ := except_bind_ok_inv h
    obtain ⟨rAV, hrAV, h⟩ := except_bind_ok_inv h
    obtain ⟨ars, hars, h⟩ := except_bind_ok_inv h
    obtain ⟨rMV, hrMV, h⟩ := except_bind_ok_inv h
    split at h
    · simp only [except_pure_eq, Except.ok.injEq, Prod.mk.injEq] at h
      exact absurd h.1 (by simp)
    · rename_i hcnd
      simp only [except_pure_eq, Except.ok.injEq, Prod.mk.injEq, Option.some.injEq] at h
      obtain ⟨hout, hiss⟩ := h
      rw [hiss] at hout
      have hall : ∀ vi ∈ irs.filterMap Prod.fst, ∀ j2 : Nat, ∃ iss2,
          insightStep ctx (j2, vi) = Except.ok (some vi, iss2)
          ∧ ∀ x ∈ iss2, x ∈ (irs.map Prod.snd).flatten := by
        intro vi hvi j2
        rw [List.mem_filterMap] at hvi
        obtain ⟨y, hy, hyfst⟩ := hvi
        obtain ⟨x, hx, hfx⟩ := exceptMapM_mem_inv hirs y hy
        rcases x with ⟨j, xv⟩
        cases xv
        case dict ikvs =>
          simp only [insightStep] at hfx
          obtain ⟨r, hr, hpy⟩ := except_bind_ok_inv hfx
          rcases r with ⟨v1, is1⟩
          simp only [except_pure_eq, Except.ok.injEq] at hpy
          subst hpy
          simp only [Option.some.injEq] at hyfst
          subst hyfst
          obtain ⟨iss2, hstep, hsub⟩ := insightStep_pass2 hr j2
          refine ⟨iss2, hstep, fun x hxm => ?_⟩
          exact List.mem_flatten.mpr ⟨is1, List.mem_map_of_mem Prod.snd hy, hsub x hxm⟩
        all_goals
          simp only [insightStep, except_pure_eq, Except.ok.injEq] at hfx
        all_goals
          rw [← hfx] at hyfst
        all_goals
          simp at hyfst
      have hins : ∀ p ∈ (irs.filterMap Prod.fst).enum, ∃ iss2,
          insightStep ctx p = Except.ok (some p.2, iss2)
          ∧ ∀ x ∈ iss2, x ∈ (irs.map Prod.snd).flatten := by
        intro p hp
        exact hall p.2 (snd_mem_of_mem_enum hp) p.1
      have hallA : ∀ a ∈ ars.filterMap Prod.fst,
          actionStep ctx a = Except.ok (some a, ([] : List String)) := by
        intro a ha
        rw [List.mem_filterMap] at ha
        obtain ⟨y, hy, hyfst⟩ := ha
        obtain ⟨x, hx, hfx⟩ := exceptMapM_mem_inv hars y hy
        cases x
        case dict akvs =>
          simp only [actionStep] at hfx
          rcases y with ⟨yo, yiss⟩
          have hyo : yo = some a := hyfst
          subst hyo
          exact actionStep_pass2 hfx
        all_goals
          simp only [actionStep, except_pure_eq, Except.ok.injEq] at hfx
        all_goals
          rw [← hfx] at hyfst
        all_goals
          simp at hyfst
      obtain ⟨RM, hRM⟩ := metaKvs_eq rMV
      rw [hRM] at hout
      obtain ⟨BSP, hBSP⟩ := bsPair_eq rSV
      rw [hBSP] at hout hcnd
      have hconf2 : normalizeValue (dictGetD RM "confidence" (.str "medium"))
          ["high", "medium", "low"] "medium" ∈ ["high", "medium", "low"] :=
        normalizeValue_mem (by decide)
      have hbsne := bs_all_ne BSP.2
      have hcond2 := Bool.eq_false_iff.mpr hcnd
      obtain ⟨iss2, hval, hsub⟩ := validateAndNormalize_fixpoint _ _ _ _
        (dictGetD RM "data_quality_score" (.int 0))
        (dictGetD RM "analysis_timestamp" (.str ""))
        (PyVal.list (iss1.map PyVal.str))
        hcond2 hconf2 hbsne hins hallA
      refine ⟨iss2, ?_, ?_⟩
      · rw [← hout]
        simp only [pySetKey_issues]
        exact hval
      · intro x hx
        have hx2 := hsub x hx
        rw [← hiss]
        simp only [List.mem_append]
        tauto
  all_goals
    simp only [except_pure_eq, Except.ok.injEq, Prod.mk.injEq] at h
  all_goals
    exact absurd h.1 (by simp)

/-- Witness for the amended C10 theorem at the concrete repairable input
`c10CexRaw`: the second pass over its normalized output keeps the output
and drops the repaired-text issue. -/
theorem validator_idempotent_modulo_issues_witness :
    ∃ iss2, validateAndNormalize c10Out1 (PyVal.dict [])
        = Except.ok (some (pySetKey c10Out1 "issues" (.list (iss2.map PyVal.str))), iss2)
      ∧ ∀ x ∈ iss2, x ∈ ["insight i1: text is too short or missing"] :=
  @validator_idempotent_modulo_issues c10CexRaw (PyVal.dict []) c10Out1
    ["insight i1: text is too short or missing"] (by rfl)

end DataPilot
